import Mathlib

/-!
# Lumen: subscription-management dashboard and notification front end

A shallow embedding of the data-shaping code of the repository:

* `Dashboard.jsx`: status pie dataset and its percentages, trailing twelve-month trend series,
  Monthly Revenue card, top-plans table;
* `UsageHistory.jsx`: the trailing twelve-month window of the usage chart, its monthly roll-up
  and the summary cards;
* `NotificationBell.jsx`: fetch, mark-read and mark-all handlers over the local state;
* `SendNotifications.jsx`: the `handleSend` and `handleToggleUser` handlers, the offer snapshot
  and the form as a state machine;
* `ManageUsers.jsx`: the page state with its pagination buttons;
* `userRoutes.js`: the route table, with dispatch by first match.

JavaScript values are embedded as follows.  A field that may be `undefined` is an `Option`.
An awaited promise is the `Except` value it settles to.  React state is a record; a handler is a
function from the state before the call to the state after it, together with the requests it
issued.  Calendar years and months are natural numbers.  A number the pages only pass on is
given by its value; a number they compute with is a `JsNumber`, a double, and `+`, `*` and `/`
round their exact result to the nearest double.
-/

namespace Lumen

/-! ## JavaScript primitives -/

/-- The method `String.prototype.padStart(targetLength, pad)` for a one-character pad string:
the pad is repeated in front of `s` until the target length is reached. -/
def padStart (s : String) (targetLength : Nat) (pad : Char) : String :=
  ⟨List.replicate (targetLength - s.length) pad⟩ ++ s

/-- The template literal `${year}-${String(month).padStart(2,'0')}` used as month key and label
in `Dashboard.jsx` (lines 48 and 50) and in `UsageHistory.jsx` (lines 20 and 25).  The decimal
rendering of a non-negative integer is `toString`. -/
def monthKey (year month : Nat) : String :=
  toString year ++ "-" ++ padStart (toString month) 2 '0'

/-- The pair read from a `Date` by `getFullYear()` and `getMonth()`; `month0` is zero-based. -/
structure JsDate where
  year : Nat
  month0 : Nat
  deriving DecidableEq

/-- The expression `new Date(year, monthIndex, 1)` read back through `getFullYear()` and
`getMonth()`.  As in the language definition, a year argument in `0..99` stands for `1900 + year`,
and a month index outside `0..11` carries into the year: the year is
`yr + floor(monthIndex / 12)` and the month is `monthIndex mod 12`.  (Integer `/` and `%` round
towards minus infinity for the positive divisor 12.)  The date is built and read in the same
local time zone, so the zone plays no part. -/
def newDate (year : Nat) (monthIndex : Int) : JsDate :=
  let yr : Int := if year ≤ 99 then 1900 + (year : Int) else (year : Int)
  { year := (yr + monthIndex / 12).toNat, month0 := (monthIndex % 12).toNat }

/-- The expression `v || 0` for an optional numeric field: `undefined` and `0` both give `0`. -/
def orZero {α : Type} [Zero α] [DecidableEq α] (v : Option α) : α :=
  match v with
  | some x => if x = 0 then 0 else x
  | none => 0

/-- The expression `xs || []` for an optional array. -/
def orEmpty {α : Type} (xs : Option (List α)) : List α :=
  match xs with
  | some l => l
  | none => []

/-- A JavaScript `Map` (or plain object used as a dictionary) with string keys: its entries in
insertion order, at most one per key. -/
structure JsMap (V : Type) where
  entries : List (String × V)

/-- The loop of `Map.prototype.set` over the entries: an existing key keeps its position and
takes the new value, a new key is appended. -/
def JsMap.setEntries {V : Type} (k : String) (v : V) : List (String × V) → List (String × V)
  | [] => [(k, v)]
  | e :: rest => if e.1 = k then (k, v) :: rest else e :: JsMap.setEntries k v rest

/-- The empty map, `new Map()` or `{}`. -/
def JsMap.empty {V : Type} : JsMap V := ⟨[]⟩

/-- The method `Map.prototype.set`, also the assignment `acc[k] = v`. -/
def JsMap.set {V : Type} (m : JsMap V) (k : String) (v : V) : JsMap V :=
  ⟨JsMap.setEntries k v m.entries⟩

/-- The loop of `Map.prototype.get` over the entries. -/
def JsMap.getEntries {V : Type} (k : String) : List (String × V) → Option V
  | [] => none
  | e :: rest => if e.1 = k then some e.2 else JsMap.getEntries k rest

/-- The method `Map.prototype.get`, also the property read `acc[k]`: `none` is `undefined`. -/
def JsMap.get {V : Type} (m : JsMap V) (k : String) : Option V :=
  JsMap.getEntries k m.entries

/-- The constructor `new Map(entries)`: the pairs are set one after the other, so a later pair
with the same key overrides an earlier one. -/
def JsMap.ofEntries {V : Type} (es : List (String × V)) : JsMap V :=
  es.foldl (fun m e => m.set e.1 e.2) JsMap.empty

/-! ## Dashboard.jsx: monthly trends -/

/-- A row of `monthlyTrends`: `{_id: {year, month}, count, revenue}`. -/
structure TrendBucket where
  year : Nat
  month : Nat
  count : Nat
  revenue : ℚ
  deriving DecidableEq

/-- An element of `last12`: `{year, month, label}` with a one-based month. -/
structure MonthEntry where
  year : Nat
  month : Nat
  label : String
  deriving DecidableEq

/-- The constant `last12` of `Dashboard.jsx` (lines 46-49): for `i = 0..11` the date
`new Date(now.getFullYear(), now.getMonth() - (11 - i), 1)`. -/
def last12 (now : JsDate) : List MonthEntry :=
  (List.range 12).map fun (i : Nat) =>
    let d := newDate now.year ((now.month0 : Int) - (11 - (i : Int)))
    { year := d.year, month := d.month0 + 1, label := monthKey d.year (d.month0 + 1) }

/-- The constant `trendsIndex` (line 50): a `Map` from the month key of a bucket to the bucket. -/
def trendsIndex (monthlyTrends : Option (List TrendBucket)) : JsMap TrendBucket :=
  JsMap.ofEntries ((orEmpty monthlyTrends).map fun t => (monthKey t.year t.month, t))

/-- The constant `monthlyCounts` (line 52): `trendsIndex.get(m.label)?.count || 0`. -/
def monthlyCounts (now : JsDate) (monthlyTrends : Option (List TrendBucket)) : List Nat :=
  (last12 now).map fun m => orZero (((trendsIndex monthlyTrends).get m.label).map (·.count))

/-- The constant `monthlyRevenue` (line 53): `trendsIndex.get(m.label)?.revenue || 0`. -/
def monthlyRevenue (now : JsDate) (monthlyTrends : Option (List TrendBucket)) : List ℚ :=
  (last12 now).map fun m => orZero (((trendsIndex monthlyTrends).get m.label).map (·.revenue))

/-! ## UsageHistory.jsx: the chart window -/

/-- The constant `months` of `UsageHistory.jsx` (line 18). -/
def months (now : JsDate) : List JsDate :=
  (List.range 12).map fun (i : Nat) => newDate now.year ((now.month0 : Int) - (11 - (i : Int)))

/-- The constant `keys` of `UsageHistory.jsx` (line 20). -/
def keys (now : JsDate) : List String :=
  (months now).map fun d => monthKey d.year (d.month0 + 1)

/-! ## Calendar months as the specification counts them -/

/-- The calendar month `k` months before month `month` (one-based) of year `year`, as a pair
`(year, month)`: months are counted on the line `12 * year + (month - 1)`. -/
def monthsBefore (year month k : Nat) : Nat × Nat :=
  ((12 * year + (month - 1) - k) / 12, (12 * year + (month - 1) - k) % 12 + 1)

/-- The position of a calendar month on the line of months: later months have larger ordinals
and consecutive calendar months differ by one (December is followed by January). -/
def monthOrdinal (year month : Nat) : Nat := 12 * year + (month - 1)

/-- The `i`-th month (from 0) of the trailing twelve-month window that ends at the month of
`now`. -/
def windowMonth (now : JsDate) (i : Nat) : Nat × Nat :=
  monthsBefore now.year (now.month0 + 1) (11 - i)

/-! ## Decimal rendering and month keys -/

/-- The decimal digits of `n`, most significant first: the characters of `toString n`. -/
def decList (n : Nat) : List Char :=
  if n = 0 then ['0'] else (Nat.digits 10 n).reverse.map Nat.digitChar

/-- The characters of `padStart s 2 (char 0)` in terms of the characters of `s`. -/
def pad2List (l : List Char) : List Char := List.replicate (2 - l.length) '0' ++ l

/-- Whether the month of a bucket is one of the twelve months of the trailing window. -/
def inWindow (now : JsDate) (b : TrendBucket) : Bool :=
  (List.range 12).any fun i => decide ((b.year, b.month) = windowMonth now i)

/-- The calendar month that follows `(year, month)`: December is followed by January of the
next year. -/
def nextMonth (ym : Nat × Nat) : Nat × Nat :=
  if ym.2 = 12 then (ym.1 + 1, 1) else (ym.1, ym.2 + 1)

/-- The (year, month) pairs of `last12`, months one-based. -/
def dashboardWindow (now : JsDate) : List (Nat × Nat) :=
  (last12 now).map fun e => (e.year, e.month)

/-- The (year, month) pairs of `months` in `UsageHistory.jsx`, months one-based. -/
def usageWindow (now : JsDate) : List (Nat × Nat) :=
  (months now).map fun d => (d.year, d.month0 + 1)

/-! ## Service calls -/

/-- The error a rejected service call throws: `e.response?.data?.message` and `e.message`. -/
structure ApiError where
  responseMessage : Option String
  message : Option String
  deriving DecidableEq

/-- The expression `a || b` for an optional string `a`: `undefined` and the empty string both
give `b`. -/
def orString (a : Option String) (b : String) : String :=
  match a with
  | some s => if s = "" then b else s
  | none => b

/-- A call of `showNotification(text, kind)`. -/
structure Notice where
  text : String
  kind : String
  deriving DecidableEq

/-! ## SendNotifications.jsx -/

/-- An element of `offers`: a discount document as `getDiscounts` returns it.  Only `_id`,
`code`, `name`, `type` and `value` are read by `handleSend`; `isActive` and `endDate` are the
fields the query of `fetchOffers` filters and sorts by. -/
structure Offer where
  _id : String
  code : String
  name : String
  type : String
  value : ℚ
  isActive : Bool
  endDate : String
  deriving DecidableEq

/-- The object literal `{ id, code, name, type, value }` assigned to `data.offer` (line 51). -/
structure OfferSnapshot where
  id : String
  code : String
  name : String
  type : String
  value : ℚ
  deriving DecidableEq

/-- The object `data` of a send request, and the field `data` of a notification:
`{}` or `{ offer }`. -/
structure NotificationData where
  offer : Option OfferSnapshot
  deriving DecidableEq

/-- Lines 48-52 of `handleSend`: `data` starts as `{}`; if `offerId` is truthy (a non-empty
string) and `offers.find(o => o._id === offerId)` finds an offer, `data.offer` is set to the
five-field snapshot of that offer. -/
def offerData (offers : List Offer) (offerId : String) : NotificationData :=
  if offerId ≠ "" then
    match offers.find? (fun o => decide (o._id = offerId)) with
    | some offer =>
      { offer := some { id := offer._id, code := offer.code, name := offer.name,
                        type := offer.type, value := offer.value } }
    | none => { offer := none }
  else { offer := none }

/-- The white space and line terminator characters that `String.prototype.trim` removes. -/
def isJsWhitespace (c : Char) : Bool :=
  c.toNat ∈ [0x9, 0xA, 0xB, 0xC, 0xD, 0x20, 0xA0, 0x1680, 0x2028, 0x2029, 0x202F, 0x205F,
    0x3000, 0xFEFF] || (0x2000 ≤ c.toNat && c.toNat ≤ 0x200A)

/-- The method `String.prototype.trim`: white space is removed at both ends. -/
def jsTrim (s : String) : String :=
  ⟨((s.data.dropWhile isJsWhitespace).reverse.dropWhile isJsWhitespace).reverse⟩

/-- A row of `users`, as `getAllUsers` returns it. -/
structure UserRow where
  _id : String
  username : String
  email : String
  deriving DecidableEq

/-- The React state of `SendNotifications` (lines 6-15). -/
structure FormState where
  mode : String
  role : String
  userQuery : String
  selectedUserIds : List String
  message : String
  type : String
  offerId : String
  loading : Bool
  users : List UserRow
  offers : List Offer
  deriving DecidableEq

/-- The initial state: the arguments of the `useState` calls. -/
def FormState.initial : FormState :=
  { mode := "role", role := "user", userQuery := "", selectedUserIds := [], message := "",
    type := "info", offerId := "", loading := false, users := [], offers := [] }

/-- A request issued by `handleSend`: `sendNotificationToRole({ role, message, type, data })`
or `sendNotification({ userIds, message, type, data })`. -/
inductive SendRequest where
  | sendNotificationToRole (role message type : String) (data : NotificationData)
  | sendNotification (userIds : List String) (message type : String) (data : NotificationData)
  deriving DecidableEq

/-- The field `message` of a request. -/
def SendRequest.message : SendRequest → String
  | .sendNotificationToRole _ message _ _ => message
  | .sendNotification _ message _ _ => message

/-- What a run of `handleSend` leaves behind: the state after it, the requests it issued and
the calls of `showNotification` it made, in order. -/
structure SendOutcome where
  state : FormState
  requests : List SendRequest
  notices : List Notice
  deriving DecidableEq

/-- The part of `handleSend` after the request was issued (lines 64-72): on success the
success notice and the three resets, on failure the `catch` block; `finally` clears `loading`
in both cases. -/
def afterSend (st : FormState) (request : SendRequest) (response : Except ApiError Unit) :
    SendOutcome :=
  match response with
  | .ok _ =>
    { state := { st with selectedUserIds := [], message := "", offerId := "", loading := false },
      requests := [request],
      notices := [⟨"Notifications sent successfully", "success"⟩] }
  | .error e =>
    { state := { st with loading := false },
      requests := [request],
      notices := [⟨orString e.responseMessage "Failed to send notifications", "error"⟩] }

/-- The handler `handleSend` (lines 41-73).  `response` is what the awaited service call settles
to, should a request be issued. -/
def handleSend (st : FormState) (response : Except ApiError Unit) : SendOutcome :=
  if jsTrim st.message = "" then
    { state := st, requests := [], notices := [⟨"Please enter a message", "warning"⟩] }
  else
    let st := { st with loading := true }
    let data := offerData st.offers st.offerId
    if st.mode = "role" then
      afterSend st (.sendNotificationToRole st.role st.message st.type data) response
    else if st.selectedUserIds.length = 0 then
      { state := { st with loading := false }, requests := [],
        notices := [⟨"Select at least one user", "warning"⟩] }
    else
      afterSend st (.sendNotification st.selectedUserIds st.message st.type data) response

/-! ## NotificationBell.jsx -/

/-- An element of `items`: `{id, message, type, read, timestamp, data?}`. -/
structure Notification where
  id : String
  message : String
  type : String
  read : Bool
  timestamp : String
  data : Option NotificationData
  deriving DecidableEq

/-- The React state of `NotificationBell` (lines 6-10); `opened` is the state variable `open`. -/
structure BellState where
  opened : Bool
  loading : Bool
  error : Option String
  items : List Notification
  unreadCount : Int
  deriving DecidableEq

/-- The fields `notifications` and `unreadCount` of a response body. -/
structure NotificationsPayload where
  notifications : Option (List Notification)
  unreadCount : Option Int
  deriving DecidableEq

/-- What `getUserNotifications` resolves to: the payload itself, or an object that wraps the
payload under `data` ("service may or may not unwrap"). -/
structure NotificationsResponse where
  data : Option NotificationsPayload
  notifications : Option (List Notification)
  unreadCount : Option Int
  deriving DecidableEq

/-- The handler `fetchNotifications` (lines 14-27): `data` is `res?.data || res`, then
`setItems(data.notifications || [])` and `setUnreadCount(data.unreadCount || 0)`. -/
def fetchNotifications (response : Except ApiError NotificationsResponse) (st : BellState) :
    BellState :=
  let st := { st with loading := true, error := none }
  match response with
  | .ok res =>
    let data : NotificationsPayload :=
      match res.data with
      | some d => d
      | none => { notifications := res.notifications, unreadCount := res.unreadCount }
    { st with items := orEmpty data.notifications, unreadCount := orZero data.unreadCount,
              loading := false }
  | .error e =>
    { st with
      error := some (orString e.responseMessage (orString e.message "Failed to load notifications")),
      loading := false }

/-- The handler `handleMarkRead` (lines 49-55): after the awaited call succeeded, the items with
the given id get `read: true` and the badge count drops by one, not below zero; a rejected call
is swallowed by the empty `catch`. -/
def handleMarkRead (response : Except ApiError Unit) (id : String) (st : BellState) : BellState :=
  match response with
  | .ok _ =>
    let st := { st with
      items := st.items.map fun (n : Notification) =>
        if n.id = id then { n with read := true } else n }
    { st with unreadCount := max 0 (st.unreadCount - 1) }
  | .error _ => st

/-- The handler `handleMarkAll` (lines 57-63). -/
def handleMarkAll (response : Except ApiError Unit) (st : BellState) : BellState :=
  match response with
  | .ok _ =>
    let st := { st with
      items := st.items.map fun (n : Notification) => { n with read := true } }
    { st with unreadCount := 0 }
  | .error _ => st

/-- The number of list positions whose `read` flag is `false` before and `true` after. -/
def flippedCount (before after : List Notification) : Nat :=
  (before.zip after).countP fun p => !p.1.read && p.2.read

/-! ## Dashboard.jsx: status pie and top plans -/

/-- A row of `subscriptionStatusBreakdown`: `{_id: status, count}`. -/
structure StatusRow where
  _id : String
  count : Nat
  deriving DecidableEq

/-- The object `overview` of the dashboard payload; each field may be missing. -/
structure Overview where
  totalUsers : Option Nat
  activeSubscriptions : Option Nat
  totalSubscriptions : Option Nat
  totalPlans : Option Nat
  deriving DecidableEq

/-- The constant `statusCounts` (lines 25-28): the rows are folded into an object with
`acc[row._id] = row.count`.  Only the keys `active`, `cancelled`, `expired` and `pending` are
read from it, none of which names a property of `Object.prototype`, so the object behaves as a
map for these reads. -/
def statusCounts (subscriptionStatusBreakdown : Option (List StatusRow)) : JsMap Nat :=
  (orEmpty subscriptionStatusBreakdown).foldl (fun acc row => acc.set row._id row.count)
    JsMap.empty

/-- The expression `a ?? b`: `b` only when `a` is `undefined` or `null`. -/
def nullish {α : Type} (a : Option α) (b : α) : α :=
  match a with
  | some x => x
  | none => b

/-- The constant `pieActive` (line 29):
`statusCounts['active'] ?? overview?.activeSubscriptions ?? 0`. -/
def pieActive (subscriptionStatusBreakdown : Option (List StatusRow))
    (overview : Option Overview) : Nat :=
  match (statusCounts subscriptionStatusBreakdown).get "active" with
  | some c => c
  | none => nullish (overview.bind (·.activeSubscriptions)) 0

/-- The constant `pieCancelled` (line 30). -/
def pieCancelled (subscriptionStatusBreakdown : Option (List StatusRow)) : Nat :=
  nullish ((statusCounts subscriptionStatusBreakdown).get "cancelled") 0

/-- The constant `pieExpired` (line 31). -/
def pieExpired (subscriptionStatusBreakdown : Option (List StatusRow)) : Nat :=
  nullish ((statusCounts subscriptionStatusBreakdown).get "expired") 0

/-- The constant `piePending` (line 32). -/
def piePending (subscriptionStatusBreakdown : Option (List StatusRow)) : Nat :=
  nullish ((statusCounts subscriptionStatusBreakdown).get "pending") 0

/-- The array `subscriptionStatusData.datasets[0].data` (line 38). -/
def pieData (subscriptionStatusBreakdown : Option (List StatusRow))
    (overview : Option Overview) : List Nat :=
  [pieActive subscriptionStatusBreakdown overview, pieCancelled subscriptionStatusBreakdown,
    pieExpired subscriptionStatusBreakdown, piePending subscriptionStatusBreakdown]

/-- A row of `topPlans`: `{_id, planName, planType, planPrice, subscriptionCount}`. -/
structure PlanStat where
  _id : String
  planName : String
  planType : String
  planPrice : ℚ
  subscriptionCount : Nat
  deriving DecidableEq

/-- A row `<tr>` of the Top Performing Plans table (lines 213-225): the key and the five cells;
the revenue cell is `subscriptionCount * planPrice`. -/
structure TopPlanRow where
  key : String
  planName : String
  planType : String
  planPrice : ℚ
  subscriptionCount : Nat
  revenue : ℚ
  deriving DecidableEq

/-- The body of the Top Performing Plans card (lines 191-230): no rows when `topPlans` is
missing or empty, otherwise `topPlans.map(plan => <tr>...)`, one row per plan in the order
received. -/
def topPlansRows (topPlans : Option (List PlanStat)) : List TopPlanRow :=
  match topPlans with
  | some plans =>
    if plans.length = 0 then []
    else plans.map fun plan =>
      { key := plan._id, planName := plan.planName, planType := plan.planType,
        planPrice := plan.planPrice, subscriptionCount := plan.subscriptionCount,
        revenue := plan.subscriptionCount * plan.planPrice }
  | none => []

/-- Modelled from the spec: the ranking rule of the aggregation service, whose controller is
not among the source files: "ranked by subscriptionCount descending, ties broken by planName
ascending".  `rankedBefore a b` says that `a` may stand before `b`. -/
def rankedBefore (a b : PlanStat) : Prop :=
  b.subscriptionCount < a.subscriptionCount ∨
    (a.subscriptionCount = b.subscriptionCount ∧ a.planName ≤ b.planName)

instance rankedBeforeDecidable : DecidableRel rankedBefore := fun a b =>
  inferInstanceAs (Decidable (b.subscriptionCount < a.subscriptionCount ∨
    (a.subscriptionCount = b.subscriptionCount ∧ a.planName ≤ b.planName)))

/-- Modelled from the spec: the operation `topPlans(limit)` of the aggregation service, whose
controller is not among the source files: the per-plan rows, ranked by `rankedBefore`, cut to
the first `limit`. -/
def topPlans (planStats : List PlanStat) (limit : Nat) : List PlanStat :=
  (planStats.insertionSort rankedBefore).take limit

/-- The order in which the spec wants two table rows: the first has at least the
subscriptionCount of the second, and on equal counts a planName that is not larger. -/
def rowOrdered (a b : TopPlanRow) : Prop :=
  b.subscriptionCount ≤ a.subscriptionCount ∧
    (a.subscriptionCount = b.subscriptionCount → a.planName ≤ b.planName)

/-! ## JavaScript numbers -/

/-- A JavaScript number, an IEEE 754 binary64 value: a finite double given by its exact
value, one of the two infinities, or NaN.  The two zeros are one value here: `-0 || 0` is `0`,
and no expression of the pages modelled below tells them apart. -/
inductive JsNumber where
  | finite (x : ℚ)
  | posInfinity
  | negInfinity
  | nan
  deriving DecidableEq

/-- Rounding of a rational to the nearest integer, a tie going to the even one. -/
def halfEven (y : ℚ) : ℤ :=
  if y - ⌊y⌋ < 1 / 2 then ⌊y⌋
  else if 1 / 2 < y - ⌊y⌋ then ⌊y⌋ + 1
  else if ⌊y⌋ % 2 = 0 then ⌊y⌋
  else ⌊y⌋ + 1

/-- The exponent of the unit in the last place of the double nearest to `x`: 52 below the
binary logarithm of `|x|` for a normal number (53 significant bits), and `-1074` for a
subnormal one. -/
def doubleExponent (x : ℚ) : ℤ := max (Int.log 2 |x| - 52) (-1074)

/-- The double nearest to a rational, ties to even (the IEEE 754 default rounding, the one
JavaScript uses): the significand `x / 2 ^ e` is rounded to an integer at the exponent `e` of
`x`, and a result of magnitude `2 ^ 1024` or more is an infinity. -/
def roundDouble (x : ℚ) : JsNumber :=
  if x = 0 then .finite 0
  else if (2 : ℚ) ^ (1024 : ℕ) ≤ halfEven (x / 2 ^ doubleExponent x) * 2 ^ doubleExponent x then
    .posInfinity
  else if (halfEven (x / 2 ^ doubleExponent x) : ℚ) * 2 ^ doubleExponent x ≤
      -(2 : ℚ) ^ (1024 : ℕ) then
    .negInfinity
  else .finite (halfEven (x / 2 ^ doubleExponent x) * 2 ^ doubleExponent x)

/-- The operator `+` on numbers: the exact sum of two finite doubles rounded to a double. -/
def JsNumber.add : JsNumber → JsNumber → JsNumber
  | .finite a, .finite b => roundDouble (a + b)
  | .nan, _ => .nan
  | _, .nan => .nan
  | .posInfinity, .negInfinity => .nan
  | .negInfinity, .posInfinity => .nan
  | .posInfinity, _ => .posInfinity
  | _, .posInfinity => .posInfinity
  | .negInfinity, _ => .negInfinity
  | _, .negInfinity => .negInfinity

/-- The operator `*` on numbers: the exact product of two finite doubles rounded to a double;
an infinity times zero is NaN. -/
def JsNumber.mul : JsNumber → JsNumber → JsNumber
  | .finite a, .finite b => roundDouble (a * b)
  | .nan, _ => .nan
  | _, .nan => .nan
  | .finite a, .posInfinity =>
    if a = 0 then .nan else if 0 < a then .posInfinity else .negInfinity
  | .finite a, .negInfinity =>
    if a = 0 then .nan else if 0 < a then .negInfinity else .posInfinity
  | .posInfinity, .finite b =>
    if b = 0 then .nan else if 0 < b then .posInfinity else .negInfinity
  | .negInfinity, .finite b =>
    if b = 0 then .nan else if 0 < b then .negInfinity else .posInfinity
  | .posInfinity, .posInfinity => .posInfinity
  | .negInfinity, .negInfinity => .posInfinity
  | .posInfinity, .negInfinity => .negInfinity
  | .negInfinity, .posInfinity => .negInfinity

/-- The operator `/` on numbers: the exact quotient of two finite doubles rounded to a double.
A zero divisor is taken as `+0`: the pages divide by a total only when it is not zero. -/
def JsNumber.div : JsNumber → JsNumber → JsNumber
  | .finite a, .finite b =>
    if b = 0 then (if a = 0 then .nan else if 0 < a then .posInfinity else .negInfinity)
    else roundDouble (a / b)
  | .nan, _ => .nan
  | _, .nan => .nan
  | .finite _, .posInfinity => .finite 0
  | .finite _, .negInfinity => .finite 0
  | .posInfinity, .finite b => if 0 ≤ b then .posInfinity else .negInfinity
  | .negInfinity, .finite b => if 0 ≤ b then .negInfinity else .posInfinity
  | .posInfinity, .posInfinity => .nan
  | .posInfinity, .negInfinity => .nan
  | .negInfinity, .posInfinity => .nan
  | .negInfinity, .negInfinity => .nan

/-- Whether a number is truthy: every number but zero and NaN. -/
def JsNumber.truthy : JsNumber → Bool
  | .finite x => decide (x ≠ 0)
  | .nan => false
  | _ => true

/-- The expression `x || 0` for a number. -/
def JsNumber.orZero (x : JsNumber) : JsNumber :=
  if x.truthy = true then x else .finite 0

/-- The exact value of a finite number; an infinity and NaN have none. -/
def JsNumber.exact? : JsNumber → Option ℚ
  | .finite x => some x
  | _ => none

/-- The exact sum of a list of numbers, when all of them are finite. -/
def exactSum : List JsNumber → Option ℚ
  | [] => some 0
  | x :: xs =>
    match x.exact?, exactSum xs with
    | some a, some s => some (a + s)
    | _, _ => none

/-! ## UsageHistory.jsx: response, summary cards and monthly roll-up -/

/-- A usage record of `usageHistory`.  `date` is what `new Date(row.date)` reports through
`getFullYear()` and `getMonth()` in local time, `none` for an invalid date; `dataUsed` may be
missing. -/
structure UsageRow where
  _id : String
  date : Option JsDate
  dataUsed : Option ℚ
  averageSpeed : Option ℚ
  peakSpeed : Option ℚ
  deriving DecidableEq

/-- A usage summary object: `{totalDataUsed, averageDailyUsage, peakUsage, averageSpeed}`; each
field may be missing. -/
structure UsageSummary where
  totalDataUsed : Option ℚ
  averageDailyUsage : Option ℚ
  peakUsage : Option ℚ
  averageSpeed : Option ℚ
  deriving DecidableEq

/-- The body of a usage-history response.  The page reads `usageHistory` and `usageSummary`;
`summary` is the field name the specification gives, which the page does not read. -/
structure UsagePayload where
  usageHistory : Option (List UsageRow)
  usageSummary : Option UsageSummary
  summary : Option UsageSummary
  deriving DecidableEq

/-- What `useFetch` hands to the page as `data`: the body itself, or an object that wraps the
body under `data`. -/
structure UsageResponse where
  data : Option UsagePayload
  usageHistory : Option (List UsageRow)
  usageSummary : Option UsageSummary
  summary : Option UsageSummary
  deriving DecidableEq

/-- The constant `usageHistory` (line 12):
`data?.data?.usageHistory || data?.usageHistory || []`. -/
def usageHistoryOf (data : Option UsageResponse) : List UsageRow :=
  match (data.bind (·.data)).bind (·.usageHistory) with
  | some rows => rows
  | none =>
    match data.bind (·.usageHistory) with
    | some rows => rows
    | none => []

/-- The object literal at the end of line 13, the all-zero default summary. -/
def defaultSummary : UsageSummary :=
  { totalDataUsed := some 0, averageDailyUsage := some 0, peakUsage := some 0,
    averageSpeed := some 0 }

/-- The constant `summary` (line 13):
`data?.data?.usageSummary || data?.usageSummary || { totalDataUsed: 0, ... }`. -/
def summaryOf (data : Option UsageResponse) : UsageSummary :=
  match (data.bind (·.data)).bind (·.usageSummary) with
  | some s => s
  | none =>
    match data.bind (·.usageSummary) with
    | some s => s
    | none => defaultSummary

/-- The content of a stat card, `x?.toFixed?.(1) || 0`: a number is shown with one decimal
(the string `toFixed` returns is never empty), a missing field gives the literal `0`. -/
inductive CardValue where
  | fixed1 (x : ℚ)
  | zero
  deriving DecidableEq

/-- The expression `x?.toFixed?.(1) || 0`. -/
def cardValue (x : Option ℚ) : CardValue :=
  match x with
  | some v => .fixed1 v
  | none => .zero

/-- The three summary cards (lines 69-82), in page order. -/
structure SummaryCards where
  totalDataUsed : CardValue
  averageDailyUsage : CardValue
  averageSpeed : CardValue
  deriving DecidableEq

/-- The three summary cards of the page for the fetched `data`. -/
def summaryCards (data : Option UsageResponse) : SummaryCards :=
  { totalDataUsed := cardValue (summaryOf data).totalDataUsed,
    averageDailyUsage := cardValue (summaryOf data).averageDailyUsage,
    averageSpeed := cardValue (summaryOf data).averageSpeed }

/-- The constant `key` of the aggregation loop (line 25).  For an invalid date both
`getFullYear()` and `getMonth()` give `NaN`, and the template literal yields `NaN-NaN`. -/
def rowKey (row : UsageRow) : String :=
  match row.date with
  | some d => monthKey d.year (d.month0 + 1)
  | none => "NaN-NaN"

/-- The operand `row.dataUsed || 0` (line 26): the double that parsing the response gives for
the number written there, and `0` when it is missing or zero. -/
def dataUsedNumber (row : UsageRow) : JsNumber :=
  match row.dataUsed with
  | some x => (roundDouble x).orZero
  | none => .finite 0

/-- The operand `totalsByKey.get(key) || 0` (lines 26 and 28). -/
def totalOrZero : Option JsNumber → JsNumber
  | some total => total.orZero
  | none => .finite 0

/-- The map `totalsByKey` after the loop of lines 23-27:
`totalsByKey.set(key, (totalsByKey.get(key) || 0) + (row.dataUsed || 0))` for each row, the
additions being those of doubles. -/
def totalsByKey (usageHistory : List UsageRow) : JsMap JsNumber :=
  usageHistory.foldl
    (fun m row =>
      m.set (rowKey row) ((totalOrZero (m.get (rowKey row))).add (dataUsedNumber row)))
    JsMap.empty

/-- The constant `series` (line 28): `keys.map(k => totalsByKey.get(k) || 0)`. -/
def series (now : JsDate) (usageHistory : List UsageRow) : List JsNumber :=
  (keys now).map fun k => totalOrZero ((totalsByKey usageHistory).get k)

/-- Whether the date of a row falls in the calendar month `ym = (year, month)`, month
one-based; a row with an invalid date falls in no month. -/
def rowInMonth (ym : Nat × Nat) (row : UsageRow) : Bool :=
  match row.date with
  | some d => decide ((d.year, d.month0 + 1) = ym)
  | none => false

/-- Whether the date of a row falls in one of the twelve months of the trailing window. -/
def rowInWindow (now : JsDate) (row : UsageRow) : Bool :=
  (List.range 12).any fun i => rowInMonth (windowMonth now i) row

/-- The sum of `dataUsed`, a missing value counting as 0, over the rows of a list: the exact
sum of the numbers as the response writes them. -/
def dataUsedSum (rows : List UsageRow) : ℚ :=
  (rows.map fun row => orZero row.dataUsed).sum

/-- A list of numbers added up in doubles one after the other, starting from 0, each addition
rounding to a double; a running total that is NaN counts as 0, as `|| 0` makes it. -/
def addInOrder (values : List JsNumber) : JsNumber :=
  values.foldl (fun total value => total.orZero.add value) (.finite 0)

/-- The double sum of `dataUsed` over the rows of a list in their order, and 0 when that sum
is NaN. -/
def dataUsedDoubleSum (rows : List UsageRow) : JsNumber :=
  (addInOrder (rows.map dataUsedNumber)).orZero

/-- Whether every `dataUsed` of the rows is a whole number, a missing one counting as 0, and
the absolute values add up to less than `2 ^ 53`: every sum of such rows is a whole number
that doubles represent exactly. -/
def wholeUsage (rows : List UsageRow) : Prop :=
  (∀ row ∈ rows, (orZero row.dataUsed).den = 1) ∧
    (rows.map fun row => |orZero row.dataUsed|).sum < 2 ^ (53 : ℕ)

instance wholeUsageDecidable (rows : List UsageRow) : Decidable (wholeUsage rows) := by
  unfold wholeUsage
  infer_instance

/-- Whether every `dataUsed` of the rows, a missing one counting as 0, is 0 or at least
`2 ^ (-1022)`, the least positive normal double: no value is negative and none is so small
that it is read as a subnormal double. -/
def normalUsage (rows : List UsageRow) : Prop :=
  ∀ row ∈ rows, orZero row.dataUsed = 0 ∨ (2 : ℚ) ^ (-1022 : ℤ) ≤ orZero row.dataUsed

instance normalUsageDecidable (rows : List UsageRow) : Decidable (normalUsage rows) := by
  unfold normalUsage
  infer_instance

/-! ## userRoutes.js: the route table -/

/-- The HTTP methods used by the router: `router.get`, `router.put`, `router.patch`,
`router.delete`. -/
inductive Method where
  | get
  | put
  | patch
  | delete
  deriving DecidableEq

/-- A segment of a route pattern: a literal such as `notifications`, or a parameter such as
`:notificationId`. -/
inductive Segment where
  | literal (text : String)
  | parameter (name : String)
  deriving DecidableEq

/-- The functions passed to the router: the three middlewares and the nine controllers
(lines 2-14). -/
inductive Handler where
  | authMiddleware
  | userOnly
  | adminOrUser
  | getUserProfile
  | updateUserProfile
  | getUserSubscriptionHistory
  | getUserUsageHistory
  | getUserNotifications
  | markNotificationAsRead
  | markAllNotificationsAsRead
  | deleteAccount
  | getUserStats
  deriving DecidableEq

/-- Whether a handler is one of the controllers imported from `userController`. -/
def Handler.isController : Handler → Bool
  | .authMiddleware => false
  | .userOnly => false
  | .adminOrUser => false
  | _ => true

/-- A registered route: method, path pattern and the chain of handlers in call order. -/
structure Route where
  method : Method
  pattern : List Segment
  handlers : List Handler
  deriving DecidableEq

/-- The route table `router` of `userRoutes.js` (lines 19-27), in registration order. -/
def router : List Route :=
  [ ⟨.get, [.literal "profile"], [.authMiddleware, .userOnly, .getUserProfile]⟩,
    ⟨.put, [.literal "profile"], [.authMiddleware, .userOnly, .updateUserProfile]⟩,
    ⟨.get, [.literal "subscription-history"],
      [.authMiddleware, .userOnly, .getUserSubscriptionHistory]⟩,
    ⟨.get, [.literal "usage-history"], [.authMiddleware, .userOnly, .getUserUsageHistory]⟩,
    ⟨.get, [.literal "notifications"], [.authMiddleware, .adminOrUser, .getUserNotifications]⟩,
    ⟨.patch, [.literal "notifications", .parameter "notificationId", .literal "read"],
      [.authMiddleware, .adminOrUser, .markNotificationAsRead]⟩,
    ⟨.patch, [.literal "notifications", .literal "read-all"],
      [.authMiddleware, .adminOrUser, .markAllNotificationsAsRead]⟩,
    ⟨.delete, [.literal "account"], [.authMiddleware, .userOnly, .deleteAccount]⟩,
    ⟨.get, [.literal "stats"], [.authMiddleware, .userOnly, .getUserStats]⟩ ]

/-- Matching of a request path, given as its segments, against a pattern: the numbers of
segments agree, a literal matches the equal segment, a parameter matches any non-empty segment
and binds it.  The result is the list of parameter bindings, `req.params`. -/
def matchPattern : List Segment → List String → Option (List (String × String))
  | [], [] => some []
  | .literal text :: pattern, segment :: path =>
    if text = segment then matchPattern pattern path else none
  | .parameter name :: pattern, segment :: path =>
    if segment ≠ "" then (matchPattern pattern path).map fun bs => (name, segment) :: bs
    else none
  | _, _ => none

/-- Whether a route takes a request: the method agrees and the pattern matches; the result is
the route with its parameter bindings. -/
def routeMatch (method : Method) (path : List String) (route : Route) :
    Option (Route × List (String × String)) :=
  if route.method = method then (matchPattern route.pattern path).map fun bs => (route, bs)
  else none

/-- Dispatch of a request by a router: the first route, in registration order, that takes the
request. -/
def dispatch (routes : List Route) (method : Method) (path : List String) :
    Option (Route × List (String × String)) :=
  routes.findSome? (routeMatch method path)

/-- Two pattern segments clash when they are different literals. -/
def segmentsClash : Segment → Segment → Bool
  | .literal a, .literal b => decide (a ≠ b)
  | _, _ => false

/-- Two patterns clash when they differ in length or clash in some position; clashing patterns
have no path in common. -/
def patternsClash : List Segment → List Segment → Bool
  | [], [] => false
  | a :: p, b :: q => segmentsClash a b || patternsClash p q
  | _, _ => true

/-- Two routes are exclusive when their methods differ or their patterns clash. -/
def routesExclusive (a b : Route) : Bool :=
  decide (a.method ≠ b.method) || patternsClash a.pattern b.pattern

/-- Whether a route is one of the notification routes, those under `/notifications`. -/
def isNotificationRoute (route : Route) : Bool :=
  decide (route.pattern.head? = some (.literal "notifications"))

/-! ## SendNotifications.jsx: the form as a state machine -/

/-- The field `type` of a request. -/
def SendRequest.type : SendRequest → String
  | .sendNotificationToRole _ _ type _ => type
  | .sendNotification _ _ type _ => type

/-- The handler `handleToggleUser` (lines 37-39):
`prev.includes(id) ? prev.filter(x => x !== id) : [...prev, id]`. -/
def handleToggleUser (id : String) (st : FormState) : FormState :=
  { st with
    selectedUserIds :=
      if st.selectedUserIds.contains id then st.selectedUserIds.filter fun x => decide (x ≠ id)
      else st.selectedUserIds ++ [id] }

/-- The two radio buttons of the form: `setMode('role')` and `setMode('users')`. -/
inductive ModeOption where
  | role
  | users
  deriving DecidableEq

/-- The value a mode radio button sets. -/
def ModeOption.value : ModeOption → String
  | .role => "role"
  | .users => "users"

/-- The `<option>` elements of the Role select (lines 100-101). -/
inductive RoleOption where
  | user
  | admin
  deriving DecidableEq

/-- The attribute `value` of a Role option, which `e.target.value` hands to `setRole`. -/
def RoleOption.value : RoleOption → String
  | .user => "user"
  | .admin => "admin"

/-- The `<option>` elements of the Type select (lines 134-137). -/
inductive TypeOption where
  | info
  | success
  | warning
  | error
  deriving DecidableEq

/-- The attribute `value` of a Type option, which `e.target.value` hands to `setType`. -/
def TypeOption.value : TypeOption → String
  | .info => "info"
  | .success => "success"
  | .warning => "warning"
  | .error => "error"

/-- What can happen to the form: a click on a mode radio button, a selection in the Role, Type
or Attach Offer select, an edit of the search box or of the message, the arrival of the user
rows of `searchUsers` or of the offers of `fetchOffers`, a click on a user check box, and a
click on Send together with what the service call settles to. -/
inductive FormEvent where
  | setMode (option : ModeOption)
  | setRole (option : RoleOption)
  | setUserQuery (text : String)
  | setMessage (text : String)
  | setType (option : TypeOption)
  | setOfferId (value : String)
  | setUsers (rows : List UserRow)
  | setOffers (offers : List Offer)
  | toggleUser (id : String)
  | send (response : Except ApiError Unit)

/-- The state after an event: the state setter the event's `onChange` or `onClick` calls, or
the handler it runs. -/
def FormEvent.apply (st : FormState) : FormEvent → FormState
  | .setMode option => { st with mode := option.value }
  | .setRole option => { st with role := option.value }
  | .setUserQuery text => { st with userQuery := text }
  | .setMessage text => { st with message := text }
  | .setType option => { st with type := option.value }
  | .setOfferId value => { st with offerId := value }
  | .setUsers rows => { st with users := rows }
  | .setOffers offers => { st with offers := offers }
  | .toggleUser id => handleToggleUser id st
  | .send response => (handleSend st response).state

/-- The state the form reaches from its initial state through a sequence of events. -/
def runEvents (events : List FormEvent) : FormState :=
  events.foldl FormEvent.apply FormState.initial

/-! ## NotificationBell.jsx: the badge -/

/-- The number of items with `read = false`. -/
def unreadItems (st : BellState) : Nat :=
  st.items.countP fun n => !n.read

/-- The relation between badge and list: `unreadCount` is at least the number of unread
items. -/
def badgeCovers (st : BellState) : Prop :=
  (unreadItems st : Int) ≤ st.unreadCount

/-! ## Dashboard.jsx: Monthly Revenue card and pie percentages -/

/-- The JavaScript values the field `totalMonthlyRevenue` of a payload is considered to take:
missing (`undefined`), `null`, a number, or a string. -/
inductive JsValue where
  | undefined
  | null
  | number (x : ℚ)
  | string (s : String)
  deriving DecidableEq

/-- The object `revenueStats` of the dashboard payload. -/
structure RevenueStats where
  totalMonthlyRevenue : JsValue
  deriving DecidableEq

/-- The error a property read on `undefined` or `null` throws. -/
inductive JsError where
  | typeError
  deriving DecidableEq

/-- The text of the Monthly Revenue card: a number rendered by `toFixed(2)`, or the rendering
`Number(s).toFixed(2)` of a string, left uninterpreted. -/
inductive RevenueText where
  | fixed2 (x : ℚ)
  | fixed2OfString (s : String)
  deriving DecidableEq

/-- Whether the property `toFixed` of a value is truthy: only numbers have the method. -/
def JsValue.hasToFixed : JsValue → Bool
  | .number _ => true
  | _ => false

/-- The expression `v ?? 0`. -/
def JsValue.orZeroNullish : JsValue → JsValue
  | .undefined => .number 0
  | .null => .number 0
  | v => v

/-- The expression of the Monthly Revenue card (line 103):
`(revenueStats?.totalMonthlyRevenue ?? 0).toFixed ? revenueStats.totalMonthlyRevenue.toFixed(2)
: Number(revenueStats?.totalMonthlyRevenue || 0).toFixed(2)`.
The condition is evaluated on the value with the default 0 put in, the first branch on the
value itself: there `revenueStats.totalMonthlyRevenue` throws when `revenueStats` is missing,
and `.toFixed(2)` throws on `undefined` and `null`. -/
def monthlyRevenueCard (revenueStats : Option RevenueStats) : Except JsError RevenueText :=
  let optional : JsValue :=
    match revenueStats with
    | some stats => stats.totalMonthlyRevenue
    | none => .undefined
  if optional.orZeroNullish.hasToFixed then
    match revenueStats with
    | none => .error .typeError
    | some stats =>
      match stats.totalMonthlyRevenue with
      | .number x => .ok (.fixed2 x)
      | _ => .error .typeError
  else
    match optional with
    | .string s => if s = "" then .ok (.fixed2 0) else .ok (.fixed2OfString s)
    | .number x => .ok (.fixed2 x)
    | _ => .ok (.fixed2 0)

/-- The text `pct` of a legend label or tooltip: the result of `toFixed(1)` on a number, or
the literal `'0.0'`. -/
inductive PercentText where
  | fixed1 (x : JsNumber)
  | zeroLiteral
  deriving DecidableEq

/-- The operand `Number(v) || 0` for a count `v` of the dataset. -/
def countNumber (v : Nat) : JsNumber := (roundDouble (v : ℚ)).orZero

/-- The constant `total` of both callbacks (lines 130 and 147):
`data.reduce((sum, v) => sum + (Number(v) || 0), 0)`, the additions being those of doubles. -/
def pieTotal (data : List Nat) : JsNumber :=
  data.foldl (fun (sum : JsNumber) (v : Nat) => sum.add (countNumber v)) (.finite 0)

/-- The constant `pct` (lines 134 and 148):
`total ? ((value / total) * 100).toFixed(1) : '0.0'`, division and multiplication being those
of doubles. -/
def percentText (value total : JsNumber) : PercentText :=
  if total.truthy = true then .fixed1 ((value.div total).mul (.finite 100)) else .zeroLiteral

/-- The percentage in the tooltip `label` callback (lines 142-151): `value` is
`Number(context.raw) || 0`, where `context.raw` is the value of the hovered slice. -/
def tooltipPercent (data : List Nat) (raw : Nat) : PercentText :=
  percentText (countNumber raw) (pieTotal data)

/-- A legend item as far as `generateLabels` reads it: its `text`, which may be undefined, and
the index of the dataset it stands for. -/
structure LegendItem where
  text : Option String
  datasetIndex : Nat
  deriving DecidableEq

/-- A legend item returned by `generateLabels` (line 135): the item it was made from, whose
other properties it keeps, with the text `${text} (${pct}%)`. -/
structure LegendLabel where
  item : LegendItem
  text : String
  pct : PercentText
  deriving DecidableEq

/-- The constant `value` of the legend callback (line 132): `Number(data[i] || 0)`. -/
def legendValue (data : List Nat) (i : Nat) : JsNumber :=
  match data[i]? with
  | some v => roundDouble (v : ℚ)
  | none => .finite 0

/-- The callback `generateLabels` (lines 126-137) for the items `original` that the call of
line 127 returned: one label for each of these items, the label at index `i` made of
`labels[i] ?? item.text ?? ''` and of the percentage of `data[i]`. -/
def generateLabels (original : List LegendItem) (labels : List String) (data : List Nat) :
    List LegendLabel :=
  original.enum.map fun (entry : Nat × LegendItem) =>
    { item := entry.2
      text := nullish labels[entry.1]? (nullish entry.2.text "")
      pct := percentText (legendValue data entry.1) (pieTotal data) }

/-- What `ChartJS.defaults.plugins.legend.labels.generateLabels(chart)` returns (line 127).
This is the generator of the legend plugin's defaults in Chart.js, which makes one item for
each dataset, its text the `label` of the dataset; the generator that makes one item for each
slice is the override of the pie controller, which this call does not reach. -/
def defaultGenerateLabels (datasetLabels : List (Option String)) : List LegendItem :=
  datasetLabels.enum.map fun (entry : Nat × Option String) =>
    { text := entry.2, datasetIndex := entry.1 }

/-- The legend of the status pie: `subscriptionStatusData` (lines 35-41) has the four labels
and one dataset, whose `label`, if it has one, comes from `chartConfig.pie`. -/
def pieLegend (datasetLabel : Option String) (data : List Nat) : List LegendLabel :=
  generateLabels (defaultGenerateLabels [datasetLabel])
    ["Active", "Cancelled", "Expired", "Pending"] data

/-! ## ManageUsers.jsx: pagination -/

/-- The object `pagination` (line 34): `{current, pages, total, limit}`. -/
structure Pagination where
  current : Int
  pages : Int
  total : Int
  limit : Int
  deriving DecidableEq

/-- The React state of `ManageUsers` (lines 24-26). -/
structure UsersPageState where
  query : String
  page : Int
  limit : Int
  deriving DecidableEq

/-- The initial state: the arguments of the `useState` calls. -/
def UsersPageState.initial : UsersPageState :=
  { query := "", page := 1, limit := 10 }

/-- The updater of the Previous button (line 148): `p => Math.max(1, p - 1)`. -/
def previousPage (p : Int) : Int := max 1 (p - 1)

/-- The updater of the Next button (line 150): `p => Math.min(pagination.pages, p + 1)`. -/
def nextPage (pagination : Pagination) (p : Int) : Int := min pagination.pages (p + 1)

/-- The `<option>` elements of the page-size select (lines 65-67). -/
inductive LimitOption where
  | ten
  | twenty
  | fifty
  deriving DecidableEq

/-- The number `Number(e.target.value)` for an option of the page-size select. -/
def LimitOption.value : LimitOption → Int
  | .ten => 10
  | .twenty => 20
  | .fifty => 50

/-- What can happen to the page state: a click on Previous, a click on Next with the
`pagination` of that render, an edit of the search box, a selection of a page size. -/
inductive UsersEvent where
  | previous
  | next (pagination : Pagination)
  | changeQuery (text : String)
  | changeLimit (option : LimitOption)
  deriving DecidableEq

/-- The state after an event (lines 61, 64, 148, 150). -/
def UsersEvent.apply (st : UsersPageState) : UsersEvent → UsersPageState
  | .previous => { st with page := previousPage st.page }
  | .next pagination => { st with page := nextPage pagination st.page }
  | .changeQuery text => { st with page := 1, query := text }
  | .changeLimit option => { st with page := 1, limit := option.value }

/-- The state reached from the initial state through a sequence of events. -/
def runUsersEvents (events : List UsersEvent) : UsersPageState :=
  events.foldl UsersEvent.apply UsersPageState.initial

/-- Whether the pagination an event carries has at least one page. -/
def UsersEvent.pagesPositive : UsersEvent → Prop
  | .next pagination => 1 ≤ pagination.pages
  | _ => True

theorem toDigitsCore_eq_decList (fuel : Nat) :
    ∀ (n : Nat) (acc : List Char), n < fuel → Nat.toDigitsCore 10 fuel n acc = decList n ++ acc := by
  induction fuel with
  | zero => intro n acc h; omega
  | succ f ih =>
    intro n acc h
    simp only [Nat.toDigitsCore]
    by_cases h0 : n / 10 = 0
    · rw [if_pos h0]
      have hlt : n < 10 := by omega
      by_cases hn : n = 0
      · subst hn; simp [decList]; rfl
      · have : Nat.digits 10 n = [n] := Nat.digits_of_lt 10 n hn hlt
        simp [decList, hn, this, Nat.mod_eq_of_lt hlt]
    · rw [if_neg h0]
      have hn : n ≠ 0 := by omega
      rw [ih (n / 10) _ (by omega)]
      have hd : Nat.digits 10 n = (n % 10) :: Nat.digits 10 (n / 10) :=
        Nat.digits_def' (by decide) (by omega)
      simp [decList, hn, h0, hd]

theorem toString_data (n : Nat) : (toString n).data = decList n := by
  show (Nat.repr n).data = decList n
  simp [Nat.repr, Nat.toDigits, List.asString, toDigitsCore_eq_decList (n + 1) n [] (by omega)]

theorem digitChar_lt_ten_cases (d : Nat) (h : d < 10) :
    Nat.digitChar d ≠ '-' ∧ (Nat.digitChar d = '0' → d = 0) := by
  interval_cases d <;> decide

theorem digitChar_inj (a b : Nat) (ha : a < 10) (hb : b < 10)
    (h : Nat.digitChar a = Nat.digitChar b) : a = b := by
  interval_cases a <;> interval_cases b <;> first | rfl | (exact absurd h (by decide))

theorem decList_ne_nil (n : Nat) : decList n ≠ [] := by
  unfold decList
  split
  · simp
  · rename_i h
    simp [Nat.digits_ne_nil_iff_ne_zero, h]

theorem dash_not_mem_decList (n : Nat) : '-' ∉ decList n := by
  unfold decList
  split
  · decide
  · intro hmem
    simp only [List.mem_map, List.mem_reverse] at hmem
    obtain ⟨d, hd, hc⟩ := hmem
    exact (digitChar_lt_ten_cases d (Nat.digits_lt_base (by decide) hd)).1 hc

theorem map_digitChar_inj : ∀ (l₁ l₂ : List Nat), (∀ d ∈ l₁, d < 10) → (∀ d ∈ l₂, d < 10) →
    l₁.map Nat.digitChar = l₂.map Nat.digitChar → l₁ = l₂
  | [], [], _, _, _ => rfl
  | [], _ :: _, _, _, h => by simp at h
  | _ :: _, [], _, _, h => by simp at h
  | a :: l₁, b :: l₂, h₁, h₂, h => by
    simp only [List.map_cons, List.cons.injEq] at h
    have hab : a = b := digitChar_inj a b (h₁ a (by simp)) (h₂ b (by simp)) h.1
    have ht : l₁ = l₂ := map_digitChar_inj l₁ l₂ (fun d hd => h₁ d (by simp [hd]))
      (fun d hd => h₂ d (by simp [hd])) h.2
    rw [hab, ht]

theorem decList_head_zero (n : Nat) (rest : List Char) (h : decList n = '0' :: rest) : n = 0 := by
  by_contra hn
  have hne : Nat.digits 10 n ≠ [] := by simp [Nat.digits_ne_nil_iff_ne_zero, hn]
  have hlast := Nat.getLast_digit_ne_zero 10 hn
  have hsplit := List.dropLast_append_getLast hne
  have hmem : (Nat.digits 10 n).getLast hne ∈ Nat.digits 10 n := List.getLast_mem hne
  have hlt := Nat.digits_lt_base (by decide : 1 < 10) hmem
  unfold decList at h
  rw [if_neg hn, ← hsplit] at h
  simp only [List.reverse_append, List.reverse_cons, List.reverse_nil, List.nil_append,
    List.singleton_append, List.map_cons, List.cons.injEq] at h
  exact hlast ((digitChar_lt_ten_cases _ hlt).2 h.1)

theorem decList_inj (a b : Nat) (h : decList a = decList b) : a = b := by
  by_cases ha : a = 0
  · subst ha
    exact (decList_head_zero b [] (by rw [← h]; rfl)).symm
  · by_cases hb : b = 0
    · subst hb
      exact decList_head_zero a [] (by rw [h]; rfl)
    · unfold decList at h
      rw [if_neg ha, if_neg hb] at h
      have h' := map_digitChar_inj _ _
        (fun d hd => Nat.digits_lt_base (by decide : 1 < 10) (List.mem_reverse.1 hd))
        (fun d hd => Nat.digits_lt_base (by decide : 1 < 10) (List.mem_reverse.1 hd)) h
      exact Nat.digits_inj_iff.1 (List.reverse_injective h')

theorem pad2List_decList_inj (a b : Nat) (h : pad2List (decList a) = pad2List (decList b)) :
    a = b := by
  have key : ∀ n : Nat, (decList n).length = 1 ∧ pad2List (decList n) = '0' :: decList n ∨
      2 ≤ (decList n).length ∧ pad2List (decList n) = decList n := by
    intro n
    have hne := decList_ne_nil n
    rcases hl : decList n with _ | ⟨c, _ | ⟨c', t⟩⟩
    · exact absurd hl hne
    · left; simp [pad2List]
    · right; simp [pad2List]
  rcases key a with ⟨la, pa⟩ | ⟨la, pa⟩ <;> rcases key b with ⟨lb, pb⟩ | ⟨lb, pb⟩
  · rw [pa, pb] at h
    exact decList_inj a b (List.cons.inj h).2
  · rw [pa, pb] at h
    have hb0 := decList_head_zero b _ h.symm
    subst hb0
    simp [decList] at lb
  · rw [pa, pb] at h
    have ha0 := decList_head_zero a _ h
    subst ha0
    simp [decList] at la
  · rw [pa, pb] at h
    exact decList_inj a b h

theorem append_cons_cancel {α : Type} (a : α) :
    ∀ (l₁ l₂ r₁ r₂ : List α), a ∉ l₁ → a ∉ l₂ → l₁ ++ a :: r₁ = l₂ ++ a :: r₂ →
      l₁ = l₂ ∧ r₁ = r₂
  | [], [], _, _, _, _, h => ⟨rfl, (List.cons.inj h).2⟩
  | [], b :: l₂, _, _, _, h₂, h => by
    have hb : a = b := (List.cons.inj h).1
    exact absurd (by simp [hb]) h₂
  | b :: l₁, [], _, _, h₁, _, h => by
    have hb : b = a := (List.cons.inj h).1
    exact absurd (by simp [hb]) h₁
  | b :: l₁, c :: l₂, r₁, r₂, h₁, h₂, h => by
    have hh := List.cons.inj h
    have ih := append_cons_cancel a l₁ l₂ r₁ r₂ (fun hm => h₁ (by simp [hm]))
      (fun hm => h₂ (by simp [hm])) hh.2
    exact ⟨by rw [hh.1, ih.1], ih.2⟩

theorem monthKey_data (y m : Nat) :
    (monthKey y m).data = decList y ++ '-' :: pad2List (decList m) := by
  unfold monthKey padStart pad2List
  rw [String.data_append, String.data_append, String.data_append, toString_data]
  have hr : (Nat.repr m).data = decList m := toString_data m
  simp only [String.length, hr, toString_data, List.append_assoc, List.singleton_append]

theorem monthKey_inj (y m y' m' : Nat) (h : monthKey y m = monthKey y' m') : y = y' ∧ m = m' := by
  have hd : (monthKey y m).data = (monthKey y' m').data := by rw [h]
  rw [monthKey_data, monthKey_data] at hd
  have hsplit := append_cons_cancel '-' _ _ _ _ (dash_not_mem_decList y)
    (dash_not_mem_decList y') hd
  exact ⟨decList_inj y y' hsplit.1, pad2List_decList_inj m m' hsplit.2⟩

/-! ## Lemmas on JavaScript maps -/

theorem getEntries_setEntries {V : Type} (k k' : String) (v : V) :
    ∀ l : List (String × V),
      JsMap.getEntries k' (JsMap.setEntries k v l) =
        if k = k' then some v else JsMap.getEntries k' l
  | [] => by simp [JsMap.setEntries, JsMap.getEntries]
  | e :: rest => by
    by_cases hek : e.1 = k
    · by_cases hkk : k = k'
      · simp [JsMap.setEntries, JsMap.getEntries, hek, hkk]
      · have hek' : ¬ e.1 = k' := fun h => hkk (hek ▸ h)
        simp [JsMap.setEntries, JsMap.getEntries, hek, hkk, hek']
    · by_cases hek' : e.1 = k'
      · have hkk : ¬ k = k' := fun h => hek (h ▸ hek')
        have hkk' : ¬ k' = k := fun h => hkk h.symm
        simp [JsMap.setEntries, JsMap.getEntries, hkk, hkk', hek']
      · simp [JsMap.setEntries, JsMap.getEntries, hek, hek', getEntries_setEntries k k' v rest]

theorem get_set {V : Type} (m : JsMap V) (k k' : String) (v : V) :
    (m.set k v).get k' = if k = k' then some v else m.get k' :=
  getEntries_setEntries k k' v m.entries

/-- Reading a key after a sequence of `set` calls gives the value of the last call for that key,
and the earlier content of the map when there was no such call. -/
theorem get_foldl_set {V : Type} (k : String) :
    ∀ (es : List (String × V)) (m : JsMap V),
      (es.foldl (fun m e => m.set e.1 e.2) m).get k =
        match es.reverse.find? (fun e => decide (e.1 = k)) with
        | some e => some e.2
        | none => m.get k
  | [], m => by simp
  | e :: rest, m => by
    rw [List.foldl_cons, get_foldl_set k rest (m.set e.1 e.2), List.reverse_cons,
      List.find?_append]
    cases hfind : rest.reverse.find? (fun e => decide (e.1 = k)) with
    | some e' => simp
    | none =>
      by_cases hek : e.1 = k
      · simp [get_set, hek]
      · simp [get_set, hek]

theorem get_ofEntries {V : Type} (k : String) (es : List (String × V)) :
    (JsMap.ofEntries es).get k =
      (es.reverse.find? (fun e => decide (e.1 = k))).map (·.2) := by
  unfold JsMap.ofEntries
  rw [get_foldl_set]
  cases es.reverse.find? (fun e => decide (e.1 = k)) with
  | some e => rfl
  | none => rfl

theorem find?_filter_of_imp {α : Type} (p q : α → Bool) :
    ∀ l : List α, (∀ a ∈ l, q a = true → p a = true) → (l.filter p).find? q = l.find? q
  | [], _ => rfl
  | a :: l, h => by
    have ih := find?_filter_of_imp p q l (fun b hb => h b (by simp [hb]))
    by_cases hq : q a = true
    · have hp : p a = true := h a (by simp) hq
      simp [List.filter_cons, hp, List.find?_cons, hq]
    · by_cases hp : p a = true
      · simp [List.filter_cons, hp, List.find?_cons, hq, ih]
      · simp [List.filter_cons, hp, List.find?_cons, hq, ih]

/-! ## Lemmas on the trailing window -/

theorem newDate_eq_window (now : JsDate) (i : Nat) (hm : now.month0 < 12) (hy : 100 ≤ now.year)
    (hi : i < 12) :
    newDate now.year ((now.month0 : Int) - (11 - (i : Int))) =
      { year := (windowMonth now i).1, month0 := (windowMonth now i).2 - 1 } := by
  obtain ⟨y, m0⟩ := now
  simp only at hm hy
  simp only [newDate, windowMonth, monthsBefore, JsDate.mk.injEq]
  have h99 : ¬ y ≤ 99 := by omega
  rw [if_neg h99]
  constructor <;> omega

theorem trendsIndex_get (buckets : List TrendBucket) (y m : Nat) :
    (trendsIndex (some buckets)).get (monthKey y m) =
      buckets.reverse.find? (fun b => decide (b.year = y ∧ b.month = m)) := by
  unfold trendsIndex orEmpty
  rw [get_ofEntries, ← List.map_reverse, List.find?_map, Option.map_map]
  have hfun : ((fun e : String × TrendBucket => decide (e.1 = monthKey y m)) ∘
      fun t : TrendBucket => (monthKey t.year t.month, t)) =
      fun b : TrendBucket => decide (b.year = y ∧ b.month = m) := by
    funext b
    simp only [Function.comp]
    by_cases hb : b.year = y ∧ b.month = m
    · simp [hb.1, hb.2]
    · have : ¬ monthKey b.year b.month = monthKey y m := fun h => hb (monthKey_inj _ _ _ _ h)
      simp [this, hb]
  rw [hfun]
  cases buckets.reverse.find? (fun b => decide (b.year = y ∧ b.month = m)) with
  | some b => rfl
  | none => rfl

theorem orZero_some {α : Type} [Zero α] [DecidableEq α] (x : α) : orZero (some x) = x := by
  simp only [orZero]
  split_ifs with h
  · exact h.symm
  · rfl

theorem windowMonth_snd_pos (now : JsDate) (i : Nat) : 1 ≤ (windowMonth now i).2 := by
  simp [windowMonth, monthsBefore]

theorem last12_eq (now : JsDate) (hm : now.month0 < 12) (hy : 100 ≤ now.year) :
    last12 now = (List.range 12).map fun i =>
      { year := (windowMonth now i).1, month := (windowMonth now i).2,
        label := monthKey (windowMonth now i).1 (windowMonth now i).2 } := by
  unfold last12
  apply List.map_congr_left
  intro i hi
  have hi' : i < 12 := List.mem_range.1 hi
  have hpos := windowMonth_snd_pos now i
  simp only [newDate_eq_window now i hm hy hi', Nat.sub_add_cancel hpos]

theorem series_eq {α : Type} [Zero α] [DecidableEq α] (f : TrendBucket → α) (now : JsDate)
    (hm : now.month0 < 12) (hy : 100 ≤ now.year) (bs : List TrendBucket) :
    ((last12 now).map fun m => orZero (((trendsIndex (some bs)).get m.label).map f)) =
      (List.range 12).map fun i => orZero ((bs.reverse.find? (fun b =>
        decide (b.year = (windowMonth now i).1 ∧ b.month = (windowMonth now i).2))).map f) := by
  rw [last12_eq now hm hy, List.map_map]
  apply List.map_congr_left
  intro i _
  simp only [Function.comp, trendsIndex_get]

theorem find?_reverse_unique (bs : List TrendBucket) (b : TrendBucket) (y m : Nat)
    (hd : (bs.map fun b => (b.year, b.month)).Nodup) (hb : b ∈ bs)
    (hym : b.year = y ∧ b.month = m) :
    bs.reverse.find? (fun b => decide (b.year = y ∧ b.month = m)) = some b := by
  cases hf : bs.reverse.find? (fun b => decide (b.year = y ∧ b.month = m)) with
  | none =>
    rw [List.find?_eq_none] at hf
    exact absurd (by simpa using hym) (hf b (List.mem_reverse.2 hb))
  | some b' =>
    have hp := List.find?_some hf
    have hmem : b' ∈ bs := List.mem_reverse.1 (List.mem_of_find?_eq_some hf)
    have hp' : b'.year = y ∧ b'.month = m := by simpa using hp
    have : b' = b := List.inj_on_of_nodup_map hd hmem hb (by
      show (b'.year, b'.month) = (b.year, b.month)
      rw [hp'.1, hp'.2, hym.1, hym.2])
    rw [this]

theorem find?_reverse_none (bs : List TrendBucket) (y m : Nat)
    (h : ∀ b ∈ bs, (b.year, b.month) ≠ (y, m)) :
    bs.reverse.find? (fun b => decide (b.year = y ∧ b.month = m)) = none := by
  rw [List.find?_eq_none]
  intro b hb hp
  have hp' : b.year = y ∧ b.month = m := by simpa using hp
  exact h b (List.mem_reverse.1 hb) (by rw [hp'.1, hp'.2])

theorem find?_reverse_filter_inWindow (now : JsDate) (bs : List TrendBucket) (i : Nat)
    (hi : i < 12) :
    (bs.filter (inWindow now)).reverse.find? (fun b =>
        decide (b.year = (windowMonth now i).1 ∧ b.month = (windowMonth now i).2)) =
      bs.reverse.find? (fun b =>
        decide (b.year = (windowMonth now i).1 ∧ b.month = (windowMonth now i).2)) := by
  rw [← List.filter_reverse]
  apply find?_filter_of_imp
  intro b _ hq
  have hq' : b.year = (windowMonth now i).1 ∧ b.month = (windowMonth now i).2 := by simpa using hq
  unfold inWindow
  rw [List.any_eq_true]
  refine ⟨i, List.mem_range.2 hi, ?_⟩
  rw [decide_eq_true_iff]
  exact Prod.ext hq'.1 hq'.2

/-- Claim C1. Dashboard monthly-trend zero-fill.  For a current date (year at least 100, see
`newDate`) and buckets with pairwise distinct (year, month), both chart series have twelve
entries; entry `i` is the count (revenue) of the bucket of the `i`-th window month and `0` when
there is no such bucket; dropping the buckets outside the window changes no entry. -/
theorem monthly_trend_zero_fill (now : JsDate) (buckets : List TrendBucket)
    (hm : now.month0 < 12) (hy : 100 ≤ now.year)
    (hd : (buckets.map fun b => (b.year, b.month)).Nodup) :
    (monthlyCounts now (some buckets)).length = 12 ∧
    (monthlyRevenue now (some buckets)).length = 12 ∧
    (∀ i, i < 12 →
      (∀ b ∈ buckets, (b.year, b.month) = windowMonth now i →
        (monthlyCounts now (some buckets))[i]? = some b.count ∧
        (monthlyRevenue now (some buckets))[i]? = some b.revenue) ∧
      ((∀ b ∈ buckets, (b.year, b.month) ≠ windowMonth now i) →
        (monthlyCounts now (some buckets))[i]? = some 0 ∧
        (monthlyRevenue now (some buckets))[i]? = some 0)) ∧
    monthlyCounts now (some (buckets.filter (inWindow now))) = monthlyCounts now (some buckets) ∧
    monthlyRevenue now (some (buckets.filter (inWindow now))) =
      monthlyRevenue now (some buckets) := by
  have hc : ∀ bs, monthlyCounts now (some bs) = _ := series_eq (·.count) now hm hy
  have hr : ∀ bs, monthlyRevenue now (some bs) = _ := series_eq (·.revenue) now hm hy
  refine ⟨by simp [monthlyCounts, last12], by simp [monthlyRevenue, last12], ?_, ?_, ?_⟩
  · intro i hi
    rw [hc, hr]
    simp only [List.getElem?_map, List.getElem?_range hi, Option.map_some']
    constructor
    · intro b hb hw
      have hw' : b.year = (windowMonth now i).1 ∧ b.month = (windowMonth now i).2 := by
        rw [← hw]; exact ⟨rfl, rfl⟩
      rw [find?_reverse_unique buckets b _ _ hd hb hw']
      simp [orZero_some]
    · intro hnone
      rw [find?_reverse_none buckets (windowMonth now i).1 (windowMonth now i).2 hnone]
      simp [orZero]
  · rw [hc, hc]
    apply List.map_congr_left
    intro i hi
    rw [find?_reverse_filter_inWindow now buckets i (List.mem_range.1 hi)]
  · rw [hr, hr]
    apply List.map_congr_left
    intro i hi
    rw [find?_reverse_filter_inWindow now buckets i (List.mem_range.1 hi)]

theorem monthly_trend_zero_fill_witness :
    monthlyCounts ⟨2025, 5⟩ (some [⟨2025, 1, 2, 20⟩, ⟨2025, 2, 1, 10⟩]) =
      [0, 0, 0, 0, 0, 0, 2, 1, 0, 0, 0, 0] ∧
    (monthlyCounts ⟨2025, 5⟩ (some [⟨2025, 1, 2, 20⟩, ⟨2025, 2, 1, 10⟩]))[6]? = some 2 ∧
    (monthlyRevenue ⟨2025, 5⟩ (some [⟨2025, 1, 2, 20⟩, ⟨2025, 2, 1, 10⟩]))[6]? = some 20 ∧
    (monthlyCounts ⟨2025, 5⟩ (some [⟨2025, 1, 2, 20⟩, ⟨2025, 2, 1, 10⟩]))[0]? = some 0 ∧
    (monthlyRevenue ⟨2025, 5⟩ (some [⟨2025, 1, 2, 20⟩, ⟨2025, 2, 1, 10⟩]))[0]? = some 0 :=
  have h := monthly_trend_zero_fill ⟨2025, 5⟩ [⟨2025, 1, 2, 20⟩, ⟨2025, 2, 1, 10⟩]
    (by decide) (by decide) (by decide)
  ⟨by decide,
    ((h.2.2.1 6 (by decide)).1 ⟨2025, 1, 2, 20⟩ (by simp) (by decide)).1,
    ((h.2.2.1 6 (by decide)).1 ⟨2025, 1, 2, 20⟩ (by simp) (by decide)).2,
    ((h.2.2.1 0 (by decide)).2 (by decide)).1,
    ((h.2.2.1 0 (by decide)).2 (by decide)).2⟩

theorem dashboardWindow_eq (now : JsDate) (hm : now.month0 < 12) (hy : 100 ≤ now.year) :
    dashboardWindow now = (List.range 12).map (windowMonth now) := by
  unfold dashboardWindow
  rw [last12_eq now hm hy, List.map_map]
  rfl

theorem usageWindow_eq (now : JsDate) (hm : now.month0 < 12) (hy : 100 ≤ now.year) :
    usageWindow now = (List.range 12).map (windowMonth now) := by
  unfold usageWindow months
  rw [List.map_map]
  apply List.map_congr_left
  intro i hi
  have hpos := windowMonth_snd_pos now i
  simp only [Function.comp, newDate_eq_window now i hm hy (List.mem_range.1 hi),
    Nat.sub_add_cancel hpos]

theorem keys_eq (now : JsDate) (hm : now.month0 < 12) (hy : 100 ≤ now.year) :
    keys now = (List.range 12).map fun i =>
      monthKey (windowMonth now i).1 (windowMonth now i).2 := by
  unfold keys months
  rw [List.map_map]
  apply List.map_congr_left
  intro i hi
  have hpos := windowMonth_snd_pos now i
  simp only [Function.comp, newDate_eq_window now i hm hy (List.mem_range.1 hi),
    Nat.sub_add_cancel hpos]

theorem monthKey_pair_injective :
    Function.Injective (fun p : Nat × Nat => monthKey p.1 p.2) := by
  intro p q h
  have := monthKey_inj p.1 p.2 q.1 q.2 h
  exact Prod.ext this.1 this.2

theorem windowMonth_ordinal (now : JsDate) (i : Nat) (hy : 100 ≤ now.year) (hi : i < 12) :
    monthOrdinal (windowMonth now i).1 (windowMonth now i).2 =
      12 * now.year + now.month0 - 11 + i := by
  simp only [monthOrdinal, windowMonth, monthsBefore]
  omega

/-- Claim C2. Trailing twelve-month window.  For a current date with year `y` (at least 100, see
`newDate`) and month `m`, the window of the dashboard and the window of the usage page are the
same twelve calendar months with the same keys, in strictly increasing chronological order, each
entry followed by the next calendar month (December by January of the next year); the last entry
is `(y, m)`, the first is the month eleven months before, and no month or key appears twice. -/
theorem trailing_window (now : JsDate) (hm : now.month0 < 12) (hy : 100 ≤ now.year) :
    usageWindow now = dashboardWindow now ∧
    keys now = (last12 now).map (·.label) ∧
    (dashboardWindow now).length = 12 ∧
    (dashboardWindow now).Pairwise
      (fun a b => monthOrdinal a.1 a.2 < monthOrdinal b.1 b.2) ∧
    (∀ a ∈ dashboardWindow now, 1 ≤ a.2 ∧ a.2 ≤ 12) ∧
    (∀ i a b, (dashboardWindow now)[i]? = some a → (dashboardWindow now)[i + 1]? = some b →
      b = nextMonth a ∧ monthOrdinal b.1 b.2 = monthOrdinal a.1 a.2 + 1) ∧
    (dashboardWindow now)[11]? = some (now.year, now.month0 + 1) ∧
    (dashboardWindow now)[0]? = some (monthsBefore now.year (now.month0 + 1) 11) ∧
    (dashboardWindow now)[0]? =
      some (if now.month0 = 11 then (now.year, 1) else (now.year - 1, now.month0 + 2)) ∧
    (dashboardWindow now).Nodup ∧
    (keys now).Nodup := by
  have hw := dashboardWindow_eq now hm hy
  have hpw : (dashboardWindow now).Pairwise
      (fun a b => monthOrdinal a.1 a.2 < monthOrdinal b.1 b.2) := by
    rw [hw, List.pairwise_map]
    refine List.Pairwise.imp_of_mem ?_ (List.pairwise_lt_range 12)
    intro i j hi hj hij
    rw [windowMonth_ordinal now i hy (List.mem_range.1 hi),
      windowMonth_ordinal now j hy (List.mem_range.1 hj)]
    omega
  have hnd : (dashboardWindow now).Nodup := by
    refine List.Pairwise.imp ?_ hpw
    intro a b hab heq
    rw [heq] at hab
    exact Nat.lt_irrefl _ hab
  refine ⟨?_, ?_, ?_, hpw, ?_, ?_, ?_, ?_, ?_, hnd, ?_⟩
  · rw [usageWindow_eq now hm hy, hw]
  · rw [keys_eq now hm hy, last12_eq now hm hy, List.map_map]
    rfl
  · simp [hw]
  · intro a ha
    rw [hw, List.mem_map] at ha
    obtain ⟨i, _, rfl⟩ := ha
    simp only [windowMonth, monthsBefore]
    omega
  · intro i a b ha hb
    rw [hw] at ha hb
    have hi : i + 1 < 12 := by
      by_contra hcon
      rw [List.getElem?_eq_none (by simp; omega)] at hb
      exact Option.noConfusion hb
    rw [List.getElem?_map, List.getElem?_range (by omega)] at ha
    rw [List.getElem?_map, List.getElem?_range hi] at hb
    simp only [Option.map_some', Option.some.injEq] at ha hb
    subst ha
    subst hb
    obtain ⟨y, m0⟩ := now
    simp only at hm hy
    simp only [windowMonth, monthsBefore, nextMonth, monthOrdinal]
    constructor
    · split_ifs with h12
      · exact Prod.ext (by simp only; omega) (by simp only; omega)
      · exact Prod.ext (by simp only; omega) (by simp only; omega)
    · omega
  · rw [hw, List.getElem?_map, List.getElem?_range (by decide)]
    obtain ⟨y, m0⟩ := now
    simp only at hm hy
    simp only [Option.map_some', windowMonth, monthsBefore, Option.some.injEq]
    exact Prod.ext (by simp only; omega) (by simp only; omega)
  · rw [hw, List.getElem?_map, List.getElem?_range (by decide)]
    rfl
  · rw [hw, List.getElem?_map, List.getElem?_range (by decide)]
    obtain ⟨y, m0⟩ := now
    simp only at hm hy
    simp only [Option.map_some', windowMonth, monthsBefore, Option.some.injEq]
    split_ifs with h11
    · exact Prod.ext (by simp only; omega) (by simp only; omega)
    · exact Prod.ext (by simp only; omega) (by simp only; omega)
  · have hk : keys now = (dashboardWindow now).map (fun p : Nat × Nat => monthKey p.1 p.2) := by
      rw [keys_eq now hm hy, hw, List.map_map]
      rfl
    rw [hk]
    exact hnd.map monthKey_pair_injective

theorem trailing_window_witness :
    usageWindow ⟨2025, 0⟩ = dashboardWindow ⟨2025, 0⟩ ∧
    (dashboardWindow ⟨2025, 0⟩)[11]? = some (2025, 1) ∧
    (dashboardWindow ⟨2025, 0⟩)[0]? = some (2024, 2) ∧
    (keys ⟨2025, 0⟩).Nodup :=
  have h := trailing_window ⟨2025, 0⟩ (by decide) (by decide)
  ⟨h.1, h.2.2.2.2.2.2.1, h.2.2.2.2.2.2.2.2.1, h.2.2.2.2.2.2.2.2.2.2⟩

/-! ## SendNotifications.jsx: offer snapshot and validation -/

theorem find?_append_first {α : Type} (p : α → Bool) (pre : List α) (a : α) (post : List α)
    (hpre : ∀ x ∈ pre, p x = false) (ha : p a = true) :
    (pre ++ a :: post).find? p = some a := by
  have hnone : pre.find? p = none := by
    rw [List.find?_eq_none]
    intro x hx
    simp [hpre x hx]
  rw [List.find?_append, hnone]
  simp [List.find?_cons, ha]

theorem find?_map_offer (offerId : String) (f : Offer → Bool) (g : Offer → String) :
    ∀ offers : List Offer,
      (offers.map fun o => { o with isActive := f o, endDate := g o }).find?
          (fun o => decide (o._id = offerId)) =
        (offers.find? (fun o => decide (o._id = offerId))).map
          (fun o => { o with isActive := f o, endDate := g o })
  | [] => rfl
  | o :: rest => by
    by_cases h : o._id = offerId
    · simp [List.find?_cons, h]
    · simp [List.find?_cons, h, find?_map_offer offerId f g rest]

/-- Claim C3.  Offer snapshot construction: if some offer has `_id` equal to the selected
`offerId`, then `data.offer` is the five-field object `{id, code, name, type, value}` of the
first such offer, for every non-empty `offerId` and, when no loaded offer has the empty `_id`,
for every `offerId`; if `offerId` is empty (the value of the form's None option) or matches no
loaded offer, `data` carries no offer; the fields of an offer that are not among the five have
no influence on `data`. -/
theorem offer_snapshot (offers : List Offer) (offerId : String) :
    (offerId ≠ "" → ∀ (pre : List Offer) (o : Offer) (post : List Offer),
      offers = pre ++ o :: post → (∀ p ∈ pre, p._id ≠ offerId) → o._id = offerId →
      (offerData offers offerId).offer =
        some { id := o._id, code := o.code, name := o.name, type := o.type, value := o.value }) ∧
    ((∀ o ∈ offers, o._id ≠ "") → ∀ (pre : List Offer) (o : Offer) (post : List Offer),
      offers = pre ++ o :: post → (∀ p ∈ pre, p._id ≠ offerId) → o._id = offerId →
      (offerData offers offerId).offer =
        some { id := o._id, code := o.code, name := o.name, type := o.type, value := o.value }) ∧
    ((offerId = "" ∨ ∀ o ∈ offers, o._id ≠ offerId) →
      (offerData offers offerId).offer = none) ∧
    (∀ (f : Offer → Bool) (g : Offer → String),
      offerData (offers.map fun o => { o with isActive := f o, endDate := g o }) offerId =
        offerData offers offerId) := by
  have hfirst : offerId ≠ "" → ∀ (pre : List Offer) (o : Offer) (post : List Offer),
      offers = pre ++ o :: post → (∀ p ∈ pre, p._id ≠ offerId) → o._id = offerId →
      (offerData offers offerId).offer =
        some { id := o._id, code := o.code, name := o.name, type := o.type,
               value := o.value } := by
    intro hne pre o post hsplit hpre ho
    have hfind : offers.find? (fun o => decide (o._id = offerId)) = some o := by
      rw [hsplit]
      exact find?_append_first _ pre o post (fun x hx => by simp [hpre x hx]) (by simp [ho])
    simp [offerData, hne, hfind]
  refine ⟨hfirst, ?_, ?_, ?_⟩
  · intro hids pre o post hsplit hpre ho
    have hmem : o ∈ offers := by
      rw [hsplit]
      exact List.mem_append_right pre (List.mem_cons_self o post)
    have hne : offerId ≠ "" := by
      rw [← ho]
      exact hids o hmem
    exact hfirst hne pre o post hsplit hpre ho
  · intro h
    rcases h with h | h
    · simp [offerData, h]
    · have hfind : offers.find? (fun o => decide (o._id = offerId)) = none := by
        rw [List.find?_eq_none]
        intro x hx
        simp [h x hx]
      unfold offerData
      split_ifs
      · rw [hfind]
      · rfl
  · intro f g
    unfold offerData
    split_ifs
    · rw [find?_map_offer]
      cases offers.find? (fun o => decide (o._id = offerId)) with
      | some o => rfl
      | none => rfl
    · rfl

theorem offer_snapshot_witness :
    (offerData [{ _id := "d1", code := "OLD5", name := "Old", type := "fixed", value := 5,
                  isActive := true, endDate := "2026-01-31" },
                { _id := "d2", code := "SAVE10", name := "Save 10", type := "percentage",
                  value := 10, isActive := true, endDate := "2026-12-31" }] "d2").offer =
      some { id := "d2", code := "SAVE10", name := "Save 10", type := "percentage",
             value := 10 } ∧
    (offerData [{ _id := "d1", code := "OLD5", name := "Old", type := "fixed", value := 5,
                  isActive := true, endDate := "2026-01-31" }] "d1").offer =
      some { id := "d1", code := "OLD5", name := "Old", type := "fixed", value := 5 } ∧
    (offerData [{ _id := "d1", code := "OLD5", name := "Old", type := "fixed", value := 5,
                  isActive := true, endDate := "2026-01-31" }] "").offer = none :=
  ⟨(offer_snapshot _ "d2").1 (by decide)
      [{ _id := "d1", code := "OLD5", name := "Old", type := "fixed", value := 5,
         isActive := true, endDate := "2026-01-31" }]
      { _id := "d2", code := "SAVE10", name := "Save 10", type := "percentage",
        value := 10, isActive := true, endDate := "2026-12-31" } [] rfl (by decide) rfl,
    (offer_snapshot _ "d1").2.1 (by decide) []
      { _id := "d1", code := "OLD5", name := "Old", type := "fixed", value := 5,
        isActive := true, endDate := "2026-01-31" } [] rfl (by decide) rfl,
    (offer_snapshot _ "").2.2.1 (Or.inl rfl)⟩

/-- Claim C4.  Send validation: `handleSend` issues no request when the message is empty after
trimming, nor, outside role mode, when no user is selected; in both cases message,
selectedUserIds, offerId, mode, role and type stay as they were.  Every request issued carries
the message of the form, non-empty after trimming, and outside role mode it is a
`sendNotification` with the non-empty list of selected ids. -/
theorem send_validation (st : FormState) (response : Except ApiError Unit) :
    ((jsTrim st.message = "" ∨ (st.mode ≠ "role" ∧ st.selectedUserIds = [])) →
      (handleSend st response).requests = [] ∧
      (handleSend st response).state.message = st.message ∧
      (handleSend st response).state.selectedUserIds = st.selectedUserIds ∧
      (handleSend st response).state.offerId = st.offerId ∧
      (handleSend st response).state.mode = st.mode ∧
      (handleSend st response).state.role = st.role ∧
      (handleSend st response).state.type = st.type) ∧
    (∀ req ∈ (handleSend st response).requests,
      req.message = st.message ∧ jsTrim req.message ≠ "" ∧
      (st.mode ≠ "role" → st.selectedUserIds ≠ [] ∧
        ∃ type data, req = .sendNotification st.selectedUserIds st.message type data)) := by
  constructor
  · intro h
    unfold handleSend
    by_cases hmsg : jsTrim st.message = ""
    · simp [hmsg]
    · rcases h with h | ⟨hmode, hsel⟩
      · exact absurd h hmsg
      · simp [hmsg, hmode, hsel]
  · intro req hreq
    unfold handleSend at hreq
    by_cases hmsg : jsTrim st.message = ""
    · simp [hmsg] at hreq
    · by_cases hmode : st.mode = "role"
      · cases response <;> simp [hmsg, hmode, afterSend] at hreq <;>
          simp [hreq, SendRequest.message, hmsg, hmode]
      · by_cases hsel : st.selectedUserIds = []
        · simp [hmsg, hmode, hsel] at hreq
        · cases response <;> simp [hmsg, hmode, hsel, afterSend] at hreq <;>
            simp [hreq, SendRequest.message, hmsg, hmode, hsel]

theorem send_validation_witness :
    (handleSend { FormState.initial with message := "  \n" } (.ok ())).requests = [] ∧
    (handleSend { FormState.initial with mode := "users", message := "Offer live" }
      (.ok ())).requests = [] ∧
    jsTrim (SendRequest.sendNotificationToRole "user" "Offer live" "info" ⟨none⟩).message ≠ "" :=
  ⟨((send_validation { FormState.initial with message := "  \n" } (.ok ())).1
      (Or.inl (by decide))).1,
    ((send_validation { FormState.initial with mode := "users", message := "Offer live" }
      (.ok ())).1 (Or.inr ⟨by decide, rfl⟩)).1,
    ((send_validation { FormState.initial with message := "Offer live" } (.ok ())).2
      (.sendNotificationToRole "user" "Offer live" "info" ⟨none⟩) (by decide)).2.1⟩

/-! ## NotificationBell.jsx: read state -/

theorem read_true_eq (n : Notification) (h : n.read = true) : { n with read := true } = n := by
  cases n
  simp only at h
  simp [h]

/-- Claim C5.  Read state is monotonic in the notification bell: under `handleMarkRead` and
under `handleMarkAll`, whether the call succeeds or fails, the list keeps its length and order,
every item keeps every field other than `read`, and an item that was read stays read;
`handleMarkRead` leaves every item with another id exactly as it was. -/
theorem read_state_monotonic (response : Except ApiError Unit) (id : String) (st : BellState) :
    (handleMarkRead response id st).items.length = st.items.length ∧
    (handleMarkAll response st).items.length = st.items.length ∧
    (∀ (i : Nat) (n : Notification), st.items[i]? = some n →
      ∃ n', (handleMarkRead response id st).items[i]? = some n' ∧
        (n.read = true → n'.read = true) ∧
        n' = { n with read := n'.read } ∧
        (n.id ≠ id → n' = n)) ∧
    (∀ (i : Nat) (n : Notification), st.items[i]? = some n →
      ∃ n', (handleMarkAll response st).items[i]? = some n' ∧
        (n.read = true → n'.read = true) ∧
        n' = { n with read := n'.read }) := by
  cases response with
  | error e =>
    refine ⟨rfl, rfl, ?_, ?_⟩
    · intro i n h
      exact ⟨n, h, fun hr => hr, rfl, fun _ => rfl⟩
    · intro i n h
      exact ⟨n, h, fun hr => hr, rfl⟩
  | ok u =>
    refine ⟨by simp [handleMarkRead], by simp [handleMarkAll], ?_, ?_⟩
    · intro i n h
      by_cases hid : n.id = id
      · refine ⟨{ n with read := true }, ?_, fun _ => rfl, rfl, fun hne => absurd hid hne⟩
        simp [handleMarkRead, List.getElem?_map, h, hid]
      · refine ⟨n, ?_, fun hr => hr, rfl, fun _ => rfl⟩
        simp [handleMarkRead, List.getElem?_map, h, hid]
    · intro i n h
      refine ⟨{ n with read := true }, ?_, fun _ => rfl, rfl⟩
      simp [handleMarkAll, List.getElem?_map, h]

theorem read_state_monotonic_witness :
    ∃ n', (handleMarkRead (.ok ()) "n2"
        { opened := true, loading := false, error := none,
          items := [⟨"n1", "Welcome", "info", true, "2025-06-01", none⟩,
                    ⟨"n2", "Offer live", "success", false, "2025-06-02", none⟩],
          unreadCount := 1 }).items[0]? = some n' ∧
      (true = true → n'.read = true) ∧
      n' = { (⟨"n1", "Welcome", "info", true, "2025-06-01", none⟩ : Notification) with
             read := n'.read } ∧
      ("n1" ≠ "n2" → n' = ⟨"n1", "Welcome", "info", true, "2025-06-01", none⟩) :=
  (read_state_monotonic (.ok ()) "n2"
    { opened := true, loading := false, error := none,
      items := [⟨"n1", "Welcome", "info", true, "2025-06-01", none⟩,
                ⟨"n2", "Offer live", "success", false, "2025-06-02", none⟩],
      unreadCount := 1 }).2.2.1 0 ⟨"n1", "Welcome", "info", true, "2025-06-01", none⟩ rfl

theorem map_read_true_of_all_read :
    ∀ items : List Notification, (∀ n ∈ items, n.read = true) →
      items.map (fun (n : Notification) => { n with read := true }) = items
  | [], _ => rfl
  | n :: rest, h => by
    rw [List.map_cons, read_true_eq n (h n (by simp)),
      map_read_true_of_all_read rest (fun m hm => h m (by simp [hm]))]

theorem flippedCount_self : ∀ items : List Notification, flippedCount items items = 0
  | [] => rfl
  | n :: rest => by
    have ih := flippedCount_self rest
    unfold flippedCount at ih ⊢
    rw [List.zip_cons_cons, List.countP_cons, ih]
    cases n.read <;> simp

/-- Claim C6.  Mark-all is idempotent: after a successful `handleMarkAll` every item is read
and the badge count is 0; a second `handleMarkAll`, successful or not, yields exactly the same
state and flips no notification. -/
theorem mark_all_idempotent (st : BellState) (second : Except ApiError Unit) :
    (∀ n ∈ (handleMarkAll (.ok ()) st).items, n.read = true) ∧
    (handleMarkAll (.ok ()) st).unreadCount = 0 ∧
    handleMarkAll second (handleMarkAll (.ok ()) st) = handleMarkAll (.ok ()) st ∧
    flippedCount (handleMarkAll (.ok ()) st).items
      (handleMarkAll second (handleMarkAll (.ok ()) st)).items = 0 := by
  have hall : ∀ n ∈ (handleMarkAll (.ok ()) st).items, n.read = true := by
    intro n hn
    simp only [handleMarkAll, List.mem_map] at hn
    obtain ⟨m, _, rfl⟩ := hn
    rfl
  have hsame : handleMarkAll second (handleMarkAll (.ok ()) st) = handleMarkAll (.ok ()) st := by
    cases second with
    | error e => rfl
    | ok u =>
      have hmap := map_read_true_of_all_read _ hall
      show ({ (handleMarkAll (.ok ()) st) with
        items := (handleMarkAll (.ok ()) st).items.map
          fun (n : Notification) => { n with read := true },
        unreadCount := 0 } : BellState) = handleMarkAll (.ok ()) st
      rw [hmap]
      rfl
  refine ⟨hall, rfl, hsame, ?_⟩
  rw [hsame]
  exact flippedCount_self _

/-- Claim C7.  A failed mark-read does not mutate state: when the awaited call is rejected,
`handleMarkRead` and `handleMarkAll` leave the whole state, so items and unreadCount, as it
was. -/
theorem failed_mark_keeps_state (e : ApiError) (id : String) (st : BellState) :
    handleMarkRead (.error e) id st = st ∧
    (handleMarkRead (.error e) id st).items = st.items ∧
    (handleMarkRead (.error e) id st).unreadCount = st.unreadCount ∧
    handleMarkAll (.error e) st = st ∧
    (handleMarkAll (.error e) st).items = st.items ∧
    (handleMarkAll (.error e) st).unreadCount = st.unreadCount :=
  ⟨rfl, rfl, rfl, rfl, rfl, rfl⟩

/-- Claim C8.  The badge count is taken from the response, not from the returned page: for a
successful response that carries notifications and unreadCount, directly or wrapped under
`data`, `fetchNotifications` sets items to the notifications and unreadCount to the
unreadCount of the response; for some response the count exceeds the number of items and
differs from the number of unread items returned. -/
theorem unread_count_from_response (st : BellState) (ns : List Notification) (c : Int)
    (outerNs : Option (List Notification)) (outerC : Option Int) :
    (fetchNotifications (.ok ⟨none, some ns, some c⟩) st).items = ns ∧
    (fetchNotifications (.ok ⟨none, some ns, some c⟩) st).unreadCount = c ∧
    (fetchNotifications (.ok ⟨some ⟨some ns, some c⟩, outerNs, outerC⟩) st).items = ns ∧
    (fetchNotifications (.ok ⟨some ⟨some ns, some c⟩, outerNs, outerC⟩) st).unreadCount = c ∧
    (∃ res : NotificationsResponse,
      ((fetchNotifications (.ok res) st).items.length : Int) <
          (fetchNotifications (.ok res) st).unreadCount ∧
      (fetchNotifications (.ok res) st).unreadCount ≠
          (((fetchNotifications (.ok res) st).items.countP fun n => !n.read : Nat) : Int)) := by
  refine ⟨rfl, ?_, rfl, ?_, ?_⟩
  · simp [fetchNotifications, orZero_some]
  · simp [fetchNotifications, orZero_some]
  · refine ⟨{ data := none,
              notifications := some [⟨"n1", "Offer live", "info", false, "2025-06-02", none⟩],
              unreadCount := some 7 }, ?_, ?_⟩
    · simp [fetchNotifications, orZero_some, orEmpty]
    · simp [fetchNotifications, orZero_some, orEmpty]

/-! ## Dashboard.jsx: status pie -/

theorem statusCounts_get (rows : List StatusRow) (s : String) :
    (statusCounts (some rows)).get s =
      (rows.reverse.find? (fun r => decide (r._id = s))).map (·.count) := by
  have hfold : statusCounts (some rows) =
      JsMap.ofEntries (rows.map fun r => (r._id, r.count)) := by
    unfold statusCounts JsMap.ofEntries orEmpty
    rw [List.foldl_map]
  rw [hfold, get_ofEntries, ← List.map_reverse, List.find?_map, Option.map_map]
  rfl

theorem statusCounts_get_last (pre : List StatusRow) (row : StatusRow) (post : List StatusRow)
    (hpost : ∀ r ∈ post, r._id ≠ row._id) :
    (statusCounts (some (pre ++ row :: post))).get row._id = some row.count := by
  rw [statusCounts_get, List.reverse_append, List.reverse_cons, List.append_assoc,
    List.singleton_append]
  rw [find?_append_first _ post.reverse row pre.reverse
    (fun x hx => by simp [hpost x (List.mem_reverse.1 hx)]) (by simp)]
  rfl

theorem statusCounts_get_none (rows : List StatusRow) (s : String)
    (h : ∀ r ∈ rows, r._id ≠ s) : (statusCounts (some rows)).get s = none := by
  rw [statusCounts_get]
  have : rows.reverse.find? (fun r => decide (r._id = s)) = none := by
    rw [List.find?_eq_none]
    intro x hx
    simp [h x (List.mem_reverse.1 hx)]
  rw [this]
  rfl

/-- Claim C9, as stated, fails: with no breakdown row at all and an overview that reports 5
active subscriptions, the first value of the pie dataset is 5, not 0. -/
theorem status_breakdown_fallback_counterexample :
    (∀ r ∈ ([] : List StatusRow), r._id ≠ "active") ∧
    pieData (some []) (some ⟨some 9, some 5, some 6, some 3⟩) = [5, 0, 0, 0] ∧
    pieData (some []) (some ⟨some 9, some 5, some 6, some 3⟩) ≠ [0, 0, 0, 0] := by
  refine ⟨by simp, by decide, by decide⟩

/-- Claim C9, amended.  The pie dataset is `[active, cancelled, expired, pending]`; each value
is the count of the breakdown row with that status (the last one, should there be several);
cancelled, expired and pending are 0 for a status that has no row, and active, when there is no
row with status active, is `overview.activeSubscriptions`, or 0 when the overview or that field
is missing. -/
theorem status_breakdown (rows : List StatusRow) (overview : Option Overview) :
    pieData (some rows) overview =
      [pieActive (some rows) overview, pieCancelled (some rows), pieExpired (some rows),
        piePending (some rows)] ∧
    (∀ (pre : List StatusRow) (row : StatusRow) (post : List StatusRow),
      rows = pre ++ row :: post → (∀ r ∈ post, r._id ≠ row._id) →
        (row._id = "active" → pieActive (some rows) overview = row.count) ∧
        (row._id = "cancelled" → pieCancelled (some rows) = row.count) ∧
        (row._id = "expired" → pieExpired (some rows) = row.count) ∧
        (row._id = "pending" → piePending (some rows) = row.count)) ∧
    ((∀ r ∈ rows, r._id ≠ "cancelled") → pieCancelled (some rows) = 0) ∧
    ((∀ r ∈ rows, r._id ≠ "expired") → pieExpired (some rows) = 0) ∧
    ((∀ r ∈ rows, r._id ≠ "pending") → piePending (some rows) = 0) ∧
    ((∀ r ∈ rows, r._id ≠ "active") →
      pieActive (some rows) overview =
        match overview with
        | some o =>
          match o.activeSubscriptions with
          | some a => a
          | none => 0
        | none => 0) := by
  refine ⟨rfl, ?_, ?_, ?_, ?_, ?_⟩
  · intro pre row post hsplit hpost
    have hget := statusCounts_get_last pre row post hpost
    rw [← hsplit] at hget
    refine ⟨?_, ?_, ?_, ?_⟩
    · intro hid
      rw [hid] at hget
      simp [pieActive, hget]
    · intro hid
      rw [hid] at hget
      simp [pieCancelled, hget, nullish]
    · intro hid
      rw [hid] at hget
      simp [pieExpired, hget, nullish]
    · intro hid
      rw [hid] at hget
      simp [piePending, hget, nullish]
  · intro h
    simp [pieCancelled, statusCounts_get_none rows _ h, nullish]
  · intro h
    simp [pieExpired, statusCounts_get_none rows _ h, nullish]
  · intro h
    simp [piePending, statusCounts_get_none rows _ h, nullish]
  · intro h
    simp only [pieActive, statusCounts_get_none rows _ h, nullish]
    cases overview with
    | none => rfl
    | some o =>
      cases hact : o.activeSubscriptions with
      | none => simp [hact]
      | some a => simp [hact]

theorem status_breakdown_witness :
    pieData (some [⟨"active", 2⟩, ⟨"cancelled", 1⟩]) none = [2, 1, 0, 0] ∧
    pieData (some [⟨"active", 2⟩, ⟨"cancelled", 1⟩]) (some ⟨some 9, some 5, some 6, some 3⟩) =
      [2, 1, 0, 0] ∧
    pieActive (some [⟨"active", 2⟩, ⟨"cancelled", 1⟩]) (some ⟨some 9, some 5, some 6, some 3⟩) =
      2 ∧
    pieExpired (some [⟨"active", 2⟩, ⟨"cancelled", 1⟩]) = 0 ∧
    pieActive (some [⟨"cancelled", 1⟩]) (some ⟨some 9, some 5, some 6, some 3⟩) = 5 :=
  ⟨by decide, by decide,
    ((status_breakdown [⟨"active", 2⟩, ⟨"cancelled", 1⟩]
      (some ⟨some 9, some 5, some 6, some 3⟩)).2.1 [] ⟨"active", 2⟩ [⟨"cancelled", 1⟩] rfl
      (by decide)).1 rfl,
    (status_breakdown [⟨"active", 2⟩, ⟨"cancelled", 1⟩] none).2.2.2.1 (by decide),
    (status_breakdown [⟨"cancelled", 1⟩]
      (some ⟨some 9, some 5, some 6, some 3⟩)).2.2.2.2.2 (by decide)⟩

/-! ## Dashboard.jsx: top plans -/

theorem rankedBefore_total (a b : PlanStat) : rankedBefore a b ∨ rankedBefore b a := by
  unfold rankedBefore
  rcases Nat.lt_trichotomy a.subscriptionCount b.subscriptionCount with h | h | h
  · exact Or.inr (Or.inl h)
  · rcases le_total a.planName b.planName with hn | hn
    · exact Or.inl (Or.inr ⟨h, hn⟩)
    · exact Or.inr (Or.inr ⟨h.symm, hn⟩)
  · exact Or.inl (Or.inl h)

theorem rankedBefore_trans (a b c : PlanStat) (hab : rankedBefore a b) (hbc : rankedBefore b c) :
    rankedBefore a c := by
  unfold rankedBefore at *
  rcases hab with h1 | ⟨h1, n1⟩ <;> rcases hbc with h2 | ⟨h2, n2⟩
  · exact Or.inl (by omega)
  · exact Or.inl (by omega)
  · exact Or.inl (by omega)
  · exact Or.inr ⟨by omega, le_trans n1 n2⟩

instance rankedBefore_isTotal : IsTotal PlanStat rankedBefore := ⟨rankedBefore_total⟩

instance rankedBefore_isTrans : IsTrans PlanStat rankedBefore := ⟨rankedBefore_trans⟩

theorem topPlans_pairwise (planStats : List PlanStat) (limit : Nat) :
    (topPlans planStats limit).Pairwise rankedBefore :=
  List.Pairwise.sublist (List.take_sublist _ _) (List.sorted_insertionSort rankedBefore planStats)

theorem topPlansRows_pairwise (plans : List PlanStat) :
    (topPlansRows (some plans)).Pairwise rowOrdered ↔
      plans.Pairwise (fun a b => b.subscriptionCount ≤ a.subscriptionCount ∧
        (a.subscriptionCount = b.subscriptionCount → a.planName ≤ b.planName)) := by
  unfold topPlansRows
  by_cases h : plans.length = 0
  · have : plans = [] := List.length_eq_zero.1 h
    subst this
    simp
  · simp only [h, if_false, List.pairwise_map, rowOrdered]

/-- Claim C10.  Top-plans ranking.  The table holds one row per received plan, in the order
received, so its rows are sorted exactly when the received sequence is; for the sequence that
the aggregation service of the spec returns, the rows are sorted by subscriptionCount
descending, and of two rows with equal subscriptionCount the one with the smaller planName
comes first. -/
theorem top_plans_ranking (planStats : List PlanStat) (limit : Nat)
    (received : List PlanStat) :
    (topPlansRows (some received)).map (fun r => (r.key, r.planName, r.subscriptionCount)) =
      received.map (fun p => (p._id, p.planName, p.subscriptionCount)) ∧
    ((topPlansRows (some received)).Pairwise rowOrdered ↔
      received.Pairwise (fun a b => b.subscriptionCount ≤ a.subscriptionCount ∧
        (a.subscriptionCount = b.subscriptionCount → a.planName ≤ b.planName))) ∧
    (topPlansRows (some (topPlans planStats limit))).Pairwise rowOrdered ∧
    (∀ (i j : Nat) (a b : TopPlanRow), i < j →
      (topPlansRows (some (topPlans planStats limit)))[i]? = some a →
      (topPlansRows (some (topPlans planStats limit)))[j]? = some b →
      b.subscriptionCount ≤ a.subscriptionCount ∧
        (a.subscriptionCount = b.subscriptionCount → a.planName ≤ b.planName)) := by
  have hsorted : (topPlansRows (some (topPlans planStats limit))).Pairwise rowOrdered := by
    rw [topPlansRows_pairwise]
    refine List.Pairwise.imp ?_ (topPlans_pairwise planStats limit)
    intro a b hab
    unfold rankedBefore at hab
    rcases hab with h | ⟨h, hn⟩
    · exact ⟨by omega, fun heq => by omega⟩
    · exact ⟨by omega, fun _ => hn⟩
  refine ⟨?_, topPlansRows_pairwise received, hsorted, ?_⟩
  · unfold topPlansRows
    by_cases h : received.length = 0
    · have : received = [] := List.length_eq_zero.1 h
      subst this
      simp
    · simp only [h, if_false, List.map_map]
      rfl
  · intro i j a b hij ha hb
    rw [List.pairwise_iff_getElem] at hsorted
    have hi := (List.getElem?_eq_some_iff.1 ha)
    have hj := (List.getElem?_eq_some_iff.1 hb)
    obtain ⟨hi1, hi2⟩ := hi
    obtain ⟨hj1, hj2⟩ := hj
    have := hsorted i j hi1 hj1 hij
    rw [hi2, hj2] at this
    exact this

theorem topPlans_example :
    topPlans [⟨"p1", "Basic", "Fibernet", 10, 1⟩, ⟨"p2", "Premium", "Fibernet", 30, 2⟩,
      ⟨"p3", "Alpha", "Copper", 20, 1⟩] 5 =
    [⟨"p2", "Premium", "Fibernet", 30, 2⟩, ⟨"p3", "Alpha", "Copper", 20, 1⟩,
      ⟨"p1", "Basic", "Fibernet", 10, 1⟩] := by
  have h1 : ¬ ("Basic" : String) ≤ "Alpha" := by
    rw [String.le_iff_toList_le]
    decide
  simp [topPlans, List.insertionSort, List.orderedInsert, rankedBefore, h1]

theorem top_plans_ranking_witness :
    (topPlansRows (some (topPlans
      [⟨"p1", "Basic", "Fibernet", 10, 1⟩, ⟨"p2", "Premium", "Fibernet", 30, 2⟩,
       ⟨"p3", "Alpha", "Copper", 20, 1⟩] 5))).map (·.planName) = ["Premium", "Alpha", "Basic"] ∧
    ((1 : Nat) ≤ 1 ∧ ((1 : Nat) = 1 → ("Alpha" : String) ≤ "Basic")) := by
  have hrows : topPlansRows (some (topPlans
      [⟨"p1", "Basic", "Fibernet", 10, 1⟩, ⟨"p2", "Premium", "Fibernet", 30, 2⟩,
       ⟨"p3", "Alpha", "Copper", 20, 1⟩] 5)) =
      [⟨"p2", "Premium", "Fibernet", 30, 2, 60⟩, ⟨"p3", "Alpha", "Copper", 20, 1, 20⟩,
       ⟨"p1", "Basic", "Fibernet", 10, 1, 10⟩] := by
    rw [topPlans_example]
    simp [topPlansRows]
    norm_num
  refine ⟨by rw [hrows]; rfl, ?_⟩
  exact (top_plans_ranking
      [⟨"p1", "Basic", "Fibernet", 10, 1⟩, ⟨"p2", "Premium", "Fibernet", 30, 2⟩,
       ⟨"p3", "Alpha", "Copper", 20, 1⟩] 5 []).2.2.2 1 2
      ⟨"p3", "Alpha", "Copper", 20, 1, 20⟩ ⟨"p1", "Basic", "Fibernet", 10, 1, 10⟩
      (by decide) (by rw [hrows]; rfl) (by rw [hrows]; rfl)

/-! ## UsageHistory.jsx: summary cards -/

/-- Claim C11, as stated, fails: for a response of the shape the spec gives, with the summary
under the field `summary`, the page falls back to the all-zero default and the cards show 0.0,
not the totals of that summary. -/
theorem usage_summary_field_counterexample :
    summaryOf (some ⟨none, some [], none, some ⟨some 12, some 4, some 6, some 50⟩⟩) =
      defaultSummary ∧
    summaryCards (some ⟨none, some [], none, some ⟨some 12, some 4, some 6, some 50⟩⟩) =
      ⟨.fixed1 0, .fixed1 0, .fixed1 0⟩ ∧
    summaryCards (some ⟨none, some [], none, some ⟨some 12, some 4, some 6, some 50⟩⟩) ≠
      ⟨.fixed1 12, .fixed1 4, .fixed1 50⟩ ∧
    summaryCards (some ⟨some ⟨some [], none, some ⟨some 12, some 4, some 6, some 50⟩⟩, none,
        none, none⟩) ≠ ⟨.fixed1 12, .fixed1 4, .fixed1 50⟩ := by
  refine ⟨rfl, rfl, by decide, by decide⟩

/-- Claim C11, amended.  For every usage-history response that carries the summary under the
field `usageSummary`, directly or wrapped under `data` (the wrapped one first), the summary
cards show that summary's totalDataUsed, averageDailyUsage and averageSpeed; the all-zero
default summary is used exactly when the response carries no `usageSummary`; a field `summary`
is never read. -/
theorem usage_summary_field (data : Option UsageResponse) :
    (∀ (r : UsageResponse) (p : UsagePayload) (s : UsageSummary),
      data = some r → r.data = some p → p.usageSummary = some s →
        summaryOf data = s ∧
        summaryCards data =
          ⟨cardValue s.totalDataUsed, cardValue s.averageDailyUsage, cardValue s.averageSpeed⟩) ∧
    (∀ (r : UsageResponse) (s : UsageSummary),
      data = some r → (r.data.bind (·.usageSummary)) = none → r.usageSummary = some s →
        summaryOf data = s ∧
        summaryCards data =
          ⟨cardValue s.totalDataUsed, cardValue s.averageDailyUsage, cardValue s.averageSpeed⟩) ∧
    (((data.bind (·.data)).bind (·.usageSummary) = none ∧ data.bind (·.usageSummary) = none) →
      summaryOf data = defaultSummary ∧
      summaryCards data = ⟨.fixed1 0, .fixed1 0, .fixed1 0⟩) ∧
    (∀ (outer inner : Option UsageSummary),
      summaryOf (data.map fun r =>
          { r with summary := outer, data := r.data.map fun p => { p with summary := inner } }) =
        summaryOf data) := by
  refine ⟨?_, ?_, ?_, ?_⟩
  · intro r p s hd hr hp
    subst hd
    simp [summaryCards, summaryOf, hr, hp]
  · intro r s hd hr hs
    subst hd
    simp [summaryCards, summaryOf, hr, hs]
  · intro h
    simp [summaryCards, summaryOf, h.1, h.2, defaultSummary, cardValue]
  · intro outer inner
    cases data with
    | none => rfl
    | some r =>
      cases hrd : r.data with
      | none => simp [summaryOf, hrd]
      | some p => simp [summaryOf, hrd]

theorem usage_summary_field_witness :
    summaryCards (some ⟨some ⟨some [], some ⟨some 12, some 4, some 6, some 50⟩, none⟩, none,
        none, none⟩) = ⟨.fixed1 12, .fixed1 4, .fixed1 50⟩ ∧
    summaryCards (some ⟨none, some [], some ⟨some 12, none, some 6, some 50⟩, none⟩) =
      ⟨.fixed1 12, .zero, .fixed1 50⟩ ∧
    summaryCards none = ⟨.fixed1 0, .fixed1 0, .fixed1 0⟩ :=
  ⟨((usage_summary_field
      (some ⟨some ⟨some [], some ⟨some 12, some 4, some 6, some 50⟩, none⟩, none, none, none⟩)).1
      ⟨some ⟨some [], some ⟨some 12, some 4, some 6, some 50⟩, none⟩, none, none, none⟩
      ⟨some [], some ⟨some 12, some 4, some 6, some 50⟩, none⟩
      ⟨some 12, some 4, some 6, some 50⟩ rfl rfl rfl).2,
    ((usage_summary_field
      (some ⟨none, some [], some ⟨some 12, none, some 6, some 50⟩, none⟩)).2.1
      ⟨none, some [], some ⟨some 12, none, some 6, some 50⟩, none⟩
      ⟨some 12, none, some 6, some 50⟩ rfl rfl rfl).2,
    ((usage_summary_field none).2.2.1 ⟨rfl, rfl⟩).2⟩

/-! ## userRoutes.js: dispatch and handler chains -/

theorem matchPattern_cons_tail (a : Segment) (p : List Segment) (segment : String)
    (path : List String) (h : (matchPattern (a :: p) (segment :: path)).isSome = true) :
    (matchPattern p path).isSome = true := by
  cases a with
  | literal s =>
    simp only [matchPattern] at h
    by_cases hs : s = segment
    · simpa [hs] using h
    · simp [hs] at h
  | parameter n =>
    simp only [matchPattern] at h
    by_cases hne : segment = ""
    · simp [hne] at h
    · simpa [hne] using h

theorem matchPattern_literal_head (s : String) (p : List Segment) (segment : String)
    (path : List String) (h : (matchPattern (.literal s :: p) (segment :: path)).isSome = true) :
    s = segment := by
  simp only [matchPattern] at h
  by_cases hs : s = segment
  · exact hs
  · simp [hs] at h

theorem patternsClash_no_common_path :
    ∀ (p q : List Segment) (path : List String), patternsClash p q = true →
      ¬ ((matchPattern p path).isSome = true ∧ (matchPattern q path).isSome = true)
  | [], [], _, h => by simp [patternsClash] at h
  | [], _ :: _, path, _ => by
    cases path <;> simp [matchPattern]
  | _ :: _, [], path, _ => by
    cases path <;> simp [matchPattern]
  | a :: p, b :: q, [], _ => by
    cases a <;> simp [matchPattern]
  | a :: p, b :: q, segment :: path, h => by
    intro hboth
    simp only [patternsClash, Bool.or_eq_true] at h
    rcases h with h | h
    · cases a with
      | literal s =>
        cases b with
        | literal t =>
          have hs := matchPattern_literal_head s p segment path hboth.1
          have ht := matchPattern_literal_head t q segment path hboth.2
          simp [segmentsClash, hs, ht] at h
        | parameter n => simp [segmentsClash] at h
      | parameter n => cases b <;> simp [segmentsClash] at h
    · exact patternsClash_no_common_path p q path h
        ⟨matchPattern_cons_tail a p segment path hboth.1,
          matchPattern_cons_tail b q segment path hboth.2⟩

theorem routesExclusive_no_common_request (a b : Route) (h : routesExclusive a b = true)
    (method : Method) (path : List String) :
    ¬ ((routeMatch method path a).isSome = true ∧ (routeMatch method path b).isSome = true) := by
  intro hboth
  unfold routeMatch at hboth
  by_cases ha : a.method = method
  · by_cases hb : b.method = method
    · simp only [ha, hb, if_true, Option.isSome_map'] at hboth
      simp only [routesExclusive, Bool.or_eq_true, decide_eq_true_eq] at h
      rcases h with h | h
      · exact h (ha.trans hb.symm)
      · exact patternsClash_no_common_path _ _ path h hboth
    · simp [hb] at hboth
  · simp [ha] at hboth

theorem router_pairwise_exclusive :
    router.Pairwise (fun a b => routesExclusive a b = true ∧ routesExclusive b a = true) := by
  decide

theorem findSome?_perm_of_exclusive {α β : Type} (f : α → Option β) {l l' : List α}
    (hperm : l.Perm l')
    (hex : l.Pairwise (fun a b => ¬ ((f a).isSome = true ∧ (f b).isSome = true))) :
    l.findSome? f = l'.findSome? f := by
  induction hperm with
  | nil => rfl
  | cons a _ ih =>
    rw [List.pairwise_cons] at hex
    simp only [List.findSome?_cons]
    rw [ih hex.2]
  | swap a b l =>
    rw [List.pairwise_cons, List.pairwise_cons] at hex
    have hab := hex.1 a (by simp)
    simp only [List.findSome?_cons]
    cases hb : f b with
    | none => rfl
    | some vb =>
      cases ha : f a with
      | none => rfl
      | some va => exact absurd ⟨by simp [hb], by simp [ha]⟩ hab
  | trans h₁ _ ih₁ ih₂ =>
    rw [ih₁ hex]
    apply ih₂
    have hsymm : ∀ x y : α, ¬ ((f x).isSome = true ∧ (f y).isSome = true) →
        ¬ ((f y).isSome = true ∧ (f x).isSome = true) := fun _ _ h hc => h ⟨hc.2, hc.1⟩
    exact (h₁.pairwise_iff (fun {x y} h => hsymm x y h)).1 hex

theorem dispatch_perm (routes : List Route) (hperm : router.Perm routes) (method : Method)
    (path : List String) : dispatch routes method path = dispatch router method path := by
  unfold dispatch
  symm
  apply findSome?_perm_of_exclusive _ hperm
  refine List.Pairwise.imp ?_ router_pairwise_exclusive
  intro a b hab
  exact routesExclusive_no_common_request a b hab.1 method path

/-- Claim C12.  Read-route dispatch is unambiguous: `PATCH /notifications/read-all` goes to
`markAllNotificationsAsRead` and binds no parameter; `PATCH /notifications/<id>/read` with a
non-empty segment `id` goes to `markNotificationAsRead` with `notificationId = id`; no path
matches both patterns; and dispatch is the same for every registration order of the routes. -/
theorem read_route_dispatch (id : String) (path : List String) (method : Method)
    (routes : List Route) :
    dispatch router .patch ["notifications", "read-all"] =
      some (⟨.patch, [.literal "notifications", .literal "read-all"],
        [.authMiddleware, .adminOrUser, .markAllNotificationsAsRead]⟩, []) ∧
    (id ≠ "" →
      dispatch router .patch ["notifications", id, "read"] =
        some (⟨.patch, [.literal "notifications", .parameter "notificationId", .literal "read"],
          [.authMiddleware, .adminOrUser, .markNotificationAsRead]⟩,
          [("notificationId", id)])) ∧
    ¬ ((matchPattern [.literal "notifications", .parameter "notificationId", .literal "read"]
          path).isSome = true ∧
        (matchPattern [.literal "notifications", .literal "read-all"] path).isSome = true) ∧
    (router.Perm routes → dispatch routes method path = dispatch router method path) := by
  refine ⟨by decide, ?_, ?_, fun hperm => dispatch_perm routes hperm method path⟩
  · intro hid
    simp [dispatch, router, routeMatch, matchPattern, hid]
  · exact patternsClash_no_common_path _ _ path (by decide)

theorem read_route_dispatch_witness :
    dispatch router .patch ["notifications", "n42", "read"] =
      some (⟨.patch, [.literal "notifications", .parameter "notificationId", .literal "read"],
        [.authMiddleware, .adminOrUser, .markNotificationAsRead]⟩, [("notificationId", "n42")]) ∧
    dispatch
      [ ⟨.patch, [.literal "notifications", .literal "read-all"],
          [.authMiddleware, .adminOrUser, .markAllNotificationsAsRead]⟩,
        ⟨.patch, [.literal "notifications", .parameter "notificationId", .literal "read"],
          [.authMiddleware, .adminOrUser, .markNotificationAsRead]⟩,
        ⟨.get, [.literal "profile"], [.authMiddleware, .userOnly, .getUserProfile]⟩,
        ⟨.put, [.literal "profile"], [.authMiddleware, .userOnly, .updateUserProfile]⟩,
        ⟨.get, [.literal "subscription-history"],
          [.authMiddleware, .userOnly, .getUserSubscriptionHistory]⟩,
        ⟨.get, [.literal "usage-history"], [.authMiddleware, .userOnly, .getUserUsageHistory]⟩,
        ⟨.get, [.literal "notifications"],
          [.authMiddleware, .adminOrUser, .getUserNotifications]⟩,
        ⟨.delete, [.literal "account"], [.authMiddleware, .userOnly, .deleteAccount]⟩,
        ⟨.get, [.literal "stats"], [.authMiddleware, .userOnly, .getUserStats]⟩ ]
      .patch ["notifications", "read-all"] =
    dispatch router .patch ["notifications", "read-all"] :=
  ⟨(read_route_dispatch "n42" [] .get []).2.1 (by decide),
    (read_route_dispatch "" ["notifications", "read-all"] .patch _).2.2.2 (by decide)⟩

/-- Claim C15.  Every route requires authentication: for every route of the user router the
first handler of the chain is `authMiddleware`, the last is a controller and no handler before
the last is one; so every chain that holds a controller, and every chain a request is
dispatched to, starts with `authMiddleware`. -/
theorem routes_require_authentication (method : Method) (path : List String) :
    (∀ r ∈ router,
      r.handlers.head? = some .authMiddleware ∧
      (∃ c, r.handlers.getLast? = some c ∧ c.isController = true) ∧
      (∀ h ∈ r.handlers.dropLast, h.isController = false)) ∧
    (∀ r ∈ router, ∀ h ∈ r.handlers, h.isController = true →
      r.handlers.head? = some .authMiddleware) ∧
    (∀ r bs, dispatch router method path = some (r, bs) →
      r.handlers.head? = some .authMiddleware) := by
  have hall : ∀ r ∈ router,
      r.handlers.head? = some .authMiddleware ∧
      (∃ c, r.handlers.getLast? = some c ∧ c.isController = true) ∧
      (∀ h ∈ r.handlers.dropLast, h.isController = false) := by
    decide
  refine ⟨hall, fun r hr _ _ _ => (hall r hr).1, ?_⟩
  intro r bs hd
  unfold dispatch at hd
  obtain ⟨r', hr', hm⟩ := List.exists_of_findSome?_eq_some hd
  unfold routeMatch at hm
  by_cases hmeth : r'.method = method
  · simp only [hmeth, if_true, Option.map_eq_some'] at hm
    obtain ⟨_, _, heq⟩ := hm
    have : r' = r := (Prod.mk.inj heq).1
    rw [← this]
    exact (hall r' hr').1
  · simp [hmeth] at hm

theorem routes_require_authentication_witness :
    (⟨.delete, [.literal "account"], [.authMiddleware, .userOnly, .deleteAccount]⟩ :
      Route).handlers.head? = some .authMiddleware :=
  (routes_require_authentication .delete ["account"]).2.2 _ [] (by decide)

/-- Claim C16 is what line 18 of `userRoutes.js` says of the table ("All routes require
authentication and user role") and what six of its nine routes do; the three notification
routes do not.  The request `GET /notifications` is dispatched to the chain `authMiddleware`,
`adminOrUser`, `getUserNotifications`; no notification route has `userOnly` in its chain, so
not every chain is `authMiddleware`, `userOnly`, controller.  Every other route has the chain
`authMiddleware`, `userOnly` and then a controller; the notification routes have
`authMiddleware`, `adminOrUser` and then a controller. -/
theorem routes_role_check :
    dispatch router .get ["notifications"] =
      some (⟨.get, [.literal "notifications"],
        [.authMiddleware, .adminOrUser, .getUserNotifications]⟩, []) ∧
    (∀ r ∈ router, isNotificationRoute r = true → Handler.userOnly ∉ r.handlers) ∧
    ¬ (∀ r ∈ router, ∃ c, r.handlers = [.authMiddleware, .userOnly, c]) ∧
    (∀ r ∈ router, isNotificationRoute r = false →
      r.handlers.dropLast = [.authMiddleware, .userOnly] ∧
      ∃ c, r.handlers.getLast? = some c ∧ c.isController = true) ∧
    (∀ r ∈ router, isNotificationRoute r = true →
      r.handlers.dropLast = [.authMiddleware, .adminOrUser] ∧
      ∃ c, r.handlers.getLast? = some c ∧ c.isController = true) ∧
    (router.filter isNotificationRoute).length = 3 ∧
    (router.filter fun r => !isNotificationRoute r).length = 6 := by
  refine ⟨by decide, by decide, ?_, by decide, by decide, by decide, by decide⟩
  intro h
  obtain ⟨c, hc⟩ := h ⟨.get, [.literal "notifications"],
    [.authMiddleware, .adminOrUser, .getUserNotifications]⟩ (by decide)
  simp at hc

theorem routes_role_check_witness :
    Handler.userOnly ∉ (⟨.get, [.literal "notifications"],
      [.authMiddleware, .adminOrUser, .getUserNotifications]⟩ : Route).handlers ∧
    (⟨.get, [.literal "stats"], [.authMiddleware, .userOnly, .getUserStats]⟩ :
      Route).handlers.dropLast = [.authMiddleware, .userOnly] ∧
    (⟨.patch, [.literal "notifications", .literal "read-all"],
      [.authMiddleware, .adminOrUser, .markAllNotificationsAsRead]⟩ :
      Route).handlers.dropLast = [.authMiddleware, .adminOrUser] :=
  ⟨routes_role_check.2.1 _ (by decide) (by decide),
    (routes_role_check.2.2.2.1 _ (by decide) (by decide)).1,
    (routes_role_check.2.2.2.2.1 _ (by decide) (by decide)).1⟩

/-! ## SendNotifications.jsx: request shape, failure, reachable states -/

theorem message_ne_empty_of_trim (st : FormState) (h : jsTrim st.message ≠ "") :
    st.message ≠ "" := by
  intro hm
  rw [hm] at h
  exact h (by decide)

/-- Claim C13.  Send request shape: for a form state that passes validation, `handleSend`
issues exactly one request, whether the call succeeds or fails; in role mode it is
`sendNotificationToRole` with role, message, type of the state and the offer data, in users
mode it is `sendNotification` with the selected ids, message, type and the offer data. -/
theorem send_request_shape (st : FormState) (response : Except ApiError Unit)
    (hmsg : jsTrim st.message ≠ "") :
    (st.mode = "role" →
      (handleSend st response).requests =
        [.sendNotificationToRole st.role st.message st.type
          (offerData st.offers st.offerId)]) ∧
    (st.mode ≠ "role" → st.selectedUserIds ≠ [] →
      (handleSend st response).requests =
        [.sendNotification st.selectedUserIds st.message st.type
          (offerData st.offers st.offerId)]) ∧
    ((st.mode = "role" ∨ st.selectedUserIds ≠ []) →
      (handleSend st response).requests.length = 1) := by
  have hrole : st.mode = "role" →
      (handleSend st response).requests =
        [.sendNotificationToRole st.role st.message st.type
          (offerData st.offers st.offerId)] := by
    intro hmode
    unfold handleSend
    cases response <;> simp [hmsg, hmode, afterSend]
  have husers : st.mode ≠ "role" → st.selectedUserIds ≠ [] →
      (handleSend st response).requests =
        [.sendNotification st.selectedUserIds st.message st.type
          (offerData st.offers st.offerId)] := by
    intro hmode hsel
    unfold handleSend
    cases response <;> simp [hmsg, hmode, hsel, afterSend]
  refine ⟨hrole, husers, ?_⟩
  intro h
  by_cases hmode : st.mode = "role"
  · rw [hrole hmode]
    rfl
  · rcases h with h | h
    · exact absurd h hmode
    · rw [husers hmode h]
      rfl

theorem send_request_shape_witness :
    (handleSend { FormState.initial with message := "Offer live", role := "admin" }
      (.ok ())).requests = [.sendNotificationToRole "admin" "Offer live" "info" ⟨none⟩] ∧
    (handleSend { FormState.initial with
        message := "Offer live", mode := "users", selectedUserIds := ["u1", "u2"] }
      (.error ⟨none, none⟩)).requests =
        [.sendNotification ["u1", "u2"] "Offer live" "info" ⟨none⟩] :=
  ⟨(send_request_shape { FormState.initial with message := "Offer live", role := "admin" }
      (.ok ()) (by decide)).1 rfl,
    (send_request_shape { FormState.initial with
        message := "Offer live", mode := "users", selectedUserIds := ["u1", "u2"] }
      (.error ⟨none, none⟩) (by decide)).2.1 (by decide) (by decide)⟩

/-- Claim C17.  For a validated form state: if the send request fails, message,
selectedUserIds, offerId, mode, role and type are as before and loading is false;
selectedUserIds, message and offerId are reset to `[]`, `''` and `''` if and only if the
request succeeded; mode, role and type are unchanged and loading is false in both cases. -/
theorem send_failure_keeps_form (st : FormState) (response : Except ApiError Unit)
    (e : ApiError) (hmsg : jsTrim st.message ≠ "")
    (hsel : st.mode = "role" ∨ st.selectedUserIds ≠ []) :
    ((handleSend st (.error e)).state.message = st.message ∧
      (handleSend st (.error e)).state.selectedUserIds = st.selectedUserIds ∧
      (handleSend st (.error e)).state.offerId = st.offerId ∧
      (handleSend st (.error e)).state.mode = st.mode ∧
      (handleSend st (.error e)).state.role = st.role ∧
      (handleSend st (.error e)).state.type = st.type ∧
      (handleSend st (.error e)).state.loading = false) ∧
    (((handleSend st response).state.selectedUserIds = [] ∧
        (handleSend st response).state.message = "" ∧
        (handleSend st response).state.offerId = "") ↔ ∃ u, response = .ok u) ∧
    ((handleSend st response).state.mode = st.mode ∧
      (handleSend st response).state.role = st.role ∧
      (handleSend st response).state.type = st.type ∧
      (handleSend st response).state.loading = false) := by
  have hne := message_ne_empty_of_trim st hmsg
  by_cases hmode : st.mode = "role"
  · refine ⟨by simp [handleSend, hmsg, hmode, afterSend], ?_, ?_⟩
    · cases response with
      | ok u => simp [handleSend, hmsg, hmode, afterSend]
      | error e' => simp [handleSend, hmsg, hmode, afterSend, hne]
    · cases response <;> simp [handleSend, hmsg, hmode, afterSend]
  · have hs : st.selectedUserIds ≠ [] := by
      rcases hsel with h | h
      · exact absurd h hmode
      · exact h
    refine ⟨by simp [handleSend, hmsg, hmode, hs, afterSend], ?_, ?_⟩
    · cases response with
      | ok u => simp [handleSend, hmsg, hmode, hs, afterSend]
      | error e' => simp [handleSend, hmsg, hmode, hs, afterSend, hne]
    · cases response <;> simp [handleSend, hmsg, hmode, hs, afterSend]

theorem send_failure_keeps_form_witness :
    (handleSend { FormState.initial with message := "Offer live", offerId := "d2" }
      (.error ⟨some "Server down", none⟩)).state.message = "Offer live" ∧
    (handleSend { FormState.initial with message := "Offer live", offerId := "d2" }
      (.error ⟨some "Server down", none⟩)).state.offerId = "d2" ∧
    (handleSend { FormState.initial with message := "Offer live", offerId := "d2" }
      (.ok ())).state.loading = false :=
  ⟨(send_failure_keeps_form { FormState.initial with message := "Offer live", offerId := "d2" }
      (.ok ()) ⟨some "Server down", none⟩ (by decide) (Or.inl rfl)).1.1,
    (send_failure_keeps_form { FormState.initial with message := "Offer live", offerId := "d2" }
      (.ok ()) ⟨some "Server down", none⟩ (by decide) (Or.inl rfl)).1.2.2.1,
    (send_failure_keeps_form { FormState.initial with message := "Offer live", offerId := "d2" }
      (.ok ()) ⟨some "Server down", none⟩ (by decide) (Or.inl rfl)).2.2.2.2.2⟩

theorem handleSend_keeps_type_role (st : FormState) (response : Except ApiError Unit) :
    (handleSend st response).state.type = st.type ∧
    (handleSend st response).state.role = st.role := by
  unfold handleSend
  by_cases hmsg : jsTrim st.message = ""
  · simp [hmsg]
  · by_cases hmode : st.mode = "role"
    · cases response <;> simp [hmsg, hmode, afterSend]
    · by_cases hsel : st.selectedUserIds = []
      · simp [hmsg, hmode, hsel]
      · cases response <;> simp [hmsg, hmode, hsel, afterSend]

theorem apply_keeps_enums (st : FormState) (event : FormEvent)
    (ht : st.type ∈ ["info", "success", "warning", "error"])
    (hr : st.role ∈ ["user", "admin"]) :
    (event.apply st).type ∈ ["info", "success", "warning", "error"] ∧
    (event.apply st).role ∈ ["user", "admin"] := by
  cases event with
  | setMode option => exact ⟨ht, hr⟩
  | setRole option => exact ⟨ht, by cases option <;> simp [FormEvent.apply, RoleOption.value]⟩
  | setUserQuery text => exact ⟨ht, hr⟩
  | setMessage text => exact ⟨ht, hr⟩
  | setType option => exact ⟨by cases option <;> simp [FormEvent.apply, TypeOption.value], hr⟩
  | setOfferId value => exact ⟨ht, hr⟩
  | setUsers rows => exact ⟨ht, hr⟩
  | setOffers offers => exact ⟨ht, hr⟩
  | toggleUser id => exact ⟨ht, hr⟩
  | send response =>
    have h := handleSend_keeps_type_role st response
    simp only [FormEvent.apply]
    rw [h.1, h.2]
    exact ⟨ht, hr⟩

theorem foldl_apply_keeps_enums :
    ∀ (events : List FormEvent) (st : FormState),
      st.type ∈ ["info", "success", "warning", "error"] → st.role ∈ ["user", "admin"] →
      (events.foldl FormEvent.apply st).type ∈ ["info", "success", "warning", "error"] ∧
      (events.foldl FormEvent.apply st).role ∈ ["user", "admin"]
  | [], _, ht, hr => ⟨ht, hr⟩
  | event :: events, st, ht, hr => by
    have h := apply_keeps_enums st event ht hr
    exact foldl_apply_keeps_enums events (event.apply st) h.1 h.2

theorem requests_of_handleSend (st : FormState) (response : Except ApiError Unit) :
    ∀ req ∈ (handleSend st response).requests,
      req.type = st.type ∧
      ∀ role message type data, req = .sendNotificationToRole role message type data →
        role = st.role := by
  intro req hreq
  unfold handleSend at hreq
  by_cases hmsg : jsTrim st.message = ""
  · simp [hmsg] at hreq
  · by_cases hmode : st.mode = "role"
    · have hq : req = .sendNotificationToRole st.role st.message st.type
          (offerData st.offers st.offerId) := by
        cases response <;> simpa [hmsg, hmode, afterSend] using hreq
      subst hq
      refine ⟨rfl, ?_⟩
      intro role message type data heq
      cases heq
      rfl
    · by_cases hsel : st.selectedUserIds = []
      · simp [hmsg, hmode, hsel] at hreq
      · have hq : req = .sendNotification st.selectedUserIds st.message st.type
            (offerData st.offers st.offerId) := by
          cases response <;> simpa [hmsg, hmode, hsel, afterSend] using hreq
        subst hq
        refine ⟨rfl, ?_⟩
        intro role message type data heq
        cases heq

/-- Claim C14.  Enumerated type and role: the initial type is info and the initial role is
user; in every state the form reaches from its initial state through any sequence of events,
type is one of info, success, warning, error and role is one of user, admin; so every request
`handleSend` issues from such a state carries such a type and, if it is a
`sendNotificationToRole`, such a role. -/
theorem enumerated_type_and_role (events : List FormEvent) (response : Except ApiError Unit) :
    FormState.initial.type = "info" ∧
    FormState.initial.role = "user" ∧
    (runEvents events).type ∈ ["info", "success", "warning", "error"] ∧
    (runEvents events).role ∈ ["user", "admin"] ∧
    (∀ req ∈ (handleSend (runEvents events) response).requests,
      req.type ∈ ["info", "success", "warning", "error"] ∧
      ∀ role message type data, req = .sendNotificationToRole role message type data →
        role ∈ ["user", "admin"]) := by
  have h := foldl_apply_keeps_enums events FormState.initial (by decide) (by decide)
  refine ⟨rfl, rfl, h.1, h.2, ?_⟩
  intro req hreq
  have hq := requests_of_handleSend (runEvents events) response req hreq
  refine ⟨?_, ?_⟩
  · rw [hq.1]
    exact h.1
  · intro role message type data heq
    rw [hq.2 role message type data heq]
    exact h.2

theorem enumerated_type_and_role_witness :
    (runEvents [.setType .warning, .setRole .admin, .setMessage "Offer live",
      .send (.ok ())]).type ∈ ["info", "success", "warning", "error"] ∧
    (runEvents [.setType .warning, .setRole .admin, .setMessage "Offer live",
      .send (.ok ())]).role ∈ ["user", "admin"] ∧
    (runEvents [.setType .warning, .setRole .admin, .setMessage "Offer live",
      .send (.ok ())]).role = "admin" :=
  ⟨(enumerated_type_and_role [.setType .warning, .setRole .admin, .setMessage "Offer live",
      .send (.ok ())] (.ok ())).2.2.1,
    (enumerated_type_and_role [.setType .warning, .setRole .admin, .setMessage "Offer live",
      .send (.ok ())] (.ok ())).2.2.2.1,
    by decide⟩

theorem handleSend_selected (st : FormState) (response : Except ApiError Unit) :
    (handleSend st response).state.selectedUserIds = st.selectedUserIds ∨
    (handleSend st response).state.selectedUserIds = [] := by
  unfold handleSend
  by_cases hmsg : jsTrim st.message = ""
  · simp [hmsg]
  · by_cases hmode : st.mode = "role"
    · cases response <;> simp [hmsg, hmode, afterSend]
    · by_cases hsel : st.selectedUserIds = []
      · simp [hmsg, hmode, hsel]
      · cases response <;> simp [hmsg, hmode, hsel, afterSend]

theorem toggle_of_mem (id : String) (st : FormState) (hmem : id ∈ st.selectedUserIds) :
    (handleToggleUser id st).selectedUserIds =
      st.selectedUserIds.filter fun x => decide (x ≠ id) := by
  have hc : st.selectedUserIds.contains id = true := by simpa using hmem
  show (if st.selectedUserIds.contains id = true then _ else _) = _
  rw [if_pos hc]

theorem toggle_of_not_mem (id : String) (st : FormState) (hmem : id ∉ st.selectedUserIds) :
    (handleToggleUser id st).selectedUserIds = st.selectedUserIds ++ [id] := by
  have hc : ¬ st.selectedUserIds.contains id = true := by simpa using hmem
  show (if st.selectedUserIds.contains id = true then _ else _) = _
  rw [if_neg hc]

theorem mem_toggle (id x : String) (st : FormState) :
    x ∈ (handleToggleUser id st).selectedUserIds ↔
      (x ≠ id ∧ x ∈ st.selectedUserIds) ∨ (x = id ∧ id ∉ st.selectedUserIds) := by
  by_cases hmem : id ∈ st.selectedUserIds
  · rw [toggle_of_mem id st hmem]
    simp only [List.mem_filter, decide_eq_true_eq]
    constructor
    · intro h
      exact Or.inl ⟨h.2, h.1⟩
    · intro h
      rcases h with h | h
      · exact ⟨h.2, h.1⟩
      · exact absurd hmem h.2
  · rw [toggle_of_not_mem id st hmem]
    simp only [List.mem_append, List.mem_singleton]
    constructor
    · intro h
      rcases h with h | h
      · exact Or.inl ⟨fun hx => hmem (hx ▸ h), h⟩
      · exact Or.inr ⟨h, hmem⟩
    · intro h
      rcases h with h | h
      · exact Or.inl h.2
      · exact Or.inr h.1

theorem nodup_toggle (id : String) (st : FormState) (h : st.selectedUserIds.Nodup) :
    (handleToggleUser id st).selectedUserIds.Nodup := by
  by_cases hmem : id ∈ st.selectedUserIds
  · rw [toggle_of_mem id st hmem]
    exact h.filter _
  · rw [toggle_of_not_mem id st hmem, List.nodup_append]
    refine ⟨h, List.nodup_singleton id, ?_⟩
    intro a ha hb
    rw [List.mem_singleton] at hb
    exact hmem (hb ▸ ha)

theorem apply_keeps_nodup (st : FormState) (event : FormEvent)
    (h : st.selectedUserIds.Nodup) : (event.apply st).selectedUserIds.Nodup := by
  cases event with
  | setMode option => exact h
  | setRole option => exact h
  | setUserQuery text => exact h
  | setMessage text => exact h
  | setType option => exact h
  | setOfferId value => exact h
  | setUsers rows => exact h
  | setOffers offers => exact h
  | toggleUser id => exact nodup_toggle id st h
  | send response =>
    simp only [FormEvent.apply]
    rcases handleSend_selected st response with hs | hs
    · rw [hs]
      exact h
    · rw [hs]
      exact List.nodup_nil

theorem foldl_apply_keeps_nodup :
    ∀ (events : List FormEvent) (st : FormState), st.selectedUserIds.Nodup →
      (events.foldl FormEvent.apply st).selectedUserIds.Nodup
  | [], _, h => h
  | event :: events, st, h =>
    foldl_apply_keeps_nodup events (event.apply st) (apply_keeps_nodup st event h)

theorem toggle_twice_perm (id : String) (st : FormState) (h : st.selectedUserIds.Nodup) :
    (handleToggleUser id (handleToggleUser id st)).selectedUserIds.Perm st.selectedUserIds := by
  by_cases hmem : id ∈ st.selectedUserIds
  · have hnot : id ∉ (handleToggleUser id st).selectedUserIds := by
      rw [toggle_of_mem id st hmem]
      simp
    rw [toggle_of_not_mem id _ hnot, toggle_of_mem id st hmem]
    have herase : st.selectedUserIds.erase id =
        st.selectedUserIds.filter fun x => decide (x ≠ id) := by
      rw [h.erase_eq_filter]
      congr 1
      funext x
      by_cases hx : x = id <;> simp [hx]
    rw [← herase]
    exact (List.perm_append_comm).trans (List.perm_cons_erase hmem).symm
  · have hin : id ∈ (handleToggleUser id st).selectedUserIds := by
      rw [toggle_of_not_mem id st hmem]
      simp
    rw [toggle_of_mem id _ hin, toggle_of_not_mem id st hmem, List.filter_append]
    have hself : st.selectedUserIds.filter (fun x => decide (x ≠ id)) = st.selectedUserIds := by
      rw [List.filter_eq_self]
      intro a ha
      simp only [decide_eq_true_eq]
      intro hab
      exact hmem (hab ▸ ha)
    rw [hself]
    simp

/-- Claim C19.  The recipient selection is a set: after any sequence of events from the
initial state, so after any sequence of toggles and sends, selectedUserIds holds no id twice;
`handleToggleUser(id)` makes `id` selected exactly when it was not selected before and keeps
the membership of every other id; toggling the same id twice restores the set of selected ids,
as a permutation of the list when it had no duplicates, though not always in the same order. -/
theorem recipient_selection_is_set (events : List FormEvent) (st : FormState) (id x : String) :
    (runEvents events).selectedUserIds.Nodup ∧
    (id ∈ (handleToggleUser id st).selectedUserIds ↔ id ∉ st.selectedUserIds) ∧
    (x ≠ id → (x ∈ (handleToggleUser id st).selectedUserIds ↔ x ∈ st.selectedUserIds)) ∧
    (x ∈ (handleToggleUser id (handleToggleUser id st)).selectedUserIds ↔
      x ∈ st.selectedUserIds) ∧
    (st.selectedUserIds.Nodup →
      (handleToggleUser id (handleToggleUser id st)).selectedUserIds.Perm st.selectedUserIds) ∧
    (handleToggleUser "u1" (handleToggleUser "u1"
      { FormState.initial with selectedUserIds := ["u1", "u2"] })).selectedUserIds =
        ["u2", "u1"] := by
  have hid : id ∈ (handleToggleUser id st).selectedUserIds ↔ id ∉ st.selectedUserIds := by
    rw [mem_toggle]
    constructor
    · intro h
      rcases h with h | h
      · exact absurd rfl h.1
      · exact h.2
    · intro h
      exact Or.inr ⟨rfl, h⟩
  have hother : ∀ (s : FormState), x ≠ id →
      (x ∈ (handleToggleUser id s).selectedUserIds ↔ x ∈ s.selectedUserIds) := by
    intro s hx
    rw [mem_toggle]
    constructor
    · intro h
      rcases h with h | h
      · exact h.2
      · exact absurd h.1 hx
    · intro h
      exact Or.inl ⟨hx, h⟩
  refine ⟨foldl_apply_keeps_nodup events FormState.initial List.nodup_nil, hid, hother st, ?_,
    toggle_twice_perm id st, by decide⟩
  by_cases hx : x = id
  · subst hx
    rw [mem_toggle]
    constructor
    · intro h
      rcases h with h | h
      · exact absurd rfl h.1
      · by_contra hcon
        exact h.2 ((mem_toggle x x st).2 (Or.inr ⟨rfl, hcon⟩))
    · intro h
      refine Or.inr ⟨rfl, ?_⟩
      rw [mem_toggle]
      intro hcon
      rcases hcon with hcon | hcon
      · exact hcon.1 rfl
      · exact hcon.2 h
  · rw [hother _ hx, hother st hx]

theorem recipient_selection_is_set_witness :
    (runEvents [.toggleUser "u1", .toggleUser "u2", .toggleUser "u1", .toggleUser "u1",
      .send (.ok ()), .toggleUser "u2"]).selectedUserIds.Nodup ∧
    (handleToggleUser "u1" (handleToggleUser "u1"
      { FormState.initial with selectedUserIds := ["u1", "u2"] })).selectedUserIds.Perm
        ["u1", "u2"] :=
  ⟨(recipient_selection_is_set [.toggleUser "u1", .toggleUser "u2", .toggleUser "u1",
      .toggleUser "u1", .send (.ok ()), .toggleUser "u2"] FormState.initial "u1" "u2").1,
    (recipient_selection_is_set []
      { FormState.initial with selectedUserIds := ["u1", "u2"] } "u1" "u2").2.2.2.2.1
      (by decide)⟩

/-! ## JavaScript numbers: rounding -/

theorem halfEven_sub_le (y : ℚ) : |(halfEven y : ℚ) - y| ≤ 1 / 2 := by
  have h1 : ((⌊y⌋ : ℤ) : ℚ) ≤ y := Int.floor_le y
  have h2 : y < ((⌊y⌋ : ℤ) : ℚ) + 1 := Int.lt_floor_add_one y
  unfold halfEven
  rw [abs_le]
  split_ifs with ha hb hc
  · constructor <;> linarith
  · push_cast
    constructor <;> linarith
  · constructor <;> linarith
  · push_cast
    constructor <;> linarith

theorem halfEven_eq (y : ℚ) (m : ℤ)
    (h : |y - m| < 1 / 2 ∨ (|y - m| = 1 / 2 ∧ m % 2 = 0)) : halfEven y = m := by
  have h1 : ((⌊y⌋ : ℤ) : ℚ) ≤ y := Int.floor_le y
  have h2 : y < ((⌊y⌋ : ℤ) : ℚ) + 1 := Int.lt_floor_add_one y
  have key : ∀ a b : ℤ, (a : ℚ) < b + 1 → (b : ℚ) < a + 1 → a = b := by
    intro a b hab hba
    have h3 : a < b + 1 := by exact_mod_cast hab
    have h4 : b < a + 1 := by exact_mod_cast hba
    omega
  have keylt : ∀ a b : ℤ, (a : ℚ) < b → a < b := by
    intro a b hab
    exact_mod_cast hab
  unfold halfEven
  rcases h with h | ⟨h, hm⟩
  · rw [abs_lt] at h
    split_ifs with ha hb hc
    · exact key _ _ (by linarith) (by linarith)
    · exact key _ _ (by push_cast; linarith) (by push_cast; linarith)
    · exfalso
      have : y - ⌊y⌋ = 1 / 2 := le_antisymm (not_lt.1 hb) (not_lt.1 ha)
      have h3 := keylt (⌊y⌋) (m + 1) (by push_cast; linarith)
      have h4 := keylt (m - 1) (⌊y⌋ + 1) (by push_cast; linarith)
      have h5 : m ≠ ⌊y⌋ := by
        intro h5
        rw [h5] at h
        linarith [h.2]
      have h6 : m ≠ ⌊y⌋ + 1 := by
        intro h6
        rw [h6] at h
        push_cast at h
        linarith [h.1]
      omega
    · exfalso
      have : y - ⌊y⌋ = 1 / 2 := le_antisymm (not_lt.1 hb) (not_lt.1 ha)
      have h3 := keylt (⌊y⌋) (m + 1) (by push_cast; linarith)
      have h4 := keylt (m - 1) (⌊y⌋ + 1) (by push_cast; linarith)
      have h5 : m ≠ ⌊y⌋ := by
        intro h5
        rw [h5] at h
        linarith [h.2]
      have h6 : m ≠ ⌊y⌋ + 1 := by
        intro h6
        rw [h6] at h
        push_cast at h
        linarith [h.1]
      omega
  · have hcases : y - m = 1 / 2 ∨ y - m = -(1 / 2) := by
      rcases abs_cases (y - m) with ⟨h3, _⟩ | ⟨h3, _⟩
      · left
        linarith
      · right
        linarith
    split_ifs with ha hb hc
    · exfalso
      rcases hcases with h3 | h3
      · have h4 := keylt m (⌊y⌋) (by linarith)
        have h5 := keylt (⌊y⌋ - 1) m (by push_cast; linarith)
        omega
      · have h4 := keylt (⌊y⌋) m (by linarith)
        have h5 := keylt m (⌊y⌋ + 1) (by push_cast; linarith)
        omega
    · exfalso
      rcases hcases with h3 | h3
      · have h4 := keylt m (⌊y⌋ + 1) (by push_cast; linarith)
        have h5 := keylt (⌊y⌋) (m + 1) (by push_cast; linarith)
        have h6 : m = ⌊y⌋ := by omega
        rw [h6] at h3
        linarith
      · have h4 := keylt (⌊y⌋) m (by linarith)
        have h5 := keylt m (⌊y⌋ + 2) (by push_cast; linarith)
        have h6 : m = ⌊y⌋ + 1 := by omega
        rw [h6] at h3
        push_cast at h3
        linarith
    · have hfrac : y - ⌊y⌋ = 1 / 2 := le_antisymm (not_lt.1 hb) (not_lt.1 ha)
      rcases hcases with h3 | h3
      · exact key _ _ (by linarith) (by linarith)
      · exfalso
        have h4 := key m (⌊y⌋ + 1) (by push_cast; linarith) (by push_cast; linarith)
        omega
    · have hfrac : y - ⌊y⌋ = 1 / 2 := le_antisymm (not_lt.1 hb) (not_lt.1 ha)
      rcases hcases with h3 | h3
      · exfalso
        have h4 := key m (⌊y⌋) (by linarith) (by linarith)
        omega
      · exact (key m (⌊y⌋ + 1) (by push_cast; linarith) (by push_cast; linarith)).symm

theorem halfEven_intCast (z : ℤ) : halfEven (z : ℚ) = z :=
  halfEven_eq _ z (Or.inl (by simp))

theorem halfEven_nonneg (y : ℚ) (hy : 0 ≤ y) : 0 ≤ halfEven y := by
  have h0 : 0 ≤ ⌊y⌋ := Int.floor_nonneg.2 hy
  unfold halfEven
  split_ifs <;> omega

theorem log_two_eq (x : ℚ) (k : ℤ) (hx : 0 < x) (h1 : (2 : ℚ) ^ k ≤ x)
    (h2 : x < (2 : ℚ) ^ (k + 1)) : Int.log 2 x = k := by
  have hb : 1 < 2 := by norm_num
  have h3 : k ≤ Int.log 2 x := (Int.zpow_le_iff_le_log hb hx).1 (by simpa using h1)
  have h4 : Int.log 2 x < k + 1 := (Int.lt_zpow_iff_log_lt hb hx).1 (by simpa using h2)
  omega

theorem log_two_le (x : ℚ) (k : ℤ) (hx : 0 < x) (h2 : x < (2 : ℚ) ^ (k + 1)) :
    Int.log 2 x ≤ k := by
  have hb : 1 < 2 := by norm_num
  have h4 : Int.log 2 x < k + 1 := (Int.lt_zpow_iff_log_lt hb hx).1 (by simpa using h2)
  omega

theorem le_log_two (x : ℚ) (k : ℤ) (hx : 0 < x) (h1 : (2 : ℚ) ^ k ≤ x) :
    k ≤ Int.log 2 x := by
  have hb : 1 < 2 := by norm_num
  exact (Int.zpow_le_iff_le_log hb hx).1 (by simpa using h1)

theorem roundDouble_eq_of (x : ℚ) (k m : ℤ) (hx : x ≠ 0) (h1 : (2 : ℚ) ^ k ≤ |x|)
    (h2 : |x| < (2 : ℚ) ^ (k + 1)) (hk : -1022 ≤ k)
    (hm : |x / 2 ^ (k - 52) - m| < 1 / 2 ∨ (|x / 2 ^ (k - 52) - m| = 1 / 2 ∧ m % 2 = 0))
    (hov : |(m : ℚ) * 2 ^ (k - 52)| < 2 ^ (1024 : ℕ)) :
    roundDouble x = .finite (m * 2 ^ (k - 52)) := by
  have he : doubleExponent x = k - 52 := by
    unfold doubleExponent
    rw [log_two_eq |x| k (abs_pos.2 hx) h1 h2]
    exact max_eq_left (by omega)
  rw [abs_lt] at hov
  unfold roundDouble
  rw [if_neg hx, he, halfEven_eq _ m hm, if_neg (not_le.2 hov.2),
    if_neg (by linarith [hov.1])]

theorem roundDouble_intCast (z : ℤ) (hz : |z| < 2 ^ 53) : roundDouble (z : ℚ) = .finite z := by
  by_cases h0 : z = 0
  · simp [roundDouble, h0]
  have hq0 : (z : ℚ) ≠ 0 := by exact_mod_cast h0
  have hpos : (0 : ℚ) < |(z : ℚ)| := abs_pos.2 hq0
  have hone : (1 : ℚ) ≤ |(z : ℚ)| := by
    have : (1 : ℤ) ≤ |z| := Int.one_le_abs h0
    exact_mod_cast this
  have hlt : |(z : ℚ)| < (2 : ℚ) ^ ((52 : ℤ) + 1) := by
    have : ((|z| : ℤ) : ℚ) < ((2 ^ 53 : ℤ) : ℚ) := by exact_mod_cast hz
    push_cast at this
    norm_num
    linarith
  have hL0 : 0 ≤ Int.log 2 |(z : ℚ)| := le_log_two _ 0 hpos (by simpa using hone)
  have hL1 : Int.log 2 |(z : ℚ)| ≤ 52 := log_two_le _ 52 hpos hlt
  obtain ⟨n, hn⟩ : ∃ n : ℕ, doubleExponent (z : ℚ) = -(n : ℤ) := by
    refine ⟨(52 - Int.log 2 |(z : ℚ)|).toNat, ?_⟩
    unfold doubleExponent
    rw [max_eq_left (by omega)]
    omega
  have hy : (z : ℚ) / 2 ^ (-(n : ℤ)) = ((z * 2 ^ n : ℤ) : ℚ) := by
    rw [zpow_neg, zpow_natCast]
    push_cast
    field_simp
  have hval : (((z * 2 ^ n : ℤ) : ℤ) : ℚ) * 2 ^ (-(n : ℤ)) = z := by
    rw [zpow_neg, zpow_natCast]
    push_cast
    field_simp
  have hbound : |(z : ℚ)| < 2 ^ (1024 : ℕ) := by
    have h53 : (2 : ℚ) ^ ((52 : ℤ) + 1) ≤ 2 ^ (1024 : ℕ) := by norm_num
    linarith
  rw [abs_lt] at hbound
  unfold roundDouble
  rw [if_neg hq0, hn, hy, halfEven_intCast, hval, if_neg (not_le.2 hbound.2),
    if_neg (by linarith [hbound.1])]

theorem roundDouble_natCast (n : ℕ) (hn : n < 2 ^ 53) : roundDouble (n : ℚ) = .finite n := by
  have h := roundDouble_intCast (n : ℤ) (by
    rw [abs_of_nonneg (Int.natCast_nonneg n)]
    exact_mod_cast hn)
  simpa using h

theorem roundDouble_near (x : ℚ) (k : ℤ) (hx0 : 0 ≤ x) (hxk : x < (2 : ℚ) ^ (k + 1))
    (hk1 : -1022 ≤ k) (hk2 : k ≤ 1022) :
    ∃ r : ℚ, roundDouble x = .finite r ∧ 0 ≤ r ∧ |r - x| ≤ (2 : ℚ) ^ (k - 53) := by
  by_cases h0 : x = 0
  · refine ⟨0, by simp [roundDouble, h0], le_refl 0, ?_⟩
    rw [h0, sub_zero, abs_zero]
    positivity
  have hpos : 0 < x := lt_of_le_of_ne hx0 (Ne.symm h0)
  have hL : Int.log 2 |x| ≤ k := by
    rw [abs_of_pos hpos]
    exact log_two_le x k hpos hxk
  have he : doubleExponent x ≤ k - 52 := by
    unfold doubleExponent
    exact max_le (by omega) (by omega)
  have h2pos : (0 : ℚ) < 2 ^ doubleExponent x := by positivity
  have hy0 : 0 ≤ x / 2 ^ doubleExponent x := div_nonneg hx0 h2pos.le
  have hm0 : (0 : ℚ) ≤ halfEven (x / 2 ^ doubleExponent x) := by
    exact_mod_cast halfEven_nonneg _ hy0
  have herr := halfEven_sub_le (x / 2 ^ doubleExponent x)
  have hsplit : (halfEven (x / 2 ^ doubleExponent x) : ℚ) * 2 ^ doubleExponent x - x =
      ((halfEven (x / 2 ^ doubleExponent x) : ℚ) - x / 2 ^ doubleExponent x) *
        2 ^ doubleExponent x := by
    field_simp
  have hmono : (2 : ℚ) ^ doubleExponent x ≤ 2 ^ (k - 52) :=
    zpow_le_zpow_right₀ (by norm_num) he
  have hhalf : (1 / 2 : ℚ) * 2 ^ (k - 52) = 2 ^ (k - 53) := by
    rw [show k - 52 = (k - 53) + 1 by ring, zpow_add_one₀ (by norm_num)]
    ring
  have hdist : |(halfEven (x / 2 ^ doubleExponent x) : ℚ) * 2 ^ doubleExponent x - x| ≤
      (2 : ℚ) ^ (k - 53) := by
    rw [hsplit, abs_mul, abs_of_pos h2pos, ← hhalf]
    exact mul_le_mul herr hmono h2pos.le (by norm_num)
  have hsmall : (2 : ℚ) ^ (k - 53) ≤ 2 ^ (k + 1) :=
    zpow_le_zpow_right₀ (by norm_num) (by omega)
  have htop : (2 : ℚ) ^ (k + 1) + 2 ^ (k + 1) ≤ 2 ^ (1024 : ℕ) := by
    have h3 : (2 : ℚ) ^ (k + 1) ≤ 2 ^ (1023 : ℤ) :=
      zpow_le_zpow_right₀ (by norm_num) (by omega)
    have h4 : (2 : ℚ) ^ (1023 : ℤ) + 2 ^ (1023 : ℤ) = 2 ^ (1024 : ℕ) := by norm_num
    linarith
  have hlt : (halfEven (x / 2 ^ doubleExponent x) : ℚ) * 2 ^ doubleExponent x <
      2 ^ (1024 : ℕ) := by
    have := (abs_le.1 hdist).2
    linarith
  have hr0 : (0 : ℚ) ≤ halfEven (x / 2 ^ doubleExponent x) * 2 ^ doubleExponent x :=
    mul_nonneg hm0 h2pos.le
  refine ⟨halfEven (x / 2 ^ doubleExponent x) * 2 ^ doubleExponent x, ?_, hr0, hdist⟩
  unfold roundDouble
  rw [if_neg h0, if_neg (not_le.2 hlt), if_neg]
  have h1024 : (0 : ℚ) < 2 ^ (1024 : ℕ) := by positivity
  linarith

theorem roundDouble_eq_of_pos (x : ℚ) (k m : ℤ) (h1 : (2 : ℚ) ^ k ≤ x)
    (h2 : x < (2 : ℚ) ^ (k + 1)) (hk : -1022 ≤ k)
    (hm : |x / 2 ^ (k - 52) - m| < 1 / 2 ∨ (|x / 2 ^ (k - 52) - m| = 1 / 2 ∧ m % 2 = 0))
    (hm0 : 0 ≤ m) (hov : (m : ℚ) * 2 ^ (k - 52) < 2 ^ (1024 : ℕ)) :
    roundDouble x = .finite (m * 2 ^ (k - 52)) := by
  have hpos : 0 < x := lt_of_lt_of_le (by positivity) h1
  have hm0q : (0 : ℚ) ≤ (m : ℚ) := by exact_mod_cast hm0
  have hnn : (0 : ℚ) ≤ (m : ℚ) * 2 ^ (k - 52) := mul_nonneg hm0q (by positivity)
  exact roundDouble_eq_of x k m hpos.ne' (by rw [abs_of_pos hpos]; exact h1)
    (by rw [abs_of_pos hpos]; exact h2) hk hm (by rw [abs_of_nonneg hnn]; exact hov)

theorem halfEven_ge_floor (y : ℚ) : ⌊y⌋ ≤ halfEven y := by
  unfold halfEven
  split_ifs <;> omega

theorem roundDouble_ge (x r : ℚ) (h1 : (2 : ℚ) ^ (-1022 : ℤ) ≤ x)
    (hr : roundDouble x = .finite r) : (2 : ℚ) ^ (-1022 : ℤ) ≤ r := by
  have hpos : 0 < x := lt_of_lt_of_le (by positivity) h1
  have hL1 : -1022 ≤ Int.log 2 x := le_log_two x (-1022) hpos h1
  have hlow : (2 : ℚ) ^ Int.log 2 x ≤ x := by
    have := Int.zpow_log_le_self (b := 2) (by norm_num) hpos
    simpa using this
  have he : doubleExponent x = Int.log 2 x - 52 := by
    unfold doubleExponent
    rw [abs_of_pos hpos]
    exact max_eq_left (by omega)
  have h2pos : (0 : ℚ) < 2 ^ (Int.log 2 x - 52) := by positivity
  have hy : (2 : ℚ) ^ (52 : ℕ) ≤ x / 2 ^ (Int.log 2 x - 52) := by
    rw [le_div_iff₀ h2pos, ← zpow_natCast, ← zpow_add₀ (by norm_num)]
    have : ((52 : ℕ) : ℤ) + (Int.log 2 x - 52) = Int.log 2 x := by
      push_cast
      ring
    rw [this]
    exact hlow
  have hfloor : (2 : ℤ) ^ (52 : ℕ) ≤ ⌊x / 2 ^ (Int.log 2 x - 52)⌋ := by
    rw [Int.le_floor]
    push_cast
    exact hy
  have hm : (2 : ℤ) ^ (52 : ℕ) ≤ halfEven (x / 2 ^ (Int.log 2 x - 52)) :=
    le_trans hfloor (halfEven_ge_floor _)
  have hmq : (2 : ℚ) ^ (52 : ℕ) ≤ (halfEven (x / 2 ^ (Int.log 2 x - 52)) : ℚ) := by
    exact_mod_cast hm
  have hval : (2 : ℚ) ^ (-1022 : ℤ) ≤
      (halfEven (x / 2 ^ (Int.log 2 x - 52)) : ℚ) * 2 ^ (Int.log 2 x - 52) := by
    have h3 : (2 : ℚ) ^ (Int.log 2 x) = 2 ^ (52 : ℕ) * 2 ^ (Int.log 2 x - 52) := by
      rw [← zpow_natCast, ← zpow_add₀ (by norm_num)]
      congr 1
      push_cast
      ring
    have h4 : (2 : ℚ) ^ (-1022 : ℤ) ≤ 2 ^ (Int.log 2 x) :=
      zpow_le_zpow_right₀ (by norm_num) hL1
    have h5 : (2 : ℚ) ^ (52 : ℕ) * 2 ^ (Int.log 2 x - 52) ≤
        (halfEven (x / 2 ^ (Int.log 2 x - 52)) : ℚ) * 2 ^ (Int.log 2 x - 52) :=
      mul_le_mul_of_nonneg_right hmq h2pos.le
    exact le_trans h4 (le_trans (le_of_eq h3) h5)
  unfold roundDouble at hr
  rw [if_neg hpos.ne', he] at hr
  split_ifs at hr
  rw [← JsNumber.finite.inj hr]
  exact hval

theorem roundDouble_rel (x : ℚ) (h1 : (2 : ℚ) ^ (-1022 : ℤ) ≤ x)
    (h2 : x < (2 : ℚ) ^ (1023 : ℤ)) :
    ∃ r : ℚ, roundDouble x = .finite r ∧ (1 - 1 / 2 ^ (53 : ℕ)) * x ≤ r ∧
      r ≤ (1 + 1 / 2 ^ (53 : ℕ)) * x ∧ (2 : ℚ) ^ (-1022 : ℤ) ≤ r := by
  have hpos : 0 < x := lt_of_lt_of_le (by positivity) h1
  have hL1 : -1022 ≤ Int.log 2 x := le_log_two x (-1022) hpos h1
  have hL2 : Int.log 2 x ≤ 1022 := log_two_le x 1022 hpos (by simpa using h2)
  have hlow : (2 : ℚ) ^ Int.log 2 x ≤ x := by
    have := Int.zpow_log_le_self (b := 2) (by norm_num) hpos
    simpa using this
  have hup : x < (2 : ℚ) ^ (Int.log 2 x + 1) := by
    have := Int.lt_zpow_succ_log_self (b := 2) (by norm_num) x
    simpa using this
  obtain ⟨r, hr, _, herr⟩ := roundDouble_near x (Int.log 2 x) hpos.le hup hL1 hL2
  have hsplit : (2 : ℚ) ^ (Int.log 2 x - 53) = 2 ^ (Int.log 2 x) * (1 / 2 ^ (53 : ℕ)) := by
    rw [sub_eq_add_neg, zpow_add₀ (by norm_num), zpow_neg, ← zpow_natCast]
    simp
  have hbound : (2 : ℚ) ^ (Int.log 2 x - 53) ≤ x * (1 / 2 ^ (53 : ℕ)) := by
    rw [hsplit]
    exact mul_le_mul_of_nonneg_right hlow (by positivity)
  have herr' := abs_le.1 herr
  exact ⟨r, hr, by linarith [herr'.1], by linarith [herr'.2], roundDouble_ge x r h1 hr⟩

theorem orZero_finite (a : ℚ) : (JsNumber.finite a).orZero = .finite a := by
  by_cases ha : a = 0
  · simp [JsNumber.orZero, JsNumber.truthy, ha]
  · simp [JsNumber.orZero, JsNumber.truthy, ha]

theorem orZero_orZero (x : JsNumber) : x.orZero.orZero = x.orZero := by
  cases x with
  | finite a => rw [orZero_finite, orZero_finite]
  | posInfinity => rfl
  | negInfinity => rfl
  | nan => rfl

theorem roundDouble_orZero (x : ℚ) : (roundDouble x).orZero = roundDouble x := by
  unfold roundDouble
  split_ifs
  · exact orZero_finite 0
  · rfl
  · rfl
  · exact orZero_finite _

theorem totalOrZero_orZero (o : Option JsNumber) : (totalOrZero o).orZero = totalOrZero o := by
  cases o with
  | none => exact orZero_finite 0
  | some x => exact orZero_orZero x

theorem foldl_add_orZero :
    ∀ (values : List JsNumber) (a : JsNumber), values ≠ [] →
      values.foldl (fun total value => total.orZero.add value) a.orZero =
        values.foldl (fun total value => total.orZero.add value) a
  | [], _, h => absurd rfl h
  | d :: rest, a, _ => by
    rw [List.foldl_cons, List.foldl_cons, orZero_orZero]

/-! ## UsageHistory.jsx: monthly roll-up -/

theorem digitChar_ne_N (d : Nat) (h : d < 10) : Nat.digitChar d ≠ 'N' := by
  interval_cases d <;> decide

theorem N_not_mem_decList (n : Nat) : 'N' ∉ decList n := by
  unfold decList
  split
  · decide
  · intro hmem
    simp only [List.mem_map, List.mem_reverse] at hmem
    obtain ⟨d, hd, hc⟩ := hmem
    exact digitChar_ne_N d (Nat.digits_lt_base (by decide) hd) hc

theorem nan_key_ne_monthKey (y m : Nat) : "NaN-NaN" ≠ monthKey y m := by
  intro h
  have hd : ("NaN-NaN" : String).data = (monthKey y m).data := by rw [h]
  rw [monthKey_data] at hd
  have hN := N_not_mem_decList y
  cases hy : decList y with
  | nil => exact decList_ne_nil y hy
  | cons c t =>
    rw [hy] at hd hN
    have hc : 'N' = c := (List.cons.inj hd).1
    exact hN (by rw [← hc]; simp)

theorem rowKey_eq_monthKey_iff (row : UsageRow) (y m : Nat) :
    rowKey row = monthKey y m ↔ rowInMonth (y, m) row = true := by
  unfold rowKey rowInMonth
  cases row.date with
  | none =>
    simp only [Bool.false_eq_true, iff_false]
    exact nan_key_ne_monthKey y m
  | some d =>
    simp only [decide_eq_true_eq]
    constructor
    · intro h
      have := monthKey_inj _ _ _ _ h
      exact Prod.ext this.1 this.2
    · intro h
      have h1 : d.year = y := (Prod.mk.inj h).1
      have h2 : d.month0 + 1 = m := (Prod.mk.inj h).2
      rw [h1, h2]

theorem dataUsedSum_cons (row : UsageRow) (rows : List UsageRow) :
    dataUsedSum (row :: rows) = orZero row.dataUsed + dataUsedSum rows := by
  simp [dataUsedSum]

theorem totals_foldl_get (k : String) :
    ∀ (rows : List UsageRow) (m : JsMap JsNumber),
      (rows.foldl
        (fun m row =>
          m.set (rowKey row) ((totalOrZero (m.get (rowKey row))).add (dataUsedNumber row)))
        m).get k =
        if rows.filter (fun r => decide (rowKey r = k)) = [] then m.get k
        else some (((rows.filter fun r => decide (rowKey r = k)).map dataUsedNumber).foldl
          (fun total value => total.orZero.add value) (totalOrZero (m.get k)))
  | [], m => by simp
  | row :: rest, m => by
    rw [List.foldl_cons, totals_foldl_get k rest]
    by_cases hk : rowKey row = k
    · have hfilter : (row :: rest).filter (fun r => decide (rowKey r = k)) =
          row :: rest.filter (fun r => decide (rowKey r = k)) := by
        simp [List.filter_cons, hk]
      rw [hfilter, get_set, if_pos hk, hk]
      simp only [List.cons_ne_nil, if_false, List.map_cons, List.foldl_cons]
      rw [totalOrZero_orZero]
      by_cases hrest : rest.filter (fun r => decide (rowKey r = k)) = []
      · simp only [hrest, if_true, List.map_nil, List.foldl_nil]
      · simp only [hrest, if_false]
        have hne : (rest.filter fun r => decide (rowKey r = k)).map dataUsedNumber ≠ [] := by
          simpa using hrest
        exact congrArg some (foldl_add_orZero _ _ hne)
    · have hfilter : (row :: rest).filter (fun r => decide (rowKey r = k)) =
          rest.filter (fun r => decide (rowKey r = k)) := by
        simp [List.filter_cons, hk]
      rw [hfilter, get_set, if_neg hk]

theorem totalsByKey_get (rows : List UsageRow) (k : String) :
    totalOrZero ((totalsByKey rows).get k) =
      dataUsedDoubleSum (rows.filter fun r => decide (rowKey r = k)) := by
  unfold totalsByKey dataUsedDoubleSum addInOrder
  rw [totals_foldl_get]
  by_cases hrest : rows.filter (fun r => decide (rowKey r = k)) = []
  · simp only [hrest, if_true, List.map_nil, List.foldl_nil]
    exact (orZero_finite 0).symm
  · simp only [hrest, if_false]
    rfl

theorem filter_rowKey_eq (rows : List UsageRow) (y m : Nat) :
    (rows.filter fun r => decide (rowKey r = monthKey y m)) = rows.filter (rowInMonth (y, m)) := by
  apply List.filter_congr
  intro r _
  by_cases h : rowKey r = monthKey y m
  · rw [(rowKey_eq_monthKey_iff r y m).1 h]
    simp [h]
  · have : rowInMonth (y, m) r = false := by
      cases hb : rowInMonth (y, m) r with
      | false => rfl
      | true => exact absurd ((rowKey_eq_monthKey_iff r y m).2 hb) h
    rw [this]
    simp [h]

theorem series_eq_sums (now : JsDate) (rows : List UsageRow) (hm : now.month0 < 12)
    (hy : 100 ≤ now.year) :
    series now rows =
      (List.range 12).map fun i =>
        dataUsedDoubleSum (rows.filter (rowInMonth (windowMonth now i))) := by
  unfold series
  rw [keys_eq now hm hy, List.map_map]
  apply List.map_congr_left
  intro i _
  simp only [Function.comp, totalsByKey_get, filter_rowKey_eq]

theorem filter_window_month (now : JsDate) (rows : List UsageRow) (i : Nat) (hi : i < 12) :
    (rows.filter (rowInWindow now)).filter (rowInMonth (windowMonth now i)) =
      rows.filter (rowInMonth (windowMonth now i)) := by
  rw [List.filter_filter]
  apply List.filter_congr
  intro r _
  cases hb : rowInMonth (windowMonth now i) r with
  | false => simp
  | true =>
    have : rowInWindow now r = true := by
      unfold rowInWindow
      rw [List.any_eq_true]
      exact ⟨i, List.mem_range.2 hi, hb⟩
    simp [this]

theorem dataUsedNumber_whole (row : UsageRow) (hden : (orZero row.dataUsed).den = 1)
    (hb : |orZero row.dataUsed| < 2 ^ (53 : ℕ)) :
    dataUsedNumber row = .finite (orZero row.dataUsed) := by
  cases h : row.dataUsed with
  | none =>
    unfold dataUsedNumber
    rw [h]
    rfl
  | some x =>
    rw [h, orZero_some] at hden hb
    have hx : ((x.num : ℤ) : ℚ) = x := Rat.coe_int_num_of_den_eq_one hden
    have hnum : |x.num| < 2 ^ 53 := by
      rw [← hx] at hb
      exact_mod_cast hb
    unfold dataUsedNumber
    rw [h, orZero_some]
    show (roundDouble x).orZero = _
    rw [← hx, roundDouble_intCast x.num hnum, orZero_finite]

theorem abs_sum_nonneg (rows : List UsageRow) :
    0 ≤ (rows.map fun row => |orZero row.dataUsed|).sum := by
  apply List.sum_nonneg
  intro x hx
  obtain ⟨r, _, rfl⟩ := List.mem_map.1 hx
  exact abs_nonneg _

theorem foldl_add_whole :
    ∀ (rows : List UsageRow) (za : ℤ), (∀ row ∈ rows, (orZero row.dataUsed).den = 1) →
      |(za : ℚ)| + (rows.map fun row => |orZero row.dataUsed|).sum < 2 ^ (53 : ℕ) →
      (rows.map dataUsedNumber).foldl
          (fun (total value : JsNumber) => total.orZero.add value) (.finite za) =
        JsNumber.finite (za + dataUsedSum rows)
  | [], za, _, _ => by simp [dataUsedSum]
  | row :: rest, za, hden, hb => by
    have hrow := hden row (List.mem_cons_self row rest)
    simp only [List.map_cons, List.sum_cons] at hb
    have hnn := abs_sum_nonneg rest
    have hrb : |orZero row.dataUsed| < 2 ^ (53 : ℕ) := by
      linarith [abs_nonneg (za : ℚ)]
    have hd : (((orZero row.dataUsed).num : ℤ) : ℚ) = orZero row.dataUsed :=
      Rat.coe_int_num_of_den_eq_one hrow
    have htri : |(za : ℚ) + orZero row.dataUsed| ≤ |(za : ℚ)| + |orZero row.dataUsed| :=
      abs_add _ _
    have hz : |za + (orZero row.dataUsed).num| < 2 ^ 53 := by
      have h1 : |((za + (orZero row.dataUsed).num : ℤ) : ℚ)| < 2 ^ (53 : ℕ) := by
        push_cast
        rw [hd]
        linarith
      exact_mod_cast h1
    rw [List.map_cons, List.foldl_cons, orZero_finite, dataUsedNumber_whole row hrow hrb]
    show List.foldl _ (roundDouble ((za : ℚ) + orZero row.dataUsed)) _ = _
    rw [← hd, ← Int.cast_add, roundDouble_intCast _ hz,
      foldl_add_whole rest (za + (orZero row.dataUsed).num)
        (fun r hr => hden r (List.mem_cons_of_mem row hr))
        (by
          push_cast
          rw [hd]
          linarith),
      dataUsedSum_cons]
    push_cast
    rw [hd, add_assoc]

theorem dataUsedDoubleSum_whole (rows : List UsageRow) (h : wholeUsage rows) :
    dataUsedDoubleSum rows = .finite (dataUsedSum rows) := by
  unfold dataUsedDoubleSum addInOrder
  have h0 := foldl_add_whole rows 0 h.1 (by
    simp only [Int.cast_zero, abs_zero, zero_add]
    exact h.2)
  simp only [Int.cast_zero, zero_add] at h0
  rw [h0, orZero_finite]

theorem abs_sum_filter_le (p : UsageRow → Bool) :
    ∀ rows : List UsageRow,
      ((rows.filter p).map fun row => |orZero row.dataUsed|).sum ≤
        (rows.map fun row => |orZero row.dataUsed|).sum
  | [] => le_refl _
  | row :: rest => by
    have ih := abs_sum_filter_le p rest
    by_cases hp : p row = true
    · rw [List.filter_cons_of_pos hp]
      simp only [List.map_cons, List.sum_cons]
      linarith
    · rw [List.filter_cons_of_neg hp]
      simp only [List.map_cons, List.sum_cons]
      linarith [abs_nonneg (orZero row.dataUsed)]

theorem wholeUsage_filter (p : UsageRow → Bool) (rows : List UsageRow) (h : wholeUsage rows) :
    wholeUsage (rows.filter p) :=
  ⟨fun row hrow => h.1 row (List.mem_filter.1 hrow).1,
    lt_of_le_of_lt (abs_sum_filter_le p rows) h.2⟩

theorem dataUsedSum_nonneg (rows : List UsageRow) (h : normalUsage rows) :
    0 ≤ dataUsedSum rows := by
  unfold dataUsedSum
  apply List.sum_nonneg
  intro x hx
  obtain ⟨row, hrow, rfl⟩ := List.mem_map.1 hx
  rcases h row hrow with h0 | h1
  · rw [h0]
  · exact le_trans (by positivity) h1

theorem add_rel (a d : ℚ) (ha : a = 0 ∨ (2 : ℚ) ^ (-1022 : ℤ) ≤ a)
    (hd : d = 0 ∨ (2 : ℚ) ^ (-1022 : ℤ) ≤ d) (hs : a + d < (2 : ℚ) ^ (1023 : ℤ)) :
    ∃ r : ℚ, (JsNumber.finite a).add (.finite d) = .finite r ∧
      (r = 0 ∨ (2 : ℚ) ^ (-1022 : ℤ) ≤ r) ∧
      (1 - 1 / 2 ^ (53 : ℕ)) * (a + d) ≤ r ∧ r ≤ (1 + 1 / 2 ^ (53 : ℕ)) * (a + d) := by
  have hmin : (0 : ℚ) < 2 ^ (-1022 : ℤ) := by positivity
  have ha0 : 0 ≤ a := by
    rcases ha with h | h
    · rw [h]
    · linarith
  have hd0 : 0 ≤ d := by
    rcases hd with h | h
    · rw [h]
    · linarith
  by_cases hzero : a + d = 0
  · refine ⟨0, ?_, Or.inl rfl, by rw [hzero, mul_zero], by rw [hzero, mul_zero]⟩
    show roundDouble (a + d) = _
    rw [hzero]
    simp [roundDouble]
  · have hge : (2 : ℚ) ^ (-1022 : ℤ) ≤ a + d := by
      rcases ha with h | h
      · rcases hd with h' | h'
        · exact absurd (by rw [h, h', add_zero]) hzero
        · linarith
      · linarith
    obtain ⟨r, hr, hlo, hhi, hnorm⟩ := roundDouble_rel (a + d) hge hs
    exact ⟨r, hr, Or.inr hnorm, hlo, hhi⟩

theorem dataUsedNumber_rel (row : UsageRow)
    (hx : orZero row.dataUsed = 0 ∨ (2 : ℚ) ^ (-1022 : ℤ) ≤ orZero row.dataUsed)
    (hlt : orZero row.dataUsed < (2 : ℚ) ^ (1023 : ℤ)) :
    ∃ d : ℚ, dataUsedNumber row = .finite d ∧ (d = 0 ∨ (2 : ℚ) ^ (-1022 : ℤ) ≤ d) ∧
      (1 - 1 / 2 ^ (53 : ℕ)) * orZero row.dataUsed ≤ d ∧
      d ≤ (1 + 1 / 2 ^ (53 : ℕ)) * orZero row.dataUsed := by
  cases h : row.dataUsed with
  | none =>
    refine ⟨0, ?_, Or.inl rfl, ?_, ?_⟩
    · unfold dataUsedNumber
      rw [h]
    · simp [orZero]
    · simp [orZero]
  | some x =>
    rw [h, orZero_some] at hx hlt
    rw [orZero_some]
    have hnum : dataUsedNumber row = roundDouble x := by
      unfold dataUsedNumber
      rw [h]
      exact roundDouble_orZero x
    rcases hx with h0 | h1
    · refine ⟨0, ?_, Or.inl rfl, by rw [h0, mul_zero], by rw [h0, mul_zero]⟩
      rw [hnum, h0]
      simp [roundDouble]
    · obtain ⟨r, hr, hlo, hhi, hnorm⟩ := roundDouble_rel x h1 hlt
      exact ⟨r, by rw [hnum, hr], Or.inr hnorm, hlo, hhi⟩

theorem step_upper (U p a x S a' d r : ℚ) (hU : 1 ≤ U) (hp : 1 ≤ p)
    (hS : 0 ≤ S) (hd : d ≤ U * x) (ha' : a' ≤ U * (a + d)) (hr : r ≤ p * a' + p * U * S) :
    r ≤ p * U * a + p * U * U * (x + S) := by
  have hp0 : 0 ≤ p := le_trans zero_le_one hp
  have hU0 : 0 ≤ U := le_trans zero_le_one hU
  have h1 : p * a' ≤ p * (U * (a + d)) := mul_le_mul_of_nonneg_left ha' hp0
  have h2 : p * U * d ≤ p * U * (U * x) := mul_le_mul_of_nonneg_left hd (mul_nonneg hp0 hU0)
  have h3 : p * U * S ≤ p * U * U * S := by
    have : p * U * S * 1 ≤ p * U * S * U :=
      mul_le_mul_of_nonneg_left hU (mul_nonneg (mul_nonneg hp0 hU0) hS)
    linarith
  linarith

theorem step_lower (L q a x S a' d r : ℚ) (hL0 : 0 ≤ L) (hL1 : L ≤ 1) (hq : 0 ≤ q)
    (hS : 0 ≤ S) (hd : L * x ≤ d) (ha' : L * (a + d) ≤ a') (hr : q * a' + q * L * S ≤ r) :
    q * L * a + q * L * L * (x + S) ≤ r := by
  have h1 : q * (L * (a + d)) ≤ q * a' := mul_le_mul_of_nonneg_left ha' hq
  have h2 : q * L * (L * x) ≤ q * L * d := mul_le_mul_of_nonneg_left hd (mul_nonneg hq hL0)
  have h3 : q * L * L * S ≤ q * L * S := by
    have : q * L * S * L ≤ q * L * S * 1 :=
      mul_le_mul_of_nonneg_left hL1 (mul_nonneg (mul_nonneg hq hL0) hS)
    linarith
  linarith

theorem foldl_add_rel :
    ∀ (rows : List UsageRow) (a : ℚ), (a = 0 ∨ (2 : ℚ) ^ (-1022 : ℤ) ≤ a) →
      normalUsage rows →
      (1 + 1 / 2 ^ (53 : ℕ)) ^ rows.length * a +
          (1 + 1 / 2 ^ (53 : ℕ)) ^ (rows.length + 1) * dataUsedSum rows <
        (2 : ℚ) ^ (1023 : ℤ) →
      ∃ r : ℚ,
        (rows.map dataUsedNumber).foldl
            (fun (total value : JsNumber) => total.orZero.add value) (.finite a) =
          .finite r ∧
        (r = 0 ∨ (2 : ℚ) ^ (-1022 : ℤ) ≤ r) ∧
        (1 - 1 / 2 ^ (53 : ℕ)) ^ rows.length * a +
            (1 - 1 / 2 ^ (53 : ℕ)) ^ (rows.length + 1) * dataUsedSum rows ≤ r ∧
        r ≤ (1 + 1 / 2 ^ (53 : ℕ)) ^ rows.length * a +
            (1 + 1 / 2 ^ (53 : ℕ)) ^ (rows.length + 1) * dataUsedSum rows
  | [], a, ha, _, _ => ⟨a, rfl, ha, by simp [dataUsedSum], by simp [dataUsedSum]⟩
  | row :: rest, a, ha, hn, hB => by
    have ih := foldl_add_rel rest
    obtain ⟨U, hUdef⟩ : ∃ U : ℚ, U = 1 + 1 / 2 ^ (53 : ℕ) := ⟨_, rfl⟩
    obtain ⟨L, hLdef⟩ : ∃ L : ℚ, L = 1 - 1 / 2 ^ (53 : ℕ) := ⟨_, rfl⟩
    rw [← hUdef] at hB ih ⊢
    rw [← hLdef] at ih ⊢
    have hU : 1 ≤ U := by rw [hUdef]; norm_num
    have hL0 : 0 ≤ L := by rw [hLdef]; norm_num
    have hL1 : L ≤ 1 := by rw [hLdef]; norm_num
    have hU0 : 0 ≤ U := le_trans zero_le_one hU
    have hp : 1 ≤ U ^ rest.length := one_le_pow₀ hU
    have hp0 : 0 ≤ U ^ rest.length := le_trans zero_le_one hp
    have hq : 0 ≤ L ^ rest.length := pow_nonneg hL0 _
    have hmin : (0 : ℚ) < 2 ^ (-1022 : ℤ) := by positivity
    have ha0 : 0 ≤ a := by
      rcases ha with h | h
      · rw [h]
      · linarith
    have hrow := hn row (List.mem_cons_self row rest)
    have hrest : normalUsage rest := fun r hr => hn r (List.mem_cons_of_mem row hr)
    have hx0 : 0 ≤ orZero row.dataUsed := by
      rcases hrow with h | h
      · rw [h]
      · linarith
    have hS0 : 0 ≤ dataUsedSum rest := dataUsedSum_nonneg rest hrest
    rw [dataUsedSum_cons, List.length_cons, pow_succ, pow_succ, pow_succ] at hB
    rw [dataUsedSum_cons, List.length_cons, pow_succ U, pow_succ U, pow_succ U, pow_succ L,
      pow_succ L, pow_succ L]
    rw [pow_succ] at ih
    rw [pow_succ L] at ih
    generalize U ^ rest.length = p at hB hp hp0 ih ⊢
    generalize L ^ rest.length = q at hq ih ⊢
    generalize dataUsedSum rest = S at hB hS0 ih ⊢
    generalize hxdef : orZero row.dataUsed = x at hB hx0 hrow ⊢
    have hpUa : a ≤ p * U * a := by
      have : 1 * a ≤ p * U * a :=
        mul_le_mul_of_nonneg_right (one_le_mul_of_one_le_of_one_le hp hU) ha0
      linarith
    have hpUx : U * x ≤ p * U * U * x := by
      have h1 : 1 * (U * x) ≤ p * U * (U * x) :=
        mul_le_mul_of_nonneg_right (one_le_mul_of_one_le_of_one_le hp hU)
          (mul_nonneg hU0 hx0)
      linarith
    have hxUx : x ≤ U * x := by
      have : 1 * x ≤ U * x := mul_le_mul_of_nonneg_right hU hx0
      linarith
    have hpS : 0 ≤ p * U * U * S := mul_nonneg (mul_nonneg (mul_nonneg hp0 hU0) hU0) hS0
    obtain ⟨d, hd, hdn, hdlo, hdhi⟩ := dataUsedNumber_rel row (by rw [hxdef]; exact hrow)
      (by rw [hxdef]; linarith)
    rw [hxdef, ← hUdef] at hdhi
    rw [hxdef, ← hLdef] at hdlo
    obtain ⟨a', hadd, ha'n, ha'lo, ha'hi⟩ := add_rel a d ha hdn (by linarith)
    rw [← hUdef] at ha'hi
    rw [← hLdef] at ha'lo
    have hB' : p * a' + p * U * S < (2 : ℚ) ^ (1023 : ℤ) := by
      have h1 := step_upper U p a x S a' d (p * a' + p * U * S) hU hp hS0 hdhi ha'hi
        (le_refl _)
      linarith
    obtain ⟨r, hr, hrn, hrlo, hrhi⟩ := ih a' ha'n hrest hB'
    refine ⟨r, ?_, hrn, ?_, ?_⟩
    · rw [List.map_cons, List.foldl_cons, orZero_finite, hd, hadd]
      exact hr
    · exact step_lower L q a x S a' d r hL0 hL1 hq hS0 hdlo ha'lo hrlo
    · exact step_upper U p a x S a' d r hU hp hS0 hdhi ha'hi hrhi

theorem normalUsage_filter (p : UsageRow → Bool) (rows : List UsageRow)
    (h : normalUsage rows) : normalUsage (rows.filter p) :=
  fun row hrow => h row (List.mem_filter.1 hrow).1

theorem normalUsage_nonneg (rows : List UsageRow) (h : normalUsage rows) :
    ∀ row ∈ rows, 0 ≤ orZero row.dataUsed := by
  intro row hrow
  rcases h row hrow with h0 | h1
  · rw [h0]
  · exact le_trans (by positivity) h1

theorem dataUsedDoubleSum_rel (rows : List UsageRow) (n : ℕ) (hlen : rows.length ≤ n)
    (hn : normalUsage rows)
    (hB : (1 + 1 / 2 ^ (53 : ℕ)) ^ (n + 1) * dataUsedSum rows < (2 : ℚ) ^ (1023 : ℤ)) :
    ∃ r : ℚ, dataUsedDoubleSum rows = .finite r ∧
      (1 - 1 / 2 ^ (53 : ℕ)) ^ (n + 1) * dataUsedSum rows ≤ r ∧
      r ≤ (1 + 1 / 2 ^ (53 : ℕ)) ^ (n + 1) * dataUsedSum rows := by
  have hU : (1 : ℚ) ≤ 1 + 1 / 2 ^ (53 : ℕ) := by norm_num
  have hL0 : (0 : ℚ) ≤ 1 - 1 / 2 ^ (53 : ℕ) := by norm_num
  have hL1 : (1 : ℚ) - 1 / 2 ^ (53 : ℕ) ≤ 1 := by norm_num
  have hS0 := dataUsedSum_nonneg rows hn
  have hUpow : (1 + 1 / 2 ^ (53 : ℕ) : ℚ) ^ (rows.length + 1) ≤
      (1 + 1 / 2 ^ (53 : ℕ)) ^ (n + 1) := pow_le_pow_right₀ hU (by omega)
  have hLpow : (1 - 1 / 2 ^ (53 : ℕ) : ℚ) ^ (n + 1) ≤
      (1 - 1 / 2 ^ (53 : ℕ)) ^ (rows.length + 1) :=
    pow_le_pow_of_le_one hL0 hL1 (by omega)
  have hup := mul_le_mul_of_nonneg_right hUpow hS0
  have hlo := mul_le_mul_of_nonneg_right hLpow hS0
  obtain ⟨r, hr, _, hrlo, hrhi⟩ := foldl_add_rel rows 0 (Or.inl rfl) hn (by
    rw [mul_zero, zero_add]
    linarith)
  rw [mul_zero, zero_add] at hrlo hrhi
  refine ⟨r, ?_, by linarith, by linarith⟩
  unfold dataUsedDoubleSum addInOrder
  rw [hr, orZero_finite]

theorem roundDouble_tenth :
    roundDouble (1 / 10) = .finite (3602879701896397 / 36028797018963968) := by
  rw [roundDouble_eq_of_pos (1 / 10) (-4) 7205759403792794 (by norm_num) (by norm_num)
    (by norm_num) (Or.inl (by norm_num [abs_lt])) (by norm_num) (by norm_num)]
  exact congrArg JsNumber.finite (by norm_num)

theorem roundDouble_fifth :
    roundDouble (1 / 5) = .finite (3602879701896397 / 18014398509481984) := by
  rw [roundDouble_eq_of_pos (1 / 5) (-3) 7205759403792794 (by norm_num) (by norm_num)
    (by norm_num) (Or.inl (by norm_num [abs_lt])) (by norm_num) (by norm_num)]
  exact congrArg JsNumber.finite (by norm_num)

theorem roundDouble_tenth_add_fifth :
    roundDouble (3602879701896397 / 36028797018963968 + 3602879701896397 / 18014398509481984) =
      .finite (1351079888211149 / 4503599627370496) := by
  rw [roundDouble_eq_of_pos _ (-2) 5404319552844596 (by norm_num) (by norm_num)
    (by norm_num) (Or.inr ⟨by norm_num, by decide⟩) (by norm_num) (by norm_num)]
  exact congrArg JsNumber.finite (by norm_num)

theorem roundDouble_tenth_double :
    roundDouble (3602879701896397 / 36028797018963968) =
      .finite (3602879701896397 / 36028797018963968) := by
  rw [roundDouble_eq_of_pos _ (-4) 7205759403792794 (by norm_num) (by norm_num)
    (by norm_num) (Or.inl (by norm_num [abs_lt])) (by norm_num) (by norm_num)]
  exact congrArg JsNumber.finite (by norm_num)

theorem dataUsedDoubleSum_tenth_fifth (a b : String) (d e : Option JsDate) :
    dataUsedDoubleSum [⟨a, d, some (1 / 10), none, none⟩, ⟨b, e, some (1 / 5), none, none⟩] =
      .finite (1351079888211149 / 4503599627370496) := by
  simp only [dataUsedDoubleSum, addInOrder, dataUsedNumber, List.map_cons, List.map_nil,
    List.foldl_cons, List.foldl_nil, roundDouble_tenth, roundDouble_fifth, orZero_finite,
    JsNumber.add, zero_add, roundDouble_tenth_double, roundDouble_tenth_add_fifth]

/-- Claim C18, as stated, fails: two rows of March 2025 with dataUsed 0.1 and 0.2 give, in the
window that ends in June 2025, the entry 0.30000000000000004 at index 8, the double
`1351079888211149 / 2 ^ 52`; the sum of the two values is 0.3, a smaller number, and the
entry is not the double nearest to it either. -/
theorem usage_by_month_rounding_counterexample :
    rowInMonth (windowMonth ⟨2025, 5⟩ 8) ⟨"r1", some ⟨2025, 2⟩, some (1 / 10), none, none⟩ =
      true ∧
    rowInMonth (windowMonth ⟨2025, 5⟩ 8) ⟨"r2", some ⟨2025, 2⟩, some (1 / 5), none, none⟩ =
      true ∧
    (series ⟨2025, 5⟩
      [⟨"r1", some ⟨2025, 2⟩, some (1 / 10), none, none⟩,
       ⟨"r2", some ⟨2025, 2⟩, some (1 / 5), none, none⟩])[8]? =
      some (.finite (1351079888211149 / 4503599627370496)) ∧
    dataUsedSum
      [⟨"r1", some ⟨2025, 2⟩, some (1 / 10), none, none⟩,
       ⟨"r2", some ⟨2025, 2⟩, some (1 / 5), none, none⟩] = 3 / 10 ∧
    (3 / 10 : ℚ) < 1351079888211149 / 4503599627370496 ∧
    roundDouble (3 / 10) ≠ .finite (1351079888211149 / 4503599627370496) := by
  refine ⟨by decide, by decide, ?_, ?_, by norm_num, ?_⟩
  · rw [series_eq_sums _ _ (by decide) (by decide), List.getElem?_map,
      List.getElem?_range (by decide)]
    have hf : ([⟨"r1", some ⟨2025, 2⟩, some (1 / 10), none, none⟩,
        ⟨"r2", some ⟨2025, 2⟩, some (1 / 5), none, none⟩] : List UsageRow).filter
        (rowInMonth (windowMonth ⟨2025, 5⟩ 8)) =
        [⟨"r1", some ⟨2025, 2⟩, some (1 / 10), none, none⟩,
         ⟨"r2", some ⟨2025, 2⟩, some (1 / 5), none, none⟩] := by
      rw [List.filter_cons_of_pos (by decide), List.filter_cons_of_pos (by decide),
        List.filter_nil]
    simp only [Option.map_some', hf, dataUsedDoubleSum_tenth_fifth]
  · simp [dataUsedSum, orZero]
    norm_num
  · rw [roundDouble_eq_of_pos (3 / 10) (-2) 5404319552844595 (by norm_num) (by norm_num)
      (by norm_num) (Or.inl (by norm_num [abs_lt])) (by norm_num) (by norm_num)]
    intro h
    have h2 := JsNumber.finite.inj h
    norm_num at h2

/-- Claim C18, amended.  Usage aggregation by month: for a current date (year at least 100,
see `newDate`) the chart series has twelve entries; entry `i` is the sum of dataUsed, a
missing value counting as 0, over exactly the rows whose date falls in the `i`-th month of the
trailing window, added in doubles in the order of the rows, each addition rounding (and 0 if
that sum is NaN); it is the exact sum when the dataUsed of these rows are whole numbers whose
absolute values add up to less than `2 ^ 53`; for `k` such rows with dataUsed 0 or at least
`2 ^ (-1022)` and no overflow it is the exact sum up to a factor between
`(1 - 2 ^ (-53)) ^ (k + 1)` and `(1 + 2 ^ (-53)) ^ (k + 1)`; it is 0 when there is no such
row; dropping the rows dated outside the window changes no entry. -/
theorem usage_by_month (now : JsDate) (usageHistory : List UsageRow)
    (hm : now.month0 < 12) (hy : 100 ≤ now.year) :
    (series now usageHistory).length = 12 ∧
    (∀ i, i < 12 →
      (series now usageHistory)[i]? =
        some (dataUsedDoubleSum (usageHistory.filter (rowInMonth (windowMonth now i))))) ∧
    (∀ i, i < 12 → wholeUsage (usageHistory.filter (rowInMonth (windowMonth now i))) →
      (series now usageHistory)[i]? =
        some (.finite (dataUsedSum (usageHistory.filter (rowInMonth (windowMonth now i)))))) ∧
    (∀ i, i < 12 → normalUsage (usageHistory.filter (rowInMonth (windowMonth now i))) →
      (1 + 1 / 2 ^ (53 : ℕ)) ^
          ((usageHistory.filter (rowInMonth (windowMonth now i))).length + 1) *
          dataUsedSum (usageHistory.filter (rowInMonth (windowMonth now i))) <
        (2 : ℚ) ^ (1023 : ℤ) →
      ∃ r : ℚ, (series now usageHistory)[i]? = some (.finite r) ∧
        (1 - 1 / 2 ^ (53 : ℕ)) ^
            ((usageHistory.filter (rowInMonth (windowMonth now i))).length + 1) *
            dataUsedSum (usageHistory.filter (rowInMonth (windowMonth now i))) ≤ r ∧
        r ≤ (1 + 1 / 2 ^ (53 : ℕ)) ^
            ((usageHistory.filter (rowInMonth (windowMonth now i))).length + 1) *
            dataUsedSum (usageHistory.filter (rowInMonth (windowMonth now i)))) ∧
    (∀ i, i < 12 →
      (∀ row ∈ usageHistory, rowInMonth (windowMonth now i) row = false) →
      (series now usageHistory)[i]? = some (.finite 0)) ∧
    series now (usageHistory.filter (rowInWindow now)) = series now usageHistory := by
  have hs := series_eq_sums now usageHistory hm hy
  have hentry : ∀ i, i < 12 →
      (series now usageHistory)[i]? =
        some (dataUsedDoubleSum (usageHistory.filter (rowInMonth (windowMonth now i)))) := by
    intro i hi
    rw [hs, List.getElem?_map, List.getElem?_range hi]
    rfl
  refine ⟨by simp [hs], hentry, ?_, ?_, ?_, ?_⟩
  · intro i hi hwhole
    rw [hentry i hi, dataUsedDoubleSum_whole _ hwhole]
  · intro i hi hnormal hbound
    obtain ⟨r, hr, hlo, hhi⟩ := dataUsedDoubleSum_rel _ _ (le_refl _) hnormal hbound
    exact ⟨r, by rw [hentry i hi, hr], hlo, hhi⟩
  · intro i hi hnone
    rw [hentry i hi]
    have : usageHistory.filter (rowInMonth (windowMonth now i)) = [] := by
      rw [List.filter_eq_nil_iff]
      intro r hr
      simp [hnone r hr]
    rw [this]
    exact congrArg some (orZero_finite 0)
  · rw [hs, series_eq_sums now _ hm hy]
    apply List.map_congr_left
    intro i hi
    rw [filter_window_month now usageHistory i (List.mem_range.1 hi)]

theorem usage_by_month_witness :
    (series ⟨2025, 5⟩
      [⟨"r1", some ⟨2025, 2⟩, some 2, none, none⟩, ⟨"r2", some ⟨2025, 2⟩, some 4, none, none⟩,
       ⟨"r3", some ⟨2025, 2⟩, some 6, none, none⟩])[8]? = some (.finite 12) ∧
    (series ⟨2025, 5⟩
      [⟨"r1", some ⟨2025, 2⟩, some 2, none, none⟩, ⟨"r2", some ⟨2025, 2⟩, some 4, none, none⟩,
       ⟨"r3", some ⟨2025, 2⟩, some 6, none, none⟩])[7]? = some (.finite 0) ∧
    (∃ r : ℚ, (series ⟨2025, 5⟩
      [⟨"r1", some ⟨2025, 2⟩, some (1 / 10), none, none⟩,
       ⟨"r2", some ⟨2025, 2⟩, some (1 / 5), none, none⟩])[8]? = some (.finite r) ∧
      (1 - 1 / 2 ^ (53 : ℕ)) ^ (2 + 1) * (3 / 10) ≤ r ∧
      r ≤ (1 + 1 / 2 ^ (53 : ℕ)) ^ (2 + 1) * (3 / 10)) := by
  have h := usage_by_month ⟨2025, 5⟩
    [⟨"r1", some ⟨2025, 2⟩, some 2, none, none⟩, ⟨"r2", some ⟨2025, 2⟩, some 4, none, none⟩,
     ⟨"r3", some ⟨2025, 2⟩, some 6, none, none⟩] (by decide) (by decide)
  refine ⟨?_, h.2.2.2.2.1 7 (by decide) (by decide), ?_⟩
  · have hf : ([⟨"r1", some ⟨2025, 2⟩, some 2, none, none⟩,
        ⟨"r2", some ⟨2025, 2⟩, some 4, none, none⟩,
        ⟨"r3", some ⟨2025, 2⟩, some 6, none, none⟩] : List UsageRow).filter
        (rowInMonth (windowMonth ⟨2025, 5⟩ 8)) =
        [⟨"r1", some ⟨2025, 2⟩, some 2, none, none⟩,
         ⟨"r2", some ⟨2025, 2⟩, some 4, none, none⟩,
         ⟨"r3", some ⟨2025, 2⟩, some 6, none, none⟩] := by
      decide
    have hwhole : wholeUsage
        (([⟨"r1", some ⟨2025, 2⟩, some 2, none, none⟩,
           ⟨"r2", some ⟨2025, 2⟩, some 4, none, none⟩,
           ⟨"r3", some ⟨2025, 2⟩, some 6, none, none⟩] : List UsageRow).filter
          (rowInMonth (windowMonth ⟨2025, 5⟩ 8))) := by
      rw [hf]
      constructor
      · intro row hrow
        simp only [List.mem_cons, List.mem_singleton, List.not_mem_nil, or_false] at hrow
        rcases hrow with rfl | rfl | rfl <;> simp [orZero]
      · simp [orZero]
        norm_num
    have h8 := h.2.2.1 8 (by decide) hwhole
    have hsum : dataUsedSum
        (([⟨"r1", some ⟨2025, 2⟩, some 2, none, none⟩,
           ⟨"r2", some ⟨2025, 2⟩, some 4, none, none⟩,
           ⟨"r3", some ⟨2025, 2⟩, some 6, none, none⟩] : List UsageRow).filter
          (rowInMonth (windowMonth ⟨2025, 5⟩ 8))) = 12 := by
      rw [hf]
      simp [dataUsedSum, orZero]
      norm_num
    rw [hsum] at h8
    exact h8
  · have hf : ([⟨"r1", some ⟨2025, 2⟩, some (1 / 10), none, none⟩,
        ⟨"r2", some ⟨2025, 2⟩, some (1 / 5), none, none⟩] : List UsageRow).filter
        (rowInMonth (windowMonth ⟨2025, 5⟩ 8)) =
        [⟨"r1", some ⟨2025, 2⟩, some (1 / 10), none, none⟩,
         ⟨"r2", some ⟨2025, 2⟩, some (1 / 5), none, none⟩] := by
      rw [List.filter_cons_of_pos (by decide), List.filter_cons_of_pos (by decide),
        List.filter_nil]
    have hsum : dataUsedSum
        [⟨"r1", some ⟨2025, 2⟩, some (1 / 10), none, none⟩,
         ⟨"r2", some ⟨2025, 2⟩, some (1 / 5), none, none⟩] = 3 / 10 := by
      simp [dataUsedSum, orZero]
      norm_num
    have h8 := (usage_by_month ⟨2025, 5⟩
      [⟨"r1", some ⟨2025, 2⟩, some (1 / 10), none, none⟩,
       ⟨"r2", some ⟨2025, 2⟩, some (1 / 5), none, none⟩] (by decide) (by decide)).2.2.2.1 8
      (by decide) (by
        rw [hf]
        intro row hrow
        simp only [List.mem_cons, List.mem_singleton, List.not_mem_nil, or_false] at hrow
        rcases hrow with rfl | rfl
        · right
          simp only [orZero_some]
          norm_num
        · right
          simp only [orZero_some]
          norm_num) (by
        rw [hf, hsum]
        norm_num)
    rw [hf, hsum] at h8
    exact h8

/-! ## NotificationBell.jsx: badge count -/

theorem unread_flag_mark (id : String) (a : Notification) :
    (if (!(if a.id = id then { a with read := true } else a).read) = true then 1 else 0) ≤
      (if (!a.read) = true then 1 else 0) ∧
    (a.id = id ∧ a.read = false →
      (if (!(if a.id = id then { a with read := true } else a).read) = true then 1 else 0) + 1 ≤
        (if (!a.read) = true then 1 else 0)) := by
  by_cases hid : a.id = id
  · rw [if_pos hid]
    cases hr : a.read <;> simp
  · rw [if_neg hid]
    constructor
    · exact Nat.le_refl _
    · intro h
      exact absurd h.1 hid

theorem countP_unread_mark_le (id : String) :
    ∀ items : List Notification,
      (items.map fun (n : Notification) =>
          if n.id = id then { n with read := true } else n).countP (fun n => !n.read) ≤
        items.countP fun n => !n.read
  | [] => Nat.le_refl _
  | a :: rest => by
    have ih := countP_unread_mark_le id rest
    have ha := (unread_flag_mark id a).1
    rw [List.map_cons, List.countP_cons, List.countP_cons]
    exact Nat.add_le_add ih ha

theorem countP_unread_mark_lt (id : String) :
    ∀ items : List Notification, (∃ n ∈ items, n.id = id ∧ n.read = false) →
      (items.map fun (n : Notification) =>
          if n.id = id then { n with read := true } else n).countP (fun n => !n.read) + 1 ≤
        items.countP fun n => !n.read
  | [], h => by
    obtain ⟨n, hn, _⟩ := h
    simp at hn
  | a :: rest, h => by
    rw [List.map_cons, List.countP_cons, List.countP_cons]
    by_cases ha : a.id = id ∧ a.read = false
    · have hle := countP_unread_mark_le id rest
      have hflag := (unread_flag_mark id a).2 ha
      calc _ = List.countP (fun n => !n.read)
                (List.map (fun (n : Notification) =>
                  if n.id = id then { n with read := true } else n) rest) +
              ((if (!(if a.id = id then { a with read := true } else a).read) = true
                then 1 else 0) + 1) := by rw [Nat.add_assoc]
        _ ≤ _ := Nat.add_le_add hle hflag
    · have hrest : ∃ n ∈ rest, n.id = id ∧ n.read = false := by
        obtain ⟨n, hn, hp⟩ := h
        rcases List.mem_cons.1 hn with hna | hnr
        · exact absurd (hna ▸ hp) ha
        · exact ⟨n, hnr, hp⟩
      have ih := countP_unread_mark_lt id rest hrest
      have hflag := (unread_flag_mark id a).1
      calc _ = (List.countP (fun n => !n.read)
                (List.map (fun (n : Notification) =>
                  if n.id = id then { n with read := true } else n) rest) + 1) +
              (if (!(if a.id = id then { a with read := true } else a).read) = true
                then 1 else 0) := by rw [Nat.add_right_comm]
        _ ≤ _ := Nat.add_le_add ih hflag

theorem countP_unread_all_read (items : List Notification) :
    (items.map fun (n : Notification) => { n with read := true }).countP
      (fun n => !n.read) = 0 := by
  rw [List.countP_eq_zero]
  intro n hn
  rw [List.mem_map] at hn
  obtain ⟨m, _, rfl⟩ := hn
  simp

/-- Claim C20.  Badge count bounds: after a successful `handleMarkRead` or `handleMarkAll` the
badge count is not negative, and a count that was not negative stays so whatever the outcome;
the relation that unreadCount is at least the number of unread items is preserved by
`handleMarkAll`, and by `handleMarkRead(id)` when `id` is the id of an unread item, in which
case a successful call lowers a positive count by exactly 1; so the relation can be broken only
by `handleMarkRead` on an id that no unread item has, and then it can indeed be broken. -/
theorem badge_count_bounds (response : Except ApiError Unit) (id : String) (st : BellState) :
    0 ≤ (handleMarkRead (.ok ()) id st).unreadCount ∧
    0 ≤ (handleMarkAll (.ok ()) st).unreadCount ∧
    (0 ≤ st.unreadCount →
      0 ≤ (handleMarkRead response id st).unreadCount ∧
      0 ≤ (handleMarkAll response st).unreadCount) ∧
    (badgeCovers st → badgeCovers (handleMarkAll response st)) ∧
    (badgeCovers st → (∃ n ∈ st.items, n.id = id ∧ n.read = false) →
      badgeCovers (handleMarkRead response id st) ∧
      (0 < st.unreadCount →
        (handleMarkRead (.ok ()) id st).unreadCount = st.unreadCount - 1)) ∧
    (badgeCovers st → ¬ badgeCovers (handleMarkRead response id st) →
      ¬ ∃ n ∈ st.items, n.id = id ∧ n.read = false) ∧
    (badgeCovers ⟨true, false, none, [⟨"n1", "Offer live", "info", false, "2025-06-02", none⟩],
        1⟩ ∧
      ¬ badgeCovers (handleMarkRead (.ok ()) "n9"
        ⟨true, false, none, [⟨"n1", "Offer live", "info", false, "2025-06-02", none⟩], 1⟩)) := by
  have hread : badgeCovers st → (∃ n ∈ st.items, n.id = id ∧ n.read = false) →
      badgeCovers (handleMarkRead response id st) := by
    intro hb hex
    cases response with
    | error e => exact hb
    | ok u =>
      have hlt := countP_unread_mark_lt id st.items hex
      unfold badgeCovers unreadItems at hb ⊢
      simp only [handleMarkRead]
      omega
  refine ⟨?_, ?_, ?_, ?_, ?_, ?_, ?_⟩
  · simp only [handleMarkRead]
    omega
  · simp [handleMarkAll]
  · intro h0
    cases response with
    | error e => exact ⟨h0, h0⟩
    | ok u =>
      constructor
      · simp only [handleMarkRead]
        omega
      · simp [handleMarkAll]
  · intro hb
    cases response with
    | error e => exact hb
    | ok u =>
      unfold badgeCovers unreadItems
      simp only [handleMarkAll, countP_unread_all_read]
      simp
  · intro hb hex
    refine ⟨hread hb hex, ?_⟩
    intro hpos
    simp only [handleMarkRead]
    omega
  · intro hb hbroken hex
    exact hbroken (hread hb hex)
  · constructor
    · unfold badgeCovers unreadItems
      decide
    · unfold badgeCovers unreadItems
      decide

theorem badge_count_bounds_witness :
    badgeCovers (handleMarkRead (.ok ()) "n1"
      ⟨true, false, none, [⟨"n1", "Offer live", "info", false, "2025-06-02", none⟩], 3⟩) ∧
    (handleMarkRead (.ok ()) "n1"
      ⟨true, false, none, [⟨"n1", "Offer live", "info", false, "2025-06-02", none⟩],
        3⟩).unreadCount = 3 - 1 :=
  ⟨((badge_count_bounds (.ok ()) "n1"
      ⟨true, false, none, [⟨"n1", "Offer live", "info", false, "2025-06-02", none⟩], 3⟩).2.2.2.2.1
      (by unfold badgeCovers unreadItems; decide)
      ⟨⟨"n1", "Offer live", "info", false, "2025-06-02", none⟩, by simp, rfl, rfl⟩).1,
    ((badge_count_bounds (.ok ()) "n1"
      ⟨true, false, none, [⟨"n1", "Offer live", "info", false, "2025-06-02", none⟩], 3⟩).2.2.2.2.1
      (by unfold badgeCovers unreadItems; decide)
      ⟨⟨"n1", "Offer live", "info", false, "2025-06-02", none⟩, by simp, rfl, rfl⟩).2
      (by decide)⟩

/-! ## Dashboard.jsx: Monthly Revenue card -/

/-- Claim C21 does not hold on the code: for a payload without `revenueStats`, or with
`totalMonthlyRevenue` missing or `null`, the expression of the Monthly Revenue card throws a
TypeError instead of yielding 0.00; for a number it yields the number with two decimals, and
for a string it takes the `Number(...)` branch. -/
theorem monthly_revenue_card_throws (x : ℚ) (s : String) :
    monthlyRevenueCard none = .error .typeError ∧
    monthlyRevenueCard (some ⟨.undefined⟩) = .error .typeError ∧
    monthlyRevenueCard (some ⟨.null⟩) = .error .typeError ∧
    monthlyRevenueCard (some ⟨.number x⟩) = .ok (.fixed2 x) ∧
    monthlyRevenueCard (some ⟨.string ""⟩) = .ok (.fixed2 0) ∧
    (s ≠ "" → monthlyRevenueCard (some ⟨.string s⟩) = .ok (.fixed2OfString s)) := by
  refine ⟨rfl, rfl, rfl, rfl, rfl, ?_⟩
  intro hs
  simp [monthlyRevenueCard, JsValue.orZeroNullish, JsValue.hasToFixed, hs]

theorem monthly_revenue_card_throws_witness :
    monthlyRevenueCard (some ⟨.string "12.5"⟩) = .ok (.fixed2OfString "12.5") :=
  (monthly_revenue_card_throws 0 "12.5").2.2.2.2.2 (by decide)

/-! ## UsageHistory.jsx: conservation of usage -/

theorem sum_ite_unique (p : Nat → Bool) (d : ℚ) :
    ∀ l : List Nat, l.Nodup → (∀ i ∈ l, ∀ j ∈ l, p i = true → p j = true → i = j) →
      (l.map fun i => if p i = true then d else 0).sum = if l.any p = true then d else 0
  | [], _, _ => by simp
  | a :: t, hnd, huniq => by
    have hnd' := List.nodup_cons.1 hnd
    have ih := sum_ite_unique p d t hnd'.2
      (fun i hi j hj => huniq i (List.mem_cons_of_mem a hi) j (List.mem_cons_of_mem a hj))
    rw [List.map_cons, List.sum_cons, ih, List.any_cons]
    by_cases ha : p a = true
    · have hnone : t.any p = false := by
        rw [List.any_eq_false]
        intro j hj hpj
        have : a = j := huniq a (List.mem_cons_self a t) j (List.mem_cons_of_mem a hj) ha hpj
        exact hnd'.1 (this ▸ hj)
      simp [ha, hnone]
    · have ha' : p a = false := by simpa using ha
      simp [ha']

theorem rowInMonth_window_unique (now : JsDate) (hy : 100 ≤ now.year) (row : UsageRow)
    (i j : Nat) (hi : i < 12) (hj : j < 12)
    (h1 : rowInMonth (windowMonth now i) row = true)
    (h2 : rowInMonth (windowMonth now j) row = true) : i = j := by
  unfold rowInMonth at h1 h2
  cases hd : row.date with
  | none => simp [hd] at h1
  | some d =>
    simp only [hd, decide_eq_true_eq] at h1 h2
    have hw : windowMonth now i = windowMonth now j := h1.symm.trans h2
    have hi' := windowMonth_ordinal now i hy hi
    have hj' := windowMonth_ordinal now j hy hj
    rw [hw] at hi'
    omega

theorem dataUsedSum_filter_cons (p : UsageRow → Bool) (row : UsageRow) (rest : List UsageRow) :
    dataUsedSum ((row :: rest).filter p) =
      (if p row = true then orZero row.dataUsed else 0) + dataUsedSum (rest.filter p) := by
  by_cases hp : p row = true
  · rw [List.filter_cons_of_pos hp, dataUsedSum_cons, if_pos hp]
  · rw [List.filter_cons_of_neg hp, if_neg hp, zero_add]

theorem window_sums_eq (now : JsDate) (hy : 100 ≤ now.year) :
    ∀ rows : List UsageRow,
      ((List.range 12).map fun i =>
          dataUsedSum (rows.filter (rowInMonth (windowMonth now i)))).sum =
        dataUsedSum (rows.filter (rowInWindow now))
  | [] => by simp [dataUsedSum]
  | row :: rest => by
    have ih := window_sums_eq now hy rest
    have hfun : (fun i => dataUsedSum ((row :: rest).filter (rowInMonth (windowMonth now i)))) =
        fun i => (if rowInMonth (windowMonth now i) row = true then orZero row.dataUsed else 0) +
          dataUsedSum (rest.filter (rowInMonth (windowMonth now i))) := by
      funext i
      exact dataUsedSum_filter_cons _ row rest
    rw [hfun, List.sum_map_add, ih, dataUsedSum_filter_cons]
    congr 1
    have hu := sum_ite_unique (fun i => rowInMonth (windowMonth now i) row)
      (orZero row.dataUsed) (List.range 12) (List.nodup_range 12)
      (fun i hi j hj h1 h2 => rowInMonth_window_unique now hy row i j
        (List.mem_range.1 hi) (List.mem_range.1 hj) h1 h2)
    rw [hu]
    rfl

theorem dataUsedSum_filter_le (p : UsageRow → Bool) :
    ∀ rows : List UsageRow, (∀ row ∈ rows, 0 ≤ orZero row.dataUsed) →
      dataUsedSum (rows.filter p) ≤ dataUsedSum rows
  | [], _ => by simp [dataUsedSum]
  | row :: rest, h => by
    have ih := dataUsedSum_filter_le p rest (fun r hr => h r (List.mem_cons_of_mem row hr))
    have h0 := h row (List.mem_cons_self row rest)
    rw [dataUsedSum_filter_cons, dataUsedSum_cons]
    by_cases hp : p row = true
    · rw [if_pos hp]
      linarith
    · rw [if_neg hp]
      linarith

theorem exactSum_map_finite {α : Type} (f : α → ℚ) :
    ∀ l : List α, exactSum (l.map fun i => JsNumber.finite (f i)) = some ((l.map f).sum)
  | [] => rfl
  | a :: t => by
    simp only [List.map_cons, exactSum, exactSum_map_finite f t, JsNumber.exact?, List.sum_cons]

theorem series_whole (now : JsDate) (rows : List UsageRow) (hm : now.month0 < 12)
    (hy : 100 ≤ now.year) (hwhole : wholeUsage rows) :
    series now rows =
      (List.range 12).map fun i =>
        JsNumber.finite (dataUsedSum (rows.filter (rowInMonth (windowMonth now i)))) := by
  rw [series_eq_sums now rows hm hy]
  apply List.map_congr_left
  intro i _
  exact dataUsedDoubleSum_whole _ (wholeUsage_filter _ rows hwhole)

theorem series_rel (now : JsDate) (rows : List UsageRow) (hm : now.month0 < 12)
    (hy : 100 ≤ now.year) (hn : normalUsage rows)
    (hB : (1 + 1 / 2 ^ (53 : ℕ)) ^ (rows.length + 1) * dataUsedSum rows <
      (2 : ℚ) ^ (1023 : ℤ)) :
    ∃ total : ℚ, exactSum (series now rows) = some total ∧
      (1 - 1 / 2 ^ (53 : ℕ)) ^ (rows.length + 1) *
          dataUsedSum (rows.filter (rowInWindow now)) ≤ total ∧
      total ≤ (1 + 1 / 2 ^ (53 : ℕ)) ^ (rows.length + 1) *
          dataUsedSum (rows.filter (rowInWindow now)) := by
  have hU0 : (0 : ℚ) ≤ (1 + 1 / 2 ^ (53 : ℕ)) ^ (rows.length + 1) := by positivity
  have hmonth : ∀ i : ℕ, ∃ r : ℚ,
      dataUsedDoubleSum (rows.filter (rowInMonth (windowMonth now i))) = .finite r ∧
      (1 - 1 / 2 ^ (53 : ℕ)) ^ (rows.length + 1) *
          dataUsedSum (rows.filter (rowInMonth (windowMonth now i))) ≤ r ∧
      r ≤ (1 + 1 / 2 ^ (53 : ℕ)) ^ (rows.length + 1) *
          dataUsedSum (rows.filter (rowInMonth (windowMonth now i))) := by
    intro i
    apply dataUsedDoubleSum_rel _ rows.length (List.length_filter_le _ _)
      (normalUsage_filter _ rows hn)
    have hle := dataUsedSum_filter_le (rowInMonth (windowMonth now i)) rows
      (normalUsage_nonneg rows hn)
    have := mul_le_mul_of_nonneg_left hle hU0
    linarith
  have hval : ∀ i : ℕ,
      dataUsedDoubleSum (rows.filter (rowInMonth (windowMonth now i))) =
        .finite (((dataUsedDoubleSum
          (rows.filter (rowInMonth (windowMonth now i)))).exact?).getD 0) := by
    intro i
    obtain ⟨r, hr, _, _⟩ := hmonth i
    rw [hr]
    rfl
  have hlo : ∀ i : ℕ, (1 - 1 / 2 ^ (53 : ℕ)) ^ (rows.length + 1) *
      dataUsedSum (rows.filter (rowInMonth (windowMonth now i))) ≤
      ((dataUsedDoubleSum (rows.filter (rowInMonth (windowMonth now i)))).exact?).getD 0 := by
    intro i
    obtain ⟨r, hr, hrlo, _⟩ := hmonth i
    rw [hr]
    exact hrlo
  have hhi : ∀ i : ℕ,
      ((dataUsedDoubleSum (rows.filter (rowInMonth (windowMonth now i)))).exact?).getD 0 ≤
      (1 + 1 / 2 ^ (53 : ℕ)) ^ (rows.length + 1) *
        dataUsedSum (rows.filter (rowInMonth (windowMonth now i))) := by
    intro i
    obtain ⟨r, hr, _, hrhi⟩ := hmonth i
    rw [hr]
    exact hrhi
  have hseries : series now rows = (List.range 12).map fun i =>
      JsNumber.finite (((dataUsedDoubleSum
        (rows.filter (rowInMonth (windowMonth now i)))).exact?).getD 0) := by
    rw [series_eq_sums now rows hm hy]
    apply List.map_congr_left
    intro i _
    exact hval i
  refine ⟨_, by rw [hseries, exactSum_map_finite], ?_, ?_⟩
  · rw [← window_sums_eq now hy rows, ← List.sum_map_mul_left]
    exact List.sum_le_sum (fun i _ => hlo i)
  · rw [← window_sums_eq now hy rows, ← List.sum_map_mul_left]
    exact List.sum_le_sum (fun i _ => hhi i)

/-- Claim C22, as stated, fails: two rows of March 2025 with dataUsed 0.1 and 0.2, both
non-negative and both inside the window that ends in June 2025, give a series whose entries
add up to 0.30000000000000004 (the double `1351079888211149 / 2 ^ 52`), which neither
equals the sum 0.3 of dataUsed over the rows nor is at most that sum. -/
theorem usage_conserved_rounding_counterexample :
    (∀ row ∈ ([⟨"r1", some ⟨2025, 2⟩, some (1 / 10), none, none⟩,
        ⟨"r2", some ⟨2025, 2⟩, some (1 / 5), none, none⟩] : List UsageRow),
      rowInWindow ⟨2025, 5⟩ row = true ∧ 0 ≤ orZero row.dataUsed) ∧
    exactSum (series ⟨2025, 5⟩
      [⟨"r1", some ⟨2025, 2⟩, some (1 / 10), none, none⟩,
       ⟨"r2", some ⟨2025, 2⟩, some (1 / 5), none, none⟩]) =
      some (1351079888211149 / 4503599627370496) ∧
    dataUsedSum
      [⟨"r1", some ⟨2025, 2⟩, some (1 / 10), none, none⟩,
       ⟨"r2", some ⟨2025, 2⟩, some (1 / 5), none, none⟩] = 3 / 10 ∧
    (1351079888211149 / 4503599627370496 : ℚ) ≠ 3 / 10 ∧
    ¬ ((1351079888211149 / 4503599627370496 : ℚ) ≤ 3 / 10) := by
  refine ⟨?_, ?_, ?_, by norm_num, by norm_num⟩
  · intro row hrow
    simp only [List.mem_cons, List.mem_singleton, List.not_mem_nil, or_false] at hrow
    rcases hrow with rfl | rfl
    · exact ⟨by decide, by simp [orZero]⟩
    · exact ⟨by decide, by simp [orZero]⟩
  · have hr : List.range 12 = [0, 1, 2, 3, 4, 5, 6, 7, 8, 9, 10, 11] := by decide
    have hout : ∀ i, i < 12 → i ≠ 8 →
        ([⟨"r1", some ⟨2025, 2⟩, some (1 / 10), none, none⟩,
          ⟨"r2", some ⟨2025, 2⟩, some (1 / 5), none, none⟩] : List UsageRow).filter
          (rowInMonth (windowMonth ⟨2025, 5⟩ i)) = [] := by
      intro i hi h8
      have h1 : ∀ j, j < 12 → j ≠ 8 →
          rowInMonth (windowMonth ⟨2025, 5⟩ j)
            ⟨"r1", some ⟨2025, 2⟩, some (1 / 10), none, none⟩ = false := by
        decide
      have h2 : ∀ j, j < 12 → j ≠ 8 →
          rowInMonth (windowMonth ⟨2025, 5⟩ j)
            ⟨"r2", some ⟨2025, 2⟩, some (1 / 5), none, none⟩ = false := by
        decide
      rw [List.filter_cons_of_neg (by rw [h1 i hi h8]; exact Bool.false_ne_true),
        List.filter_cons_of_neg (by rw [h2 i hi h8]; exact Bool.false_ne_true),
        List.filter_nil]
    have hin : ([⟨"r1", some ⟨2025, 2⟩, some (1 / 10), none, none⟩,
        ⟨"r2", some ⟨2025, 2⟩, some (1 / 5), none, none⟩] : List UsageRow).filter
        (rowInMonth (windowMonth ⟨2025, 5⟩ 8)) =
        [⟨"r1", some ⟨2025, 2⟩, some (1 / 10), none, none⟩,
         ⟨"r2", some ⟨2025, 2⟩, some (1 / 5), none, none⟩] := by
      rw [List.filter_cons_of_pos (by decide), List.filter_cons_of_pos (by decide),
        List.filter_nil]
    have hempty : dataUsedDoubleSum [] = .finite 0 := orZero_finite 0
    rw [series_eq_sums _ _ (by decide) (by decide), hr]
    simp only [List.map_cons, List.map_nil, hin, dataUsedDoubleSum_tenth_fifth,
      hout 0 (by decide) (by decide), hout 1 (by decide) (by decide),
      hout 2 (by decide) (by decide), hout 3 (by decide) (by decide),
      hout 4 (by decide) (by decide), hout 5 (by decide) (by decide),
      hout 6 (by decide) (by decide), hout 7 (by decide) (by decide),
      hout 9 (by decide) (by decide), hout 10 (by decide) (by decide),
      hout 11 (by decide) (by decide), hempty, exactSum, JsNumber.exact?]
    norm_num
  · simp [dataUsedSum, orZero]
    norm_num

/-- Claim C22, amended.  Usage is conserved by the monthly roll-up up to rounding, for a
current date (year at least 100, see `newDate`).  When the dataUsed are whole numbers, a
missing value counting as 0, with absolute values adding up to less than `2 ^ 53`, no addition
rounds: the twelve series entries are finite and their sum is the sum of dataUsed over the
rows dated inside the trailing window, so it equals the sum over all rows when every row is
dated inside the window, and is at most that sum when no dataUsed is negative.  For `n` rows
with dataUsed 0 or at least `2 ^ (-1022)` and no overflow, the sum of the series is the sum
over the rows dated inside the window up to a factor between `(1 - 2 ^ (-53)) ^ (n + 1)` and
`(1 + 2 ^ (-53)) ^ (n + 1)`, so at most `(1 + 2 ^ (-53)) ^ (n + 1)` times the sum over all
rows. -/
theorem usage_conserved (now : JsDate) (usageHistory : List UsageRow)
    (hm : now.month0 < 12) (hy : 100 ≤ now.year) :
    (wholeUsage usageHistory →
      exactSum (series now usageHistory) =
        some (dataUsedSum (usageHistory.filter (rowInWindow now))) ∧
      ((∀ row ∈ usageHistory, rowInWindow now row = true) →
        exactSum (series now usageHistory) = some (dataUsedSum usageHistory)) ∧
      ((∀ row ∈ usageHistory, 0 ≤ orZero row.dataUsed) →
        ∃ total, exactSum (series now usageHistory) = some total ∧
          total ≤ dataUsedSum usageHistory)) ∧
    (normalUsage usageHistory →
      (1 + 1 / 2 ^ (53 : ℕ)) ^ (usageHistory.length + 1) * dataUsedSum usageHistory <
        (2 : ℚ) ^ (1023 : ℤ) →
      ∃ total, exactSum (series now usageHistory) = some total ∧
        (1 - 1 / 2 ^ (53 : ℕ)) ^ (usageHistory.length + 1) *
            dataUsedSum (usageHistory.filter (rowInWindow now)) ≤ total ∧
        total ≤ (1 + 1 / 2 ^ (53 : ℕ)) ^ (usageHistory.length + 1) *
            dataUsedSum (usageHistory.filter (rowInWindow now)) ∧
        total ≤ (1 + 1 / 2 ^ (53 : ℕ)) ^ (usageHistory.length + 1) *
            dataUsedSum usageHistory ∧
        ((∀ row ∈ usageHistory, rowInWindow now row = true) →
          (1 - 1 / 2 ^ (53 : ℕ)) ^ (usageHistory.length + 1) * dataUsedSum usageHistory ≤
            total)) := by
  constructor
  · intro hwhole
    have hsum : exactSum (series now usageHistory) =
        some (dataUsedSum (usageHistory.filter (rowInWindow now))) := by
      rw [series_whole now usageHistory hm hy hwhole, exactSum_map_finite,
        window_sums_eq now hy usageHistory]
    refine ⟨hsum, ?_, ?_⟩
    · intro hall
      rw [hsum, List.filter_eq_self.2 hall]
    · intro hnonneg
      exact ⟨_, hsum, dataUsedSum_filter_le _ usageHistory hnonneg⟩
  · intro hnormal hbound
    obtain ⟨total, htotal, hlo, hhi⟩ := series_rel now usageHistory hm hy hnormal hbound
    have hU0 : (0 : ℚ) ≤ (1 + 1 / 2 ^ (53 : ℕ)) ^ (usageHistory.length + 1) := by positivity
    have hle := dataUsedSum_filter_le (rowInWindow now) usageHistory
      (normalUsage_nonneg usageHistory hnormal)
    have hmul := mul_le_mul_of_nonneg_left hle hU0
    refine ⟨total, htotal, hlo, hhi, by linarith, ?_⟩
    intro hall
    rw [List.filter_eq_self.2 hall] at hlo
    exact hlo

theorem usage_conserved_witness :
    exactSum (series ⟨2025, 5⟩
      [⟨"r1", some ⟨2025, 2⟩, some 2, none, none⟩, ⟨"r2", some ⟨2025, 4⟩, some 4, none, none⟩,
       ⟨"r3", some ⟨2024, 11⟩, none, none, none⟩]) =
      some (dataUsedSum
        [⟨"r1", some ⟨2025, 2⟩, some 2, none, none⟩, ⟨"r2", some ⟨2025, 4⟩, some 4, none, none⟩,
         ⟨"r3", some ⟨2024, 11⟩, none, none, none⟩]) ∧
    (∃ total, exactSum (series ⟨2025, 5⟩
      [⟨"r1", some ⟨2025, 2⟩, some 2, none, none⟩, ⟨"r4", some ⟨2020, 0⟩, some 7, none, none⟩,
       ⟨"r5", none, some 1, none, none⟩]) = some total ∧
      total ≤ dataUsedSum
        [⟨"r1", some ⟨2025, 2⟩, some 2, none, none⟩, ⟨"r4", some ⟨2020, 0⟩, some 7, none, none⟩,
         ⟨"r5", none, some 1, none, none⟩]) ∧
    (∃ total, exactSum (series ⟨2025, 5⟩
      [⟨"r1", some ⟨2025, 2⟩, some (1 / 10), none, none⟩,
       ⟨"r2", some ⟨2025, 2⟩, some (1 / 5), none, none⟩]) = some total ∧
      total ≤ (1 + 1 / 2 ^ (53 : ℕ)) ^
          (([⟨"r1", some ⟨2025, 2⟩, some (1 / 10), none, none⟩,
            ⟨"r2", some ⟨2025, 2⟩, some (1 / 5), none, none⟩] : List UsageRow).length + 1) *
        dataUsedSum
          [⟨"r1", some ⟨2025, 2⟩, some (1 / 10), none, none⟩,
           ⟨"r2", some ⟨2025, 2⟩, some (1 / 5), none, none⟩]) := by
  have hsum : dataUsedSum
      [⟨"r1", some ⟨2025, 2⟩, some (1 / 10), none, none⟩,
       ⟨"r2", some ⟨2025, 2⟩, some (1 / 5), none, none⟩] = 3 / 10 := by
    simp [dataUsedSum, orZero]
    norm_num
  have h3 := (usage_conserved ⟨2025, 5⟩
    [⟨"r1", some ⟨2025, 2⟩, some (1 / 10), none, none⟩,
     ⟨"r2", some ⟨2025, 2⟩, some (1 / 5), none, none⟩] (by decide) (by decide)).2 (by
      intro row hrow
      simp only [List.mem_cons, List.mem_singleton, List.not_mem_nil, or_false] at hrow
      rcases hrow with rfl | rfl
      · right
        simp only [orZero_some]
        norm_num
      · right
        simp only [orZero_some]
        norm_num) (by
      rw [hsum]
      norm_num)
  obtain ⟨total, htotal, _, _, hle, _⟩ := h3
  exact ⟨((usage_conserved ⟨2025, 5⟩ _ (by decide) (by decide)).1 (by
      constructor
      · intro row hrow
        simp only [List.mem_cons, List.mem_singleton, List.not_mem_nil, or_false] at hrow
        rcases hrow with rfl | rfl | rfl <;> simp [orZero]
      · simp [orZero]
        norm_num)).2.1 (by decide),
    ((usage_conserved ⟨2025, 5⟩ _ (by decide) (by decide)).1 (by
      constructor
      · intro row hrow
        simp only [List.mem_cons, List.mem_singleton, List.not_mem_nil, or_false] at hrow
        rcases hrow with rfl | rfl | rfl <;> simp [orZero]
      · simp [orZero]
        norm_num)).2.2 (by
      intro row hrow
      simp only [List.mem_cons, List.mem_singleton, List.not_mem_nil, or_false] at hrow
      rcases hrow with rfl | rfl | rfl <;> simp [orZero]),
    ⟨total, htotal, hle⟩⟩

/-! ## ManageUsers.jsx: pagination -/

theorem apply_keeps_page_pos (st : UsersPageState) (event : UsersEvent)
    (hst : 1 ≤ st.page) (hev : event.pagesPositive) : 1 ≤ (event.apply st).page := by
  cases event with
  | previous =>
    simp only [UsersEvent.apply, previousPage]
    omega
  | next pagination =>
    simp only [UsersEvent.pagesPositive] at hev
    simp only [UsersEvent.apply, nextPage]
    omega
  | changeQuery text => exact Int.le_refl 1
  | changeLimit option => exact Int.le_refl 1

theorem foldl_apply_keeps_page_pos :
    ∀ (events : List UsersEvent) (st : UsersPageState), 1 ≤ st.page →
      (∀ e ∈ events, e.pagesPositive) → 1 ≤ (events.foldl UsersEvent.apply st).page
  | [], _, hst, _ => hst
  | event :: events, st, hst, hev =>
    foldl_apply_keeps_page_pos events (event.apply st)
      (apply_keeps_page_pos st event hst (hev event (List.mem_cons_self event events)))
      (fun e he => hev e (List.mem_cons_of_mem event he))

/-- Claim C23.  Pagination stays in range: a click on Previous sets the page to
`max(1, page - 1)` and a click on Next sets it to `min(pages, page + 1)`, neither touching the
query or the page size; for page at least 1 and pages at least 1 both results are at least 1,
so from page 1 the page is at least 1 after any sequence of events whose paginations have at
least one page; Previous at page 1 leaves it at 1; Next never exceeds pages when page is at
most pages; every change of the search query or of the page size sets page to 1. -/
theorem pagination_in_range (page : Int) (pagination : Pagination) (events : List UsersEvent)
    (st : UsersPageState) (text : String) (option : LimitOption) :
    (UsersEvent.previous.apply st).page = max 1 (st.page - 1) ∧
    ((UsersEvent.next pagination).apply st).page = min pagination.pages (st.page + 1) ∧
    (UsersEvent.previous.apply st).query = st.query ∧
    (UsersEvent.previous.apply st).limit = st.limit ∧
    ((UsersEvent.next pagination).apply st).query = st.query ∧
    ((UsersEvent.next pagination).apply st).limit = st.limit ∧
    (runUsersEvents (events ++ [.previous])).page = max 1 ((runUsersEvents events).page - 1) ∧
    (runUsersEvents (events ++ [.next pagination])).page =
      min pagination.pages ((runUsersEvents events).page + 1) ∧
    (1 ≤ st.page → 1 ≤ pagination.pages →
      1 ≤ (UsersEvent.previous.apply st).page ∧
      1 ≤ ((UsersEvent.next pagination).apply st).page) ∧
    (st.page = 1 → (UsersEvent.previous.apply st).page = 1) ∧
    (st.page ≤ pagination.pages →
      ((UsersEvent.next pagination).apply st).page ≤ pagination.pages) ∧
    previousPage page = max 1 (page - 1) ∧
    nextPage pagination page = min pagination.pages (page + 1) ∧
    (1 ≤ page → 1 ≤ pagination.pages →
      1 ≤ previousPage page ∧ 1 ≤ nextPage pagination page) ∧
    ((∀ e ∈ events, e.pagesPositive) → 1 ≤ (runUsersEvents events).page) ∧
    previousPage 1 = 1 ∧
    (page ≤ pagination.pages → nextPage pagination page ≤ pagination.pages) ∧
    ((UsersEvent.changeQuery text).apply st).page = 1 ∧
    ((UsersEvent.changeQuery text).apply st).query = text ∧
    ((UsersEvent.changeLimit option).apply st).page = 1 ∧
    ((UsersEvent.changeLimit option).apply st).limit = option.value := by
  refine ⟨rfl, rfl, rfl, rfl, rfl, rfl, ?_, ?_, ?_, ?_, ?_, rfl, rfl, ?_, ?_, by decide, ?_,
    rfl, rfl, rfl, rfl⟩
  · simp only [runUsersEvents, List.foldl_append, List.foldl_cons, List.foldl_nil]
    rfl
  · simp only [runUsersEvents, List.foldl_append, List.foldl_cons, List.foldl_nil]
    rfl
  · intro hp hpages
    simp only [UsersEvent.apply, previousPage, nextPage]
    omega
  · intro hp
    simp only [UsersEvent.apply, previousPage, hp]
    decide
  · intro _
    simp only [UsersEvent.apply, nextPage]
    omega
  · intro hp hpages
    simp only [previousPage, nextPage]
    omega
  · intro hev
    exact foldl_apply_keeps_page_pos events UsersPageState.initial (by decide) hev
  · intro _
    simp only [nextPage]
    omega

theorem pagination_in_range_witness :
    (runUsersEvents ([.next ⟨1, 4, 37, 10⟩] ++ [.next ⟨2, 4, 37, 10⟩])).page = 3 ∧
    (runUsersEvents ([.next ⟨1, 4, 37, 10⟩, .next ⟨2, 4, 37, 10⟩] ++ [.previous])).page = 2 ∧
    (1 : Int) ≤ (UsersEvent.previous.apply ⟨"", 3, 10⟩).page ∧
    (1 : Int) ≤ ((UsersEvent.next ⟨3, 4, 37, 10⟩).apply ⟨"", 3, 10⟩).page ∧
    (UsersEvent.previous.apply ⟨"ann", 1, 10⟩).page = 1 ∧
    ((UsersEvent.next ⟨4, 4, 37, 10⟩).apply ⟨"", 4, 10⟩).page ≤ 4 ∧
    (1 : Int) ≤ previousPage 3 ∧ (1 : Int) ≤ nextPage ⟨3, 4, 37, 10⟩ 3 ∧
    1 ≤ (runUsersEvents [.next ⟨1, 4, 37, 10⟩, .next ⟨2, 4, 37, 10⟩, .previous, .previous,
      .previous, .changeLimit .fifty, .next ⟨1, 1, 37, 50⟩]).page ∧
    nextPage ⟨4, 4, 37, 10⟩ 4 ≤ 4 :=
  ⟨(pagination_in_range 3 ⟨2, 4, 37, 10⟩ [.next ⟨1, 4, 37, 10⟩] UsersPageState.initial ""
      .ten).2.2.2.2.2.2.2.1,
    (pagination_in_range 3 ⟨2, 4, 37, 10⟩ [.next ⟨1, 4, 37, 10⟩, .next ⟨2, 4, 37, 10⟩]
      UsersPageState.initial "" .ten).2.2.2.2.2.2.1,
    ((pagination_in_range 3 ⟨3, 4, 37, 10⟩ [] ⟨"", 3, 10⟩ "" .ten).2.2.2.2.2.2.2.2.1
      (by decide) (by decide)).1,
    ((pagination_in_range 3 ⟨3, 4, 37, 10⟩ [] ⟨"", 3, 10⟩ "" .ten).2.2.2.2.2.2.2.2.1
      (by decide) (by decide)).2,
    (pagination_in_range 3 ⟨3, 4, 37, 10⟩ [] ⟨"ann", 1, 10⟩ "" .ten).2.2.2.2.2.2.2.2.2.1 rfl,
    (pagination_in_range 4 ⟨4, 4, 37, 10⟩ [] ⟨"", 4, 10⟩ "" .ten).2.2.2.2.2.2.2.2.2.2.1
      (by decide),
    ((pagination_in_range 3 ⟨3, 4, 37, 10⟩ [] UsersPageState.initial "" .ten
      ).2.2.2.2.2.2.2.2.2.2.2.2.2.1 (by decide) (by decide)).1,
    ((pagination_in_range 3 ⟨3, 4, 37, 10⟩ [] UsersPageState.initial "" .ten
      ).2.2.2.2.2.2.2.2.2.2.2.2.2.1 (by decide) (by decide)).2,
    (pagination_in_range 3 ⟨3, 4, 37, 10⟩ [.next ⟨1, 4, 37, 10⟩, .next ⟨2, 4, 37, 10⟩,
      .previous, .previous, .previous, .changeLimit .fifty, .next ⟨1, 1, 37, 50⟩]
      UsersPageState.initial "" .ten).2.2.2.2.2.2.2.2.2.2.2.2.2.2.1 (by
        intro e he
        simp only [List.mem_cons, List.mem_singleton, List.not_mem_nil, or_false] at he
        rcases he with rfl | rfl | rfl | rfl | rfl | rfl | rfl <;>
          simp [UsersEvent.pagesPositive]),
    (pagination_in_range 4 ⟨4, 4, 37, 10⟩ [] UsersPageState.initial "" .ten
      ).2.2.2.2.2.2.2.2.2.2.2.2.2.2.2.2.1 (by decide)⟩

/-! ## Dashboard.jsx: pie percentages -/

theorem countNumber_small (v : Nat) (hv : v < 2 ^ 53) : countNumber v = .finite v := by
  unfold countNumber
  rw [roundDouble_natCast v hv, orZero_finite]

theorem legendValue_eq_countNumber (data : List Nat) (i : Nat) (v : Nat)
    (hv : data[i]? = some v) : legendValue data i = countNumber v := by
  unfold legendValue countNumber
  rw [hv, roundDouble_orZero]

theorem pieTotal_foldl :
    ∀ (data : List Nat) (acc : Nat), acc + data.sum < 2 ^ 53 →
      data.foldl (fun (sum : JsNumber) (v : Nat) => sum.add (countNumber v)) (.finite acc) =
        JsNumber.finite ((acc + data.sum : Nat) : ℚ)
  | [], acc, _ => by simp
  | v :: rest, acc, h => by
    rw [List.sum_cons] at h
    rw [List.foldl_cons, countNumber_small v (by omega)]
    show List.foldl _ (roundDouble ((acc : ℚ) + (v : ℚ))) _ = _
    rw [← Nat.cast_add, roundDouble_natCast (acc + v) (by omega),
      pieTotal_foldl rest (acc + v) (by omega), List.sum_cons, Nat.add_assoc]

theorem pieTotal_exact (data : List Nat) (h : data.sum < 2 ^ 53) :
    pieTotal data = .finite ((data.sum : Nat) : ℚ) := by
  have h0 := pieTotal_foldl data 0 (by omega)
  simp only [Nat.cast_zero, Nat.zero_add] at h0
  exact h0

theorem percent_near (v total : Nat) (htotal : 0 < total) (hv : v ≤ total) :
    ∃ p : ℚ, ((JsNumber.finite v).div (.finite total)).mul (.finite 100) = .finite p ∧
      0 ≤ p ∧ |p - (v : ℚ) / (total : ℚ) * 100| ≤ (2 : ℚ) ^ (-45 : ℤ) := by
  have ht0 : (0 : ℚ) < (total : ℚ) := by exact_mod_cast htotal
  have hvt : (v : ℚ) ≤ (total : ℚ) := by exact_mod_cast hv
  have hq0 : (0 : ℚ) ≤ (v : ℚ) / (total : ℚ) := div_nonneg (Nat.cast_nonneg v) ht0.le
  have hq1 : (v : ℚ) / (total : ℚ) ≤ 1 := (div_le_one ht0).2 hvt
  obtain ⟨q, hq, hqnn, hqerr⟩ := roundDouble_near ((v : ℚ) / (total : ℚ)) 0 hq0
    (by norm_num; linarith) (by norm_num) (by norm_num)
  have hqerr' := abs_le.1 hqerr
  have h53 : (2 : ℚ) ^ ((0 : ℤ) - 53) = 1 / 9007199254740992 := by norm_num
  rw [h53] at hqerr'
  obtain ⟨p, hp, hpnn, hperr⟩ := roundDouble_near (q * 100) 6 (by positivity)
    (by norm_num; linarith [hqerr'.2]) (by norm_num) (by norm_num)
  have hperr' := abs_le.1 hperr
  have h47 : (2 : ℚ) ^ ((6 : ℤ) - 53) = 1 / 140737488355328 := by norm_num
  rw [h47] at hperr'
  have h45 : (2 : ℚ) ^ (-45 : ℤ) = 1 / 35184372088832 := by norm_num
  refine ⟨p, ?_, hpnn, ?_⟩
  · show (if ((total : ℚ) = 0) then _ else roundDouble ((v : ℚ) / (total : ℚ))).mul _ = _
    rw [if_neg ht0.ne', hq]
    exact hp
  · rw [h45, abs_le]
    constructor <;> linarith [hqerr'.1, hqerr'.2, hperr'.1, hperr'.2]

theorem div_finite (a b : ℚ) (hb : b ≠ 0) :
    (JsNumber.finite a).div (.finite b) = roundDouble (a / b) := by
  simp [JsNumber.div, hb]

theorem mul_finite (a b : ℚ) : (JsNumber.finite a).mul (.finite b) = roundDouble (a * b) :=
  rfl

theorem tooltipPercent_exact (data : List Nat) (v : Nat) (hsum : data.sum < 2 ^ 53)
    (hpos : 0 < data.sum) (hv : v < 2 ^ 53) :
    tooltipPercent data v =
      .fixed1 (((JsNumber.finite v).div (.finite ((data.sum : Nat) : ℚ))).mul
        (.finite 100)) := by
  have hne : ((data.sum : Nat) : ℚ) ≠ 0 := by
    exact_mod_cast (Nat.pos_iff_ne_zero.1 hpos)
  unfold tooltipPercent percentText
  rw [pieTotal_exact data hsum, countNumber_small v hv,
    if_pos (by simp only [JsNumber.truthy]; exact decide_eq_true hne)]

theorem tooltipPercent_zero (data : List Nat) (v : Nat) (hsum : data.sum = 0) :
    tooltipPercent data v = .zeroLiteral := by
  unfold tooltipPercent percentText
  rw [pieTotal_exact data (by omega), hsum]
  simp [JsNumber.truthy]

theorem generateLabels_getElem? (original : List LegendItem) (labels : List String)
    (data : List Nat) (i : Nat) :
    (generateLabels original labels data)[i]? =
      original[i]?.map fun item =>
        { item := item
          text := nullish labels[i]? (nullish item.text "")
          pct := percentText (legendValue data i) (pieTotal data) } := by
  unfold generateLabels
  rw [List.getElem?_map, List.getElem?_enum]
  cases original[i]? with
  | none => rfl
  | some item => rfl

theorem roundDouble_two_thirds :
    roundDouble (2 / 3) = .finite (6004799503160661 / 9007199254740992) := by
  rw [roundDouble_eq_of_pos (2 / 3) (-1) 6004799503160661 (by norm_num) (by norm_num)
    (by norm_num) (Or.inl (by norm_num [abs_lt])) (by norm_num) (by norm_num)]
  exact congrArg JsNumber.finite (by norm_num)

theorem roundDouble_one_third :
    roundDouble (1 / 3) = .finite (6004799503160661 / 18014398509481984) := by
  rw [roundDouble_eq_of_pos (1 / 3) (-2) 6004799503160661 (by norm_num) (by norm_num)
    (by norm_num) (Or.inl (by norm_num [abs_lt])) (by norm_num) (by norm_num)]
  exact congrArg JsNumber.finite (by norm_num)

theorem roundDouble_two_thirds_percent :
    roundDouble (6004799503160661 / 9007199254740992 * 100) =
      .finite (2345624805922133 / 35184372088832) := by
  rw [roundDouble_eq_of_pos _ 6 4691249611844266 (by norm_num) (by norm_num)
    (by norm_num) (Or.inl (by norm_num [abs_lt])) (by norm_num) (by norm_num)]
  exact congrArg JsNumber.finite (by norm_num)

theorem roundDouble_one_third_percent :
    roundDouble (6004799503160661 / 18014398509481984 * 100) =
      .finite (2345624805922133 / 70368744177664) := by
  rw [roundDouble_eq_of_pos _ 5 4691249611844266 (by norm_num) (by norm_num)
    (by norm_num) (Or.inl (by norm_num [abs_lt])) (by norm_num) (by norm_num)]
  exact congrArg JsNumber.finite (by norm_num)

/-- Claim C24, as stated, fails: for the counts 2, 1, 0, 0 the tooltip percentages are the
doubles 66.66666666666666, 33.33333333333333, 0 and 0, which add up to 99.99999999999999 and
not to 100; and the legend, made from the one item that the default generator gives for the
one dataset, has the single label Active, with the percentage of the first slice, and none for
the other three slices. -/
theorem pie_percentages_rounding_counterexample :
    tooltipPercent [2, 1, 0, 0] 2 = .fixed1 (.finite (2345624805922133 / 35184372088832)) ∧
    tooltipPercent [2, 1, 0, 0] 1 = .fixed1 (.finite (2345624805922133 / 70368744177664)) ∧
    tooltipPercent [2, 1, 0, 0] 0 = .fixed1 (.finite 0) ∧
    (2345624805922133 / 35184372088832 + 2345624805922133 / 70368744177664 + 0 + 0 : ℚ) =
      7036874417766399 / 70368744177664 ∧
    (7036874417766399 / 70368744177664 : ℚ) ≠ 100 ∧
    (pieLegend none [2, 1, 0, 0]).map LegendLabel.text = ["Active"] ∧
    (pieLegend none [2, 1, 0, 0]).map LegendLabel.pct =
      [.fixed1 (.finite (2345624805922133 / 35184372088832))] := by
  have hs : ([2, 1, 0, 0] : List Nat).sum = 3 := rfl
  have h2 : tooltipPercent [2, 1, 0, 0] 2 =
      .fixed1 (.finite (2345624805922133 / 35184372088832)) := by
    rw [tooltipPercent_exact [2, 1, 0, 0] 2 (by decide) (by decide) (by decide), hs,
      div_finite _ _ (by norm_num)]
    norm_num only [Nat.cast_ofNat]
    rw [roundDouble_two_thirds, mul_finite, roundDouble_two_thirds_percent]
  refine ⟨h2, ?_, ?_, by norm_num, by norm_num, ?_, ?_⟩
  · rw [tooltipPercent_exact [2, 1, 0, 0] 1 (by decide) (by decide) (by decide), hs,
      div_finite _ _ (by norm_num)]
    norm_num only [Nat.cast_ofNat, Nat.cast_one]
    rw [roundDouble_one_third, mul_finite, roundDouble_one_third_percent]
  · rw [tooltipPercent_exact [2, 1, 0, 0] 0 (by decide) (by decide) (by decide), hs,
      div_finite _ _ (by norm_num)]
    simp [roundDouble, mul_finite]
  · rfl
  · have hl : legendValue [2, 1, 0, 0] 0 = countNumber 2 :=
      legendValue_eq_countNumber _ 0 2 rfl
    show [percentText (legendValue [2, 1, 0, 0] 0) (pieTotal [2, 1, 0, 0])] = _
    rw [hl]
    exact congrArg (fun t => [t]) h2

/-- Claim C24, amended.  Pie percentages are guarded and nearly complete: for four counts
`a, b, c, d` adding up to less than `2 ^ 53` the total is their exact sum; a legend item with
index `i`, for whatever items the legend has, shows the same percentage as the tooltip of
slice `i`; when the total is 0 every legend and tooltip percentage is the literal `'0.0'`,
computed without a division; when the total is positive the percentage of a slice is the
double `(value / total) * 100`, the division and the multiplication each rounding to the
nearest double, which is within `2 ^ (-45)` of the exact percentage, and the percentages of the
four slices add up to 100 within `2 ^ (-43)`. -/
theorem pie_percentages (a b c d : Nat) (v : Nat) (original : List LegendItem)
    (labels : List String) (hsum : a + b + c + d < 2 ^ 53) :
    pieTotal [a, b, c, d] = .finite ((a + b + c + d : Nat) : ℚ) ∧
    (generateLabels original labels [a, b, c, d]).length = original.length ∧
    (∀ i w, i < original.length → [a, b, c, d][i]? = some w →
      (generateLabels original labels [a, b, c, d])[i]?.map LegendLabel.pct =
        some (tooltipPercent [a, b, c, d] w)) ∧
    (a + b + c + d = 0 →
      tooltipPercent [a, b, c, d] v = .zeroLiteral ∧
      ∀ l ∈ generateLabels original labels [a, b, c, d], l.pct = .zeroLiteral) ∧
    (0 < a + b + c + d → v ≤ a + b + c + d →
      tooltipPercent [a, b, c, d] v =
        .fixed1 (((JsNumber.finite v).div (.finite ((a + b + c + d : Nat) : ℚ))).mul
          (.finite 100)) ∧
      ∃ p : ℚ, tooltipPercent [a, b, c, d] v = .fixed1 (.finite p) ∧ 0 ≤ p ∧
        |p - (v : ℚ) / ((a + b + c + d : Nat) : ℚ) * 100| ≤ (2 : ℚ) ^ (-45 : ℤ)) ∧
    (0 < a + b + c + d →
      ∃ pa pb pc pd : ℚ,
        tooltipPercent [a, b, c, d] a = .fixed1 (.finite pa) ∧
        tooltipPercent [a, b, c, d] b = .fixed1 (.finite pb) ∧
        tooltipPercent [a, b, c, d] c = .fixed1 (.finite pc) ∧
        tooltipPercent [a, b, c, d] d = .fixed1 (.finite pd) ∧
        |pa + pb + pc + pd - 100| ≤ (2 : ℚ) ^ (-43 : ℤ)) := by
  have hs : ([a, b, c, d] : List Nat).sum = a + b + c + d := by
    simp only [List.sum_cons, List.sum_nil]
    omega
  have htotal : pieTotal [a, b, c, d] = .finite ((a + b + c + d : Nat) : ℚ) := by
    rw [pieTotal_exact [a, b, c, d] (by omega), hs]
  have hslice : ∀ w : Nat, 0 < a + b + c + d → w ≤ a + b + c + d →
      tooltipPercent [a, b, c, d] w =
        .fixed1 (((JsNumber.finite w).div (.finite ((a + b + c + d : Nat) : ℚ))).mul
          (.finite 100)) ∧
      ∃ p : ℚ, tooltipPercent [a, b, c, d] w = .fixed1 (.finite p) ∧ 0 ≤ p ∧
        |p - (w : ℚ) / ((a + b + c + d : Nat) : ℚ) * 100| ≤ (2 : ℚ) ^ (-45 : ℤ) := by
    intro w hpos hw
    have hexact := tooltipPercent_exact [a, b, c, d] w (by omega) (by omega) (by omega)
    rw [hs] at hexact
    obtain ⟨p, hp, hp0, hperr⟩ := percent_near w (a + b + c + d) hpos hw
    exact ⟨hexact, p, by rw [hexact, hp], hp0, hperr⟩
  refine ⟨htotal, ?_, ?_, ?_, hslice v, ?_⟩
  · simp [generateLabels]
  · intro i w hi hw
    rw [generateLabels_getElem?, List.getElem?_eq_getElem hi]
    simp only [Option.map_some']
    rw [legendValue_eq_countNumber _ i w hw]
    rfl
  · intro h0
    have hzero : pieTotal [a, b, c, d] = .finite 0 := by
      rw [htotal, h0]
      simp
    refine ⟨tooltipPercent_zero _ v (by omega), ?_⟩
    intro l hl
    unfold generateLabels at hl
    obtain ⟨entry, _, rfl⟩ := List.mem_map.1 hl
    simp [percentText, hzero, JsNumber.truthy]
  · intro hpos
    obtain ⟨pa, ha, _, hae⟩ := (hslice a hpos (by omega)).2
    obtain ⟨pb, hb, _, hbe⟩ := (hslice b hpos (by omega)).2
    obtain ⟨pc, hc, _, hce⟩ := (hslice c hpos (by omega)).2
    obtain ⟨pd, hd, _, hde⟩ := (hslice d hpos (by omega)).2
    refine ⟨pa, pb, pc, pd, ha, hb, hc, hd, ?_⟩
    have hne : ((a + b + c + d : Nat) : ℚ) ≠ 0 := by
      exact_mod_cast (Nat.pos_iff_ne_zero.1 hpos)
    have hall : (a : ℚ) / ((a + b + c + d : Nat) : ℚ) * 100 +
        (b : ℚ) / ((a + b + c + d : Nat) : ℚ) * 100 +
        (c : ℚ) / ((a + b + c + d : Nat) : ℚ) * 100 +
        (d : ℚ) / ((a + b + c + d : Nat) : ℚ) * 100 = 100 := by
      have hcast : ((a + b + c + d : Nat) : ℚ) = (a : ℚ) + b + c + d := by
        push_cast
        ring
      have hjoin : (a : ℚ) / ((a + b + c + d : Nat) : ℚ) * 100 +
          (b : ℚ) / ((a + b + c + d : Nat) : ℚ) * 100 +
          (c : ℚ) / ((a + b + c + d : Nat) : ℚ) * 100 +
          (d : ℚ) / ((a + b + c + d : Nat) : ℚ) * 100 =
          ((a : ℚ) + b + c + d) / ((a + b + c + d : Nat) : ℚ) * 100 := by
        ring
      rw [hjoin, ← hcast, div_self hne]
      norm_num
    have h45 : (2 : ℚ) ^ (-45 : ℤ) = 1 / 35184372088832 := by norm_num
    have h43 : (2 : ℚ) ^ (-43 : ℤ) = 1 / 8796093022208 := by norm_num
    rw [h45] at hae hbe hce hde
    rw [h43, abs_le]
    have ha' := abs_le.1 hae
    have hb' := abs_le.1 hbe
    have hc' := abs_le.1 hce
    have hd' := abs_le.1 hde
    constructor <;> linarith [ha'.1, ha'.2, hb'.1, hb'.2, hc'.1, hc'.2, hd'.1, hd'.2]

theorem pie_percentages_witness :
    pieTotal [2, 1, 0, 0] = .finite ((2 + 1 + 0 + 0 : Nat) : ℚ) ∧
    tooltipPercent [0, 0, 0, 0] 0 = .zeroLiteral ∧
    (∃ p : ℚ, tooltipPercent [2, 1, 0, 0] 1 = .fixed1 (.finite p) ∧ 0 ≤ p ∧
      |p - ((1 : Nat) : ℚ) / ((2 + 1 + 0 + 0 : Nat) : ℚ) * 100| ≤ (2 : ℚ) ^ (-45 : ℤ)) ∧
    (∃ pa pb pc pd : ℚ,
      tooltipPercent [2, 1, 0, 0] 2 = .fixed1 (.finite pa) ∧
      tooltipPercent [2, 1, 0, 0] 1 = .fixed1 (.finite pb) ∧
      tooltipPercent [2, 1, 0, 0] 0 = .fixed1 (.finite pc) ∧
      tooltipPercent [2, 1, 0, 0] 0 = .fixed1 (.finite pd) ∧
      |pa + pb + pc + pd - 100| ≤ (2 : ℚ) ^ (-43 : ℤ)) ∧
    (generateLabels [⟨none, 0⟩] ["Active", "Cancelled", "Expired", "Pending"]
      [2, 1, 0, 0])[0]?.map LegendLabel.pct = some (tooltipPercent [2, 1, 0, 0] 2) :=
  ⟨(pie_percentages 2 1 0 0 1 [] [] (by decide)).1,
    ((pie_percentages 0 0 0 0 0 [] [] (by decide)).2.2.2.1 rfl).1,
    ((pie_percentages 2 1 0 0 1 [] [] (by decide)).2.2.2.2.1 (by decide) (by decide)).2,
    (pie_percentages 2 1 0 0 1 [] [] (by decide)).2.2.2.2.2 (by decide),
    (pie_percentages 2 1 0 0 1 [⟨none, 0⟩] ["Active", "Cancelled", "Expired", "Pending"]
      (by decide)).2.2.1 0 2 (by decide) rfl⟩

end Lumen
